import Mathlib

/-!
# hip-tests: the shared test-support header

A shallow embedding of `catch/include/hip_test_common.hh`: the main-thread
status checks (`HIP_CHECK`, `HIP_CHECK_ERROR`, `HIPCHECK`), the threaded
checks (`HIP_CHECK_THREAD`, `REQUIRE_THREAD`, `HIP_CHECK_THREAD_FINALIZE`)
and the result collector they talk to, the skip protocol (`HIP_SKIP_TEST`)
and the blocking stream coordinator (`BlockingContext`); and of the
device-gated tests of `catch/multiproc/hipMemCoherencyTstMProc.cc`.

Conventions of the embedding:

* an expression handed to a check is a state transformer
  `σ → value × σ` over the state `σ` the expression can touch (the runtime,
  the locals of the test), so that "evaluated once" and "not evaluated" are
  visible in the resulting state;
* `__LINE__`, `__FILE__` and the stringified argument `#error` are explicit
  arguments of each check;
* a `REQUIRE` that fails ends the test case with one reportable failure.
-/

namespace HipTest

/-! ## Status codes -/

/-- Status code of the runtime (`hipError_t`). The enumeration is declared by
the runtime headers; a code is represented by its numeric value. -/
abbrev hipError_t := Nat

/-- The success code, `hipSuccess = 0`. -/
abbrev hipSuccess : hipError_t := 0
/-- The code `hipErrorInvalidValue = 1`. -/
abbrev hipErrorInvalidValue : hipError_t := 1
/-- The code `hipErrorInvalidDeviceFunction = 98`. -/
abbrev hipErrorInvalidDeviceFunction : hipError_t := 98
/-- The code `hipErrorNotReady = 600`. -/
abbrev hipErrorNotReady : hipError_t := 600
/-- The code `hipErrorPeerAccessAlreadyEnabled = 704`. -/
abbrev hipErrorPeerAccessAlreadyEnabled : hipError_t := 704
/-- The code `hipErrorNotSupported = 801`. -/
abbrev hipErrorNotSupported : hipError_t := 801

/-- An expression of a test that yields a value of type `α`: evaluating it in
state `w` gives the value and the state after the evaluation. -/
abbrev Expr (σ α : Type) := σ → α × σ

/-- Instruments an expression with a counter of its evaluations: the state
is paired with the number of times the expression has been evaluated. -/
def counting {σ α : Type} (e : Expr σ α) : Expr (σ × Nat) α :=
  fun s => ((e s.1).1, ((e s.1).2, s.2 + 1))

/-! ## Main-thread checks -/

/-- The message scoped by `INFO` when an assertion of a status check fails:
the observed code, the expected code when the check prints one, the text of
the checked expression and the location of the check. -/
structure Failure where
  code : hipError_t
  expectedCode : Option hipError_t
  str : String
  file : String
  line : Nat
deriving DecidableEq, Repr

/-- Result of a statement of a test body run on the main thread: either the
statement completes and the test goes on in state `w`, or an assertion
failed (`REQUIRE`) and the test case ends with the reportable failure `f`. -/
inductive Outcome (σ : Type) where
  | completed (w : σ)
  | raised (f : Failure) (w : σ)

/-- Whether the statement raised a reportable failure. -/
def Outcome.isRaised {σ : Type} : Outcome σ → Bool
  | .completed _ => false
  | .raised _ _ => true

/-- State in which the statement left the test. -/
def Outcome.state {σ : Type} : Outcome σ → σ
  | .completed w => w
  | .raised _ w => w

/-- Embedding of `HIP_CHECK(error)`, hip_test_common.hh lines 39-48. -/
def HIP_CHECK {σ : Type} (line : Nat) (file str : String) (error : Expr σ hipError_t)
    (w : σ) : Outcome σ :=
  let localError := (error w).1
  if (localError ≠ hipSuccess) ∧ (localError ≠ hipErrorPeerAccessAlreadyEnabled) then
    .raised ⟨localError, none, str, file, line⟩ (error w).2
  else
    .completed (error w).2

/-- Embedding of `HIP_CHECK_ERROR(errorExpr, expectedError)`,
hip_test_common.hh lines 79-89: `REQUIRE(localError == expectedError)`. -/
def HIP_CHECK_ERROR {σ : Type} (line : Nat) (file str : String)
    (errorExpr : Expr σ hipError_t) (expectedError : hipError_t) (w : σ) : Outcome σ :=
  let localError := (errorExpr w).1
  if localError = expectedError then
    .completed (errorExpr w).2
  else
    .raised ⟨localError, some expectedError, str, file, line⟩ (errorExpr w).2

/-! ## Result records and the collector -/

/-- Identity of a thread. -/
abbrev ThreadId := Nat

/-- Modelled from the spec: the Result Record (`HCResult`), whose declaration
in `hip_test_context.hh` is not part of the sources. Its fields are the
source line number, the source file name, the status code observed, the
literal text of the checked expression and an optional boolean outcome, in
the order in which the checks pass them to the constructor. -/
structure HCResult where
  line : Nat
  file : String
  status : hipError_t
  text : String
  outcome : Option Bool
deriving DecidableEq, Repr

/-- Modelled from the spec: a record indicates failure when its status is
not the success status, or its boolean outcome is false. -/
def HCResult.indicatesFailure (r : HCResult) : Bool :=
  (r.status != hipSuccess) || (r.outcome == some false)

/-- Modelled from the spec: the Result Collector (`TestContext`, declared in
`hip_test_context.hh`, not part of the sources): a mapping from thread
identity to the ordered sequence of records of that thread, and the boolean
"has any failure occurred". -/
structure TestContext where
  results : List (ThreadId × List HCResult)
  failureFlag : Bool
deriving DecidableEq, Repr

/-- Modelled from the spec: the collector at the start of a test case, with
no record and the failure flag false. -/
def TestContext.fresh : TestContext := ⟨[], false⟩

/-- Modelled from the spec: `hasErrorOccured()` reads the failure flag. -/
def TestContext.hasErrorOccured (c : TestContext) : Bool := c.failureFlag

/-- Modelled from the spec: the step of `addResults` on the mapping. It
appends `r` to the sequence of thread `t`, adding the thread to the mapping
when it has no sequence yet. -/
def appendFor (t : ThreadId) (r : HCResult) :
    List (ThreadId × List HCResult) → List (ThreadId × List HCResult)
  | [] => [(t, [r])]
  | (u, rs) :: rest =>
    if u = t then (u, rs ++ [r]) :: rest else (u, rs) :: appendFor t r rest

/-- Modelled from the spec: `addResults(record)` called by thread `t`
appends the record to the private sequence of `t` and sets the failure flag
when the record indicates failure. -/
def TestContext.addResults (c : TestContext) (t : ThreadId) (r : HCResult) : TestContext :=
  { results := appendFor t r c.results
    failureFlag := if r.indicatesFailure then true else c.failureFlag }

/-- The ordered sequence of records of thread `t`. -/
def sequenceIn (t : ThreadId) : List (ThreadId × List HCResult) → List HCResult
  | [] => []
  | (u, rs) :: rest => if u = t then rs else sequenceIn t rest

/-- The ordered sequence of records the collector holds for thread `t`. -/
def TestContext.sequenceOf (c : TestContext) (t : ThreadId) : List HCResult :=
  sequenceIn t c.results

/-- All records of the collector, thread after thread. -/
def TestContext.allRecords (c : TestContext) : List HCResult :=
  (c.results.map Prod.snd).flatten

/-- Number of records the collector holds. -/
def TestContext.recordCount (c : TestContext) : Nat := c.allRecords.length

/-- Modelled from the spec: the reportable failure raised for a record,
with the file, the line and the expected and the actual status of the
record. -/
def HCResult.report (r : HCResult) : Failure :=
  ⟨r.status, some hipSuccess, r.text, r.file, r.line⟩

/-- Modelled from the spec: `finalizeResults()` walks the sequence of every
thread, raises one reportable failure for every record that indicates
failure and nothing for a passing record, and resets the collector. The
result is the list of the failures raised and the collector afterwards. -/
def TestContext.finalizeResults (c : TestContext) : List Failure × TestContext :=
  ((c.allRecords.filter HCResult.indicatesFailure).map HCResult.report, TestContext.fresh)

/-! ## Threaded checks -/

/-- How a statement of a worker function ends: control falls through to the
next statement, or the statement executed `return`. -/
inductive Flow where
  | fallthrough
  | returned
deriving DecidableEq, Repr

/-- A statement of a worker function run by a thread: it acts on the
collector and on the state `σ` of the thread. -/
abbrev Stmt (σ : Type) := TestContext × σ → Flow × (TestContext × σ)

/-- Embedding of `HIP_CHECK_THREAD(error)`, hip_test_common.hh lines 51-60,
expanded in a function run by thread `self`. -/
def HIP_CHECK_THREAD {σ : Type} (self : ThreadId) (line : Nat) (file text : String)
    (error : Expr σ hipError_t) : Stmt σ :=
  fun s =>
    if s.1.hasErrorOccured = true then
      (.returned, s)
    else
      let localError := (error s.2).1
      let result : HCResult := ⟨line, file, localError, text, none⟩
      (.fallthrough, (s.1.addResults self result, (error s.2).2))

/-- Embedding of `REQUIRE_THREAD(condition)`, hip_test_common.hh lines 62-71,
expanded in a function run by thread `self`. -/
def REQUIRE_THREAD {σ : Type} (self : ThreadId) (line : Nat) (file text : String)
    (condition : Expr σ Bool) : Stmt σ :=
  fun s =>
    if s.1.hasErrorOccured = true then
      (.returned, s)
    else
      let localResult := (condition s.2).1
      let result : HCResult := ⟨line, file, hipSuccess, text, some localResult⟩
      (.fallthrough, (s.1.addResults self result, (condition s.2).2))

/-- Embedding of `HIP_CHECK_THREAD_FINALIZE()`, hip_test_common.hh lines
74-75: the failures raised on the calling thread and the collector
afterwards. -/
def HIP_CHECK_THREAD_FINALIZE (c : TestContext) : List Failure × TestContext :=
  c.finalizeResults

/-- Runs the statements of a worker function in order; a statement that
returns ends the function and the statements after it are not run. -/
def runBody {σ : Type} : List (Stmt σ) → TestContext × σ → Flow × (TestContext × σ)
  | [], s => (.fallthrough, s)
  | st :: rest, s =>
    match st s with
    | (.returned, s1) => (.returned, s1)
    | (.fallthrough, s1) => runBody rest s1

/-- One operation on the collector during the worker phase of a test case:
a record submitted by a thread, or a threaded check of either shape run by
a thread in some state of that thread. -/
inductive CollectorOp (σ : Type) where
  | submit (t : ThreadId) (r : HCResult)
  | statusCheck (t : ThreadId) (line : Nat) (file text : String)
      (error : Expr σ hipError_t) (w : σ)
  | conditionCheck (t : ThreadId) (line : Nat) (file text : String)
      (condition : Expr σ Bool) (w : σ)

/-- The collector after one operation. -/
def CollectorOp.apply {σ : Type} : CollectorOp σ → TestContext → TestContext
  | .submit t r, c => c.addResults t r
  | .statusCheck t line file text error w, c =>
    (HIP_CHECK_THREAD t line file text error (c, w)).2.1
  | .conditionCheck t line file text condition w, c =>
    (REQUIRE_THREAD t line file text condition (c, w)).2.1

/-- The collector after a sequence of operations. -/
def applyOps {σ : Type} : List (CollectorOp σ) → TestContext → TestContext
  | [], c => c
  | op :: ops, c => applyOps ops (op.apply c)

/-- The collector after the submissions `subs` (thread, record), in the
order in which `addResults` served them. -/
def submitAll : List (ThreadId × HCResult) → TestContext → TestContext
  | [], c => c
  | (t, r) :: subs, c => submitAll subs (c.addResults t r)

/-! ## Workers running status checks concurrently

A worker function made of status checks is run by several threads. The
three steps of a `HIP_CHECK_THREAD` (reading the failure flag, evaluating
the expression, submitting the record) are separate steps of the thread, and
a schedule says which thread takes the next step. -/

/-- One `HIP_CHECK_THREAD(error)` call site of a worker function. -/
structure StatusCheck (σ : Type) where
  line : Nat
  file : String
  text : String
  error : Expr σ hipError_t

/-- Where a thread stands inside the current `HIP_CHECK_THREAD`: about to
read the failure flag, about to evaluate the expression (the flag was read
as false), or about to submit the record for the status `localError`. -/
inductive Phase where
  | entry
  | evaluate
  | submit (localError : hipError_t)
deriving DecidableEq, Repr

/-- State of a worker thread: the index of its current check, the phase in
that check, its own state, and whether a check made the function return. -/
structure Worker (σ : Type) where
  pc : Nat
  phase : Phase
  world : σ
  returned : Bool

/-- The collector and the worker threads. -/
structure System (σ : Type) where
  ctx : TestContext
  workers : ThreadId → Worker σ

/-- Replaces the state of worker `t`. -/
def System.setWorker {σ : Type} (s : System σ) (t : ThreadId) (wk : Worker σ) : System σ :=
  { s with workers := fun u => if u = t then wk else s.workers u }

/-- One step of thread `t`, where `code t` lists the checks of its worker
function. A thread whose function has returned, or has no check left, does
nothing. -/
def System.step {σ : Type} (code : ThreadId → List (StatusCheck σ)) (t : ThreadId)
    (s : System σ) : System σ :=
  let wk := s.workers t
  if wk.returned = true then s
  else
    match (code t)[wk.pc]? with
    | none => s
    | some chk =>
      match wk.phase with
      | .entry =>
        if s.ctx.hasErrorOccured = true then
          s.setWorker t { wk with returned := true }
        else
          s.setWorker t { wk with phase := .evaluate }
      | .evaluate =>
        s.setWorker t
          { wk with phase := .submit (chk.error wk.world).1, world := (chk.error wk.world).2 }
      | .submit localError =>
        { ctx := s.ctx.addResults t ⟨chk.line, chk.file, localError, chk.text, none⟩
          workers := fun u =>
            if u = t then { wk with pc := wk.pc + 1, phase := .entry } else s.workers u }

/-- Runs a schedule: the threads take their steps in the order listed. -/
def System.run {σ : Type} (code : ThreadId → List (StatusCheck σ)) :
    List ThreadId → System σ → System σ
  | [], s => s
  | t :: sched, s => System.run code sched (System.step code t s)

/-- The system at the start of the worker phase: a fresh collector, and
every thread at the first check of its function, in state `w0 t`. -/
def System.start {σ : Type} (w0 : ThreadId → σ) : System σ :=
  { ctx := TestContext.fresh
    workers := fun t => ⟨0, .entry, w0 t, false⟩ }

/-- Whether the worker function of thread `t` has ended: a check returned
from it, or it ran past its last check. -/
def System.ended {σ : Type} (code : ThreadId → List (StatusCheck σ)) (s : System σ)
    (t : ThreadId) : Bool :=
  (s.workers t).returned || decide ((code t).length ≤ (s.workers t).pc)

/-- Whether the four workers `0`, `1`, `2`, `3` can be joined. -/
def System.joined {σ : Type} (code : ThreadId → List (StatusCheck σ)) (s : System σ) : Bool :=
  s.ended code 0 && s.ended code 1 && s.ended code 2 && s.ended code 3

/-- The worker functions of four threads `0` (A), `1` (B), `2` (C), `3` (D);
no other thread runs a check. -/
def fourWorkers {σ : Type} (a b c d : List (StatusCheck σ)) : ThreadId → List (StatusCheck σ)
  | 0 => a
  | 1 => b
  | 2 => c
  | 3 => d
  | _ => []

/-! ## Sample inputs -/

/-- A record of a status check that failed with `hipErrorInvalidValue`. -/
def failingRecord : HCResult := ⟨42, "worker.cc", hipErrorInvalidValue, "hipMalloc(&p, n)", none⟩

/-- A record of a status check that succeeded. -/
def passingRecord : HCResult := ⟨43, "worker.cc", hipSuccess, "hipFree(p)", none⟩

/-- A collector in which thread `0` has flagged a failure. -/
def flaggedContext : TestContext := TestContext.fresh.addResults 0 failingRecord

/-- A runtime call that succeeds and leaves the state alone. -/
def succeeds : Expr Unit hipError_t := fun w => (hipSuccess, w)

/-- A condition that holds and leaves the state alone. -/
def holds : Expr Unit Bool := fun w => (true, w)

/-- A statement that submits a record for thread `0`. -/
def submitsRecord : Stmt (Unit × Nat) := fun s => (.fallthrough, (s.1.addResults 0 passingRecord, s.2))

/-- Operations of three threads: a passing record, a status check, a
condition check, and a failing record. -/
def sampleOps : List (CollectorOp Unit) :=
  [.submit 1 passingRecord, .statusCheck 2 7 "worker.cc" "hipFree(p)" succeeds (),
   .conditionCheck 3 8 "worker.cc" "p != nullptr" holds (), .submit 1 failingRecord]

/-- Two threads submit one passing record each. -/
def passingSubmissions : List (ThreadId × HCResult) := [(0, passingRecord), (1, passingRecord)]

/-- A runtime call that returns `hipErrorPeerAccessAlreadyEnabled`. -/
def peerAccessAlreadyEnabled : Expr Unit hipError_t :=
  fun w => (hipErrorPeerAccessAlreadyEnabled, w)

/-! ## Invariants of the concurrent workers -/

/-- What holds of every worker thread `t` in every reachable state: it has
submitted one record per check it went past, it is inside its function, it
returned early only with the failure flag set, and a status it is about to
submit is one its current check returned. -/
def WorkerInv {σ : Type} (code : ThreadId → List (StatusCheck σ)) (s : System σ)
    (t : ThreadId) : Prop :=
  (s.ctx.sequenceOf t).length = (s.workers t).pc
  ∧ (s.workers t).pc ≤ (code t).length
  ∧ ((s.workers t).returned = true →
      s.ctx.hasErrorOccured = true ∧ (s.workers t).phase = .entry)
  ∧ (∀ e, (s.workers t).phase = .submit e →
      ∃ chk w, (code t)[(s.workers t).pc]? = some chk ∧ e = (chk.error w).1)

/-- What holds in every reachable state of four workers: the invariant of
each worker, and the collector holds exactly the records of the four. -/
def SystemInv {σ : Type} (code : ThreadId → List (StatusCheck σ)) (s : System σ) : Prop :=
  (∀ t, WorkerInv code s t)
  ∧ s.ctx.recordCount
      = (s.workers 0).pc + (s.workers 1).pc + (s.workers 2).pc + (s.workers 3).pc

/-- What holds in every reachable state when the only check that fails is
the 50th of worker `0`: the worker never goes past that check, the flag is
set exactly once its record is submitted, and that record is then the only
failing one. -/
def OneFailureInv {σ : Type} (code : ThreadId → List (StatusCheck σ)) (s : System σ) : Prop :=
  (s.workers 0).pc ≤ 50
  ∧ (s.ctx.hasErrorOccured = true ↔ (s.workers 0).pc = 50)
  ∧ ((s.workers 0).pc = 50 → (s.workers 0).phase = .entry)
  ∧ (s.ctx.hasErrorOccured = false →
      s.ctx.allRecords.filter HCResult.indicatesFailure = [])
  ∧ (s.ctx.hasErrorOccured = true →
      ∃ chk w, (code 0)[49]? = some chk ∧ (chk.error w).1 ≠ hipSuccess
        ∧ s.ctx.allRecords.filter HCResult.indicatesFailure
            = [⟨chk.line, chk.file, (chk.error w).1, chk.text, none⟩])

/-- A status check whose expression succeeds. -/
def passingCheck (line : Nat) : StatusCheck Unit := ⟨line, "worker.cc", "hipFree(p)", succeeds⟩

/-- A schedule in which the four workers run one after the other, each
taking the three steps of one check. -/
def oneCheckEach : List ThreadId := [0, 0, 0, 1, 1, 1, 2, 2, 2, 3, 3, 3]

/-- A runtime call that fails with `hipErrorInvalidValue`. -/
def fails : Expr Unit hipError_t := fun w => (hipErrorInvalidValue, w)

/-- A status check whose expression returns `hipErrorInvalidValue`. -/
def failingCheck (line : Nat) : StatusCheck Unit := ⟨line, "worker.cc", "hipMalloc(&p, n)", fails⟩

/-- Worker A of the scenario: 100 status checks at lines 1 to 100, of which
the 50th fails and the others succeed. -/
def workerA : List (StatusCheck Unit) :=
  (List.range 100).map fun i => if i = 49 then failingCheck (i + 1) else passingCheck (i + 1)

/-- Workers B, C and D of the scenario: 100 status checks that succeed. -/
def workerB : List (StatusCheck Unit) :=
  (List.range 100).map fun i => passingCheck (i + 1)

/-- The interleaving in which A runs first, up to the check after its
failing one, and B, C and D take their first step after that. -/
def failureFirst : List ThreadId := List.replicate 151 0 ++ [1, 2, 3]

/-! ## Test bodies on the main thread -/

/-- State of a test process: the text written to standard output so far and
the rest of the state (the runtime, the memory of the process). -/
structure TestState (ρ : Type) where
  stdout : String
  runtime : ρ

/-- A `REQUIRE` that failed: its location, the text of the condition and the
message scoped by `INFO`, if any. -/
structure Assertion where
  file : String
  line : Nat
  expression : String
  info : Option Failure
deriving DecidableEq, Repr

/-- How a statement of a test body ends: it completes and the body goes on,
a `REQUIRE` fails and the test case ends with a reportable failure, or
`abort()` ends the process. -/
inductive TestResult (σ : Type) where
  | completed (w : σ)
  | raised (a : Assertion) (w : σ)
  | aborted (w : σ)

/-- A statement of a test body. -/
abbrev TestStmt (ρ : Type) := TestState ρ → TestResult (TestState ρ)

/-- State in which the statement left the process. -/
def TestResult.state {σ : Type} : TestResult σ → σ
  | .completed w => w
  | .raised _ w => w
  | .aborted w => w

/-- Whether an assertion was raised. -/
def TestResult.isRaised {σ : Type} : TestResult σ → Bool
  | .raised _ _ => true
  | _ => false

/-- Whether the statement completed, so that the next statement runs. -/
def TestResult.isCompleted {σ : Type} : TestResult σ → Bool
  | .completed _ => true
  | _ => false

/-- A main-thread status check seen as a statement of a test body: the
failure of `HIP_CHECK` is the failure of its `REQUIRE(false)`. -/
def Outcome.toResult {σ : Type} : Outcome σ → TestResult σ
  | .completed w => .completed w
  | .raised f w => .raised ⟨f.file, f.line, "false", some f⟩ w

/-- Runs the statements of a test body in order; a failed assertion or an
abort ends the body and the statements after it are not run. -/
def runStatements {ρ : Type} : List (TestStmt ρ) → TestStmt ρ
  | [], w => .completed w
  | st :: rest, w =>
    match st w with
    | .completed w1 => runStatements rest w1
    | .raised a w1 => .raised a w1
    | .aborted w1 => .aborted w1

/-- Embedding of `REQUIRE(cond)` of the assertion framework, for a condition
that has been evaluated to `cond`. -/
def REQUIRE {ρ : Type} (line : Nat) (file text : String) (cond : Bool) : TestStmt ρ :=
  fun w => if cond then .completed w else .raised ⟨file, line, text, none⟩ w

/-- Embedding of `HIPCHECK(error)`, hip_test_common.hh lines 107-115: on a
status that is neither `hipSuccess` nor `hipErrorPeerAccessAlreadyEnabled`
it prints a line and calls `abort()`. The text of a status
(`hipGetErrorString`) comes from the runtime. -/
def HIPCHECK {ρ : Type} (hipGetErrorString : hipError_t → String) (line : Nat)
    (file text : String) (error : Expr (TestState ρ) hipError_t) : TestStmt ρ :=
  fun w =>
    let localError := (error w).1
    let w1 := (error w).2
    if (localError ≠ hipSuccess) ∧ (localError ≠ hipErrorPeerAccessAlreadyEnabled) then
      .aborted { w1 with
        stdout := w1.stdout ++ "error: '" ++ hipGetErrorString localError ++ "'("
          ++ toString localError ++ ") from " ++ text ++ " at " ++ file ++ ":"
          ++ toString line ++ "\n" }
    else
      .completed w1

/-- Embedding of `HipTest::HIP_SKIP_TEST(reason)`, hip_test_common.hh lines
241-244: the function prints two lines to standard output and returns. -/
def HIP_SKIP_TEST {ρ : Type} (reason : String) (w : TestState ρ) : TestState ρ :=
  { w with
    stdout :=
      ((w.stdout ++ "Skipping test. Reason: " ++ reason).push '\n' ++ "HIP_SKIP_THIS_TEST").push
        '\n' }

/-- The call `HipTest::HIP_SKIP_TEST(reason);` as a statement of a test
body. -/
def skipStatement {ρ : Type} (reason : String) : TestStmt ρ :=
  fun w => .completed (HIP_SKIP_TEST reason w)

/-- The lines of a text: the pieces that newlines separate or end; text
after the last newline, if there is any, is a last line. -/
def textLines : List Char → List (List Char)
  | [] => []
  | c :: cs =>
    if c = '\n' then [] :: textLines cs
    else
      match textLines cs with
      | [] => [[c]]
      | l :: ls => (c :: l) :: ls

/-- Whether the text `hay` begins with the text `needle`. -/
def beginsWith : List Char → List Char → Bool
  | _, [] => true
  | [], _ :: _ => false
  | h :: hs, n :: ns => (h == n) && beginsWith hs ns

/-- The C library function `strstr` on character lists: the offset of the
first occurrence of `needle` in `hay`, or `none` for the null pointer. -/
def strstrAt (needle : List Char) : List Char → Option Nat
  | [] => if beginsWith [] needle then some 0 else none
  | h :: hs =>
    if beginsWith (h :: hs) needle then some 0
    else (strstrAt needle hs).map (fun k => k + 1)

/-- The C library function `strstr(hay, needle)`. -/
def strstr (hay needle : String) : Option Nat := strstrAt needle.data hay.data

/-! ## Device-gated coherency tests -/

/-- What the runtime reports to a device-gated test about device `0`: the
status of `hipGetDeviceProperties(&prop, 0)` and `prop.gcnArchName` after
it, the status of
`hipDeviceGetAttribute(&managed, hipDeviceAttributeManagedMemory, 0)` and
`managed` after it, and the texts of the statuses. -/
structure Device where
  propsStatus : hipError_t
  gcnArchName : String
  attrStatus : hipError_t
  managed : Int
  hipGetErrorString : hipError_t → String

/-- The reason the device-gated tests give when they skip. -/
def notXnackReason : String := "GPU is not xnack enabled hence skipping the test...\n"

/-- Embedding of `TEST_CASE("Unit_malloc_CoherentTst")`,
hipMemCoherencyTstMProc.cc lines 127-151. `whenManaged` is the block run
when `managed == 1` (lines 139-146). -/
def Unit_malloc_CoherentTst {ρ : Type} (dev : Device) (whenManaged : TestStmt ρ) :
    TestStmt ρ :=
  fun w =>
    match HIPCHECK dev.hipGetErrorString 129 "hipMemCoherencyTstMProc.cc"
        "hipGetDeviceProperties(&prop, 0)" (fun v => (dev.propsStatus, v)) w with
    | .completed w1 =>
      if (strstr dev.gcnArchName "xnack+").isSome then
        match HIPCHECK dev.hipGetErrorString 136 "hipMemCoherencyTstMProc.cc"
            "hipDeviceGetAttribute(&managed, hipDeviceAttributeManagedMemory, 0)"
            (fun v => (dev.attrStatus, v)) w1 with
        | .completed w2 => if dev.managed = 1 then whenManaged w2 else .completed w2
        | .raised a w2 => .raised a w2
        | .aborted w2 => .aborted w2
      else
        .completed (HIP_SKIP_TEST notXnackReason w1)
    | .raised a w1 => .raised a w1
    | .aborted w1 => .aborted w1

/-- The skeleton shared by the three device-gated tests that query the
managed-memory attribute with `HIP_CHECK`: `attrLine` is the line of that
check and `whenManaged` the block run when `managed == 1`. -/
def gatedByHipCheck {ρ : Type} (propsLine attrLine : Nat) (dev : Device)
    (whenManaged : TestStmt ρ) : TestStmt ρ :=
  fun w =>
    match HIPCHECK dev.hipGetErrorString propsLine "hipMemCoherencyTstMProc.cc"
        "hipGetDeviceProperties(&prop, 0)" (fun v => (dev.propsStatus, v)) w with
    | .completed w1 =>
      if (strstr dev.gcnArchName "xnack+").isSome then
        match (HIP_CHECK attrLine "hipMemCoherencyTstMProc.cc"
            "hipDeviceGetAttribute(&managed, hipDeviceAttributeManagedMemory, 0)"
            (fun v => (dev.attrStatus, v)) w1).toResult with
        | .completed w2 => if dev.managed = 1 then whenManaged w2 else .completed w2
        | .raised a w2 => .raised a w2
        | .aborted w2 => .aborted w2
      else
        .completed (HIP_SKIP_TEST notXnackReason w1)
    | .raised a w1 => .raised a w1
    | .aborted w1 => .aborted w1

/-- Embedding of `TEST_CASE("Unit_malloc_CoherentTstWthAdvise")`,
hipMemCoherencyTstMProc.cc lines 159-185; `whenManaged` is the block of
lines 170-180. -/
def Unit_malloc_CoherentTstWthAdvise {ρ : Type} (dev : Device) (whenManaged : TestStmt ρ) :
    TestStmt ρ :=
  gatedByHipCheck 161 167 dev whenManaged

/-- Embedding of `TEST_CASE("Unit_mmap_CoherentTst")`,
hipMemCoherencyTstMProc.cc lines 192-223; `whenManaged` is the block of
lines 203-218. -/
def Unit_mmap_CoherentTst {ρ : Type} (dev : Device) (whenManaged : TestStmt ρ) : TestStmt ρ :=
  gatedByHipCheck 194 200 dev whenManaged

/-- Embedding of `TEST_CASE("Unit_mmap_CoherentTstWthAdvise")`,
hipMemCoherencyTstMProc.cc lines 230-269; `whenManaged` is the block of
lines 241-264. -/
def Unit_mmap_CoherentTstWthAdvise {ρ : Type} (dev : Device) (whenManaged : TestStmt ρ) :
    TestStmt ρ :=
  gatedByHipCheck 232 238 dev whenManaged

/-! ## The blocking stream coordinator -/

/-- A stream handle of the runtime (`hipStream_t`). -/
abbrev hipStream_t := Nat

/-- Address of an object in the memory of the test process. -/
abbrev Address := Nat

/-- The part of the test process the coordinator works on: the atomic
booleans in memory, by address, and the state `ρ` of the runtime. -/
structure Process (ρ : Type) where
  atomics : Address → Bool
  runtime : ρ

/-- Stores `b` in the atomic boolean at address `a`. -/
def Process.store {ρ : Type} (p : Process ρ) (a : Address) (b : Bool) : Process ρ :=
  { p with atomics := fun x => if x = a then b else p.atomics x }

/-- The two calls of the runtime the coordinator makes. The runtime is
external to the sources, so the calls are parameters.
`hipStreamAddCallback stream userData flags memory` enqueues the callback
`blocking_callback` with its data pointer; the runtime can read the memory
of the process during the call. `hipStreamQuery stream` polls the stream.
Both return a status and act on the state of the runtime only. -/
structure StreamApi (ρ : Type) where
  hipStreamAddCallback : hipStream_t → Address → Nat → (Address → Bool) → Expr ρ hipError_t
  hipStreamQuery : hipStream_t → Expr ρ hipError_t

/-- Embedding of `class BlockingContext`, hip_test_common.hh lines 353-398.
The member `blocked` is an atomic boolean in the memory of the process: the
object holds its address (`&blocked`), the value is in `Process.atomics`.
The member `stream` is the wrapped handle. -/
structure BlockingContext where
  blocked : Address
  stream : hipStream_t
deriving DecidableEq, Repr

/-- Embedding of the constructor `BlockingContext(hipStream_t s)`, line 358,
for an object whose flag is placed at address `a`:
`stream(s), blocked(true)`. -/
def BlockingContext.construct {ρ : Type} (a : Address) (s : hipStream_t) (p : Process ρ) :
    BlockingContext × Process ρ :=
  (⟨a, s⟩, p.store a true)

/-- Embedding of `reset()`, line 370. -/
def BlockingContext.reset {ρ : Type} (c : BlockingContext) (p : Process ρ) : Process ρ :=
  p.store c.blocked true

/-- Embedding of `blocked_val()`, line 396. -/
def BlockingContext.blocked_val {ρ : Type} (c : BlockingContext) (p : Process ρ) : Bool :=
  p.atomics c.blocked

/-- Embedding of `stream_val()`, line 397. -/
def BlockingContext.stream_val (c : BlockingContext) : hipStream_t := c.stream

/-- The expression
`hipStreamAddCallback(stream, blocking_callback, (void*)&blocked, 0)` of
`block_stream()`. -/
def BlockingContext.enqueue {ρ : Type} (api : StreamApi ρ) (c : BlockingContext) :
    Expr (Process ρ) hipError_t :=
  fun p =>
    ((api.hipStreamAddCallback c.stream c.blocked 0 p.atomics p.runtime).1,
     { p with runtime := (api.hipStreamAddCallback c.stream c.blocked 0 p.atomics p.runtime).2 })

/-- Embedding of `block_stream()`, lines 378-388. -/
def BlockingContext.block_stream {ρ : Type} (api : StreamApi ρ) (c : BlockingContext)
    (p : Process ρ) : Outcome (Process ρ) :=
  HIP_CHECK 387 "hip_test_common.hh"
    "hipStreamAddCallback(stream, blocking_callback, (void*)&blocked, 0)" (c.enqueue api)
    (p.store c.blocked true)

/-- Embedding of `unblock_stream()`, lines 390-392. -/
def BlockingContext.unblock_stream {ρ : Type} (c : BlockingContext) (p : Process ρ) :
    Process ρ :=
  p.store c.blocked false

/-- Embedding of `is_blocked()`, line 394: the result and the process after
the query. -/
def BlockingContext.is_blocked {ρ : Type} (api : StreamApi ρ) (c : BlockingContext)
    (p : Process ρ) : Bool × Process ρ :=
  (decide ((api.hipStreamQuery c.stream p.runtime).1 = hipErrorNotReady),
   { p with runtime := (api.hipStreamQuery c.stream p.runtime).2 })

/-- The loop of the lambda `blocking_callback`, lines 380-386, run on the
successive values `loads 0`, `loads 1`, ... that `blocked->load()` returns,
starting with load number `i`: a load of true is followed by a yield and
the next load, a load of false makes the callback return. The result is the
number of yields made when the callback returns, or `none` when it is still
spinning after `fuel` loads. -/
def spin (loads : Nat → Bool) : Nat → Nat → Option Nat
  | 0, _ => none
  | fuel + 1, i => if loads i = true then spin loads fuel (i + 1) else some i

/-- Embedding of the lambda `blocking_callback`, lines 380-386, with a
bound `fuel` on the number of loads. -/
def blocking_callback (loads : Nat → Bool) (fuel : Nat) : Option Nat := spin loads fuel 0

/-- A call made on a coordinator by host code. -/
inductive CoordinatorCall where
  | block_stream
  | unblock_stream
deriving DecidableEq, Repr

/-- Runs a sequence of calls on the coordinator `c`; a `block_stream()`
whose status check fails ends the test case. -/
def runCalls {ρ : Type} (api : StreamApi ρ) (c : BlockingContext) :
    List CoordinatorCall → Process ρ → Outcome (Process ρ)
  | [], p => .completed p
  | .block_stream :: rest, p =>
    match c.block_stream api p with
    | .completed p1 => runCalls api c rest p1
    | .raised f p1 => .raised f p1
  | .unblock_stream :: rest, p => runCalls api c rest (c.unblock_stream p)

/-- One `hipStreamAddCallback` call as a recording runtime sees it: the
stream, the data pointer, the flags, and the value the atomic boolean at
the data pointer holds during the call. -/
structure EnqueueCall where
  stream : hipStream_t
  userData : Address
  flags : Nat
  flagDuringCall : Bool
deriving DecidableEq, Repr

/-- A runtime that records the enqueue calls it receives and answers each
with the status `status`; its queries answer `query`. -/
def recordingApi (status query : hipError_t) : StreamApi (List EnqueueCall) where
  hipStreamAddCallback := fun s a f mem log => (status, log ++ [⟨s, a, f, mem a⟩])
  hipStreamQuery := fun _ log => (query, log)

/-! ## The work queue of the runtime -/

/-- Modelled from the spec: an item of work on a queue of the runtime (the
runtime is external to the sources). It is device work that needs `steps`
more steps, or the blocking callback of a coordinator with its data
pointer. -/
inductive Work where
  | task (steps : Nat)
  | callback (data : Address)
deriving DecidableEq, Repr

/-- Modelled from the spec: the work queues of the runtime, one per stream
handle, each in the order of enqueueing. -/
abbrev Queues := hipStream_t → List Work

/-- Modelled from the spec: the asynchronous work-queue abstraction of the
runtime. Enqueueing a callback appends it to the queue of the stream and
succeeds; the query reports "not ready" while the queue of the stream has
unfinished work, the paused callback included. -/
def queueApi : StreamApi Queues where
  hipStreamAddCallback := fun s a _ _ q =>
    (hipSuccess, fun t => if t = s then q t ++ [Work.callback a] else q t)
  hipStreamQuery := fun s q => (if (q s).isEmpty then hipSuccess else hipErrorNotReady, q)

/-- Modelled from the spec: one step of the device on the queue of stream
`s`. The item at the head advances: a task loses one step or, with none
left, completes; a blocking callback loads its flag once and, as in
`blocking_callback`, yields when the flag is true and returns when it is
false. An item that completes leaves the queue. -/
def deviceStep (s : hipStream_t) (p : Process Queues) : Process Queues :=
  match p.runtime s with
  | [] => p
  | Work.task 0 :: rest => { p with runtime := fun t => if t = s then rest else p.runtime t }
  | Work.task (n + 1) :: rest =>
    { p with runtime := fun t => if t = s then Work.task n :: rest else p.runtime t }
  | Work.callback data :: rest =>
    if p.atomics data = true then p
    else { p with runtime := fun t => if t = s then rest else p.runtime t }

/-- The device takes steps on the streams listed, in that order. -/
def deviceSteps : List hipStream_t → Process Queues → Process Queues
  | [], p => p
  | s :: rest, p => deviceSteps rest (deviceStep s p)

/-- Modelled from the spec: `hipStreamSynchronize(s)` blocks the host until
the queue of `s` is drained; the device takes steps on `s` meanwhile. The
result is the process when the call returns, or `none` when the queue is
not drained after `fuel` steps. -/
def hipStreamSynchronize (s : hipStream_t) : Nat → Process Queues → Option (Process Queues)
  | 0, p => if (p.runtime s).isEmpty then some p else none
  | fuel + 1, p =>
    if (p.runtime s).isEmpty then some p else hipStreamSynchronize s fuel (deviceStep s p)

/-- The steps the device needs to finish the items of a queue when no
callback is blocked. -/
def stepsToDrain : List Work → Nat
  | [] => 0
  | Work.task n :: rest => n + 1 + stepsToDrain rest
  | Work.callback _ :: rest => 1 + stepsToDrain rest

/-! ## Sample inputs of the skip protocol and the device-gated tests -/

/-- A fresh test process with nothing printed. -/
def quietProcess : TestState Unit := ⟨"", ()⟩

/-- A test body that goes on after the skip call with an assertion that
fails. -/
def skipThenAssert : List (TestStmt Unit) :=
  [skipStatement "unsupported device", REQUIRE 12 "test.cc" "false" false]

/-- A device whose architecture name contains "xnack+" and whose
managed-memory attribute is 0. -/
def xnackWithoutManagedMemory : Device :=
  ⟨hipSuccess, "gfx90a:sramecc+:xnack+", hipSuccess, 0, fun _ => "no error"⟩

/-- A device whose architecture name does not contain "xnack+". -/
def withoutXnack : Device :=
  ⟨hipSuccess, "gfx90a:sramecc+:xnack-", hipSuccess, 1, fun _ => "no error"⟩

/-- A block that fails an assertion. -/
def failingBlock : TestStmt Unit := REQUIRE 146 "hipMemCoherencyTstMProc.cc" "YES_COHERENT" false

/-! ## Sample inputs of the blocking stream coordinator -/

/-- A process with every atomic boolean false and a recording runtime that
has seen no call. -/
def idleProcess : Process (List EnqueueCall) := ⟨fun _ => false, []⟩

/-- A coordinator with its flag at address `5`, around stream `7`. -/
def sampleCoordinator : BlockingContext := ⟨5, 7⟩

/-- The calls block, unblock, block. -/
def rearm : List CoordinatorCall := [.block_stream, .unblock_stream, .block_stream]

/-- A process whose stream `7` has two device tasks pending. -/
def busyProcess : Process Queues :=
  ⟨fun _ => false, fun s => if s = 7 then [Work.task 2, Work.task 0] else []⟩

/-- The flag reads true twice and false from then on. -/
def unblockedAfterTwo : Nat → Bool := fun i => decide (i < 2)

/-- The queue of the coordinator `c` is paused: the flag of `c` is true, and
the queue of its stream holds device tasks followed by the blocking
callback of `c`. -/
def PausedAt (c : BlockingContext) (p : Process Queues) : Prop :=
  p.atomics c.blocked = true
  ∧ ∃ pre, (∀ w ∈ pre, ∃ n, w = Work.task n)
      ∧ p.runtime c.stream = pre ++ [Work.callback c.blocked]

/-- No callback on the queue of stream `s` is blocked: the flag of each
reads false. -/
def Released (s : hipStream_t) (p : Process Queues) : Prop :=
  ∀ d, Work.callback d ∈ p.runtime s → p.atomics d = false

/-! ## Grid size helpers -/

/-- Whether `abort()` ended the process. -/
def TestResult.isAborted {σ : Type} : TestResult σ → Bool
  | .aborted _ => true
  | _ => false

/-- How a call of a helper that returns a value ends: it returns the value,
a `REQUIRE` inside it fails, or its behaviour is undefined (a division by
zero). -/
inductive CallResult (α σ : Type) where
  | returned (value : α) (w : σ)
  | raised (f : Failure) (w : σ)
  | undefined (w : σ)

/-- The value returned, if the call returned. -/
def CallResult.value? {α σ : Type} : CallResult α σ → Option α
  | .returned v _ => some v
  | _ => none

/-- The two queries of the runtime that the grid size helpers make. The
runtime is external to the sources, so the queries are parameters:
`hipGetDevice` gives its status and the value of `device` after the call,
`hipGetDeviceProperties device` its status and the value of
`props.multiProcessorCount` after the call. -/
structure DeviceApi (σ : Type) where
  hipGetDevice : Expr σ (hipError_t × Int)
  hipGetDeviceProperties : Int → Expr σ (hipError_t × Int)

/-- The status part of a query, as the expression handed to a check. -/
def statusOf {σ : Type} (query : Expr σ (hipError_t × Int)) : Expr σ hipError_t :=
  fun w => ((query w).1.1, (query w).2)

/-- Embedding of `HipTest::setNumBlocks`, hip_test_common.hh lines 185-197.
`unsigned` arithmetic is modulo `2 ^ 32` and `size_t` arithmetic modulo
`2 ^ 64`; the `int` count is converted to `unsigned` before the product. -/
def setNumBlocks {σ : Type} (api : DeviceApi σ) (blocksPerCU threadsPerBlock N : Nat)
    (w : σ) : CallResult Nat σ :=
  match HIP_CHECK 187 "hip_test_common.hh" "hipGetDevice(&device)"
      (statusOf api.hipGetDevice) w with
  | .raised f w1 => .raised f w1
  | .completed w1 =>
    let device := (api.hipGetDevice w).1.2
    match HIP_CHECK 189 "hip_test_common.hh" "hipGetDeviceProperties(&props, device)"
        (statusOf (api.hipGetDeviceProperties device)) w1 with
    | .raised f w2 => .raised f w2
    | .completed w2 =>
      let multiProcessorCount := (api.hipGetDeviceProperties device w1).1.2
      let blocks := ((multiProcessorCount % 2 ^ 32).toNat * blocksPerCU) % 2 ^ 32
      if (blocks * threadsPerBlock) % 2 ^ 32 < N then
        if threadsPerBlock = 0 then .undefined w2
        else .returned (((N + threadsPerBlock - 1) % 2 ^ 64 / threadsPerBlock) % 2 ^ 32) w2
      else
        .returned blocks w2

set_option linter.unusedVariables false in
/-- Embedding of `HipTest::setNumBlocksThread`, hip_test_common.hh lines
203-216, run by thread `self`: the state afterwards and the value of the
reference parameter `blocks` on return. `blocks` is the value before the
call. The division is reached only with `threadsPerBlock` positive. -/
def setNumBlocksThread {σ : Type} (self : ThreadId) (api : DeviceApi σ)
    (blocksPerCU threadsPerBlock N : Nat) (blocks : Nat) (s : TestContext × σ) :
    (TestContext × σ) × Nat :=
  let blocks0 : Nat := 0
  match HIP_CHECK_THREAD self 208 "hip_test_common.hh" "hipGetDevice(&device)"
      (statusOf api.hipGetDevice) s with
  | (.returned, s1) => (s1, blocks0)
  | (.fallthrough, s1) =>
    let device := (api.hipGetDevice s.2).1.2
    match HIP_CHECK_THREAD self 210 "hip_test_common.hh"
        "hipGetDeviceProperties(&props, device)"
        (statusOf (api.hipGetDeviceProperties device)) s1 with
    | (.returned, s2) => (s2, blocks0)
    | (.fallthrough, s2) =>
      let multiProcessorCount := (api.hipGetDeviceProperties device s1.2).1.2
      let blocks1 := ((multiProcessorCount % 2 ^ 32).toNat * blocksPerCU) % 2 ^ 32
      if (blocks1 * threadsPerBlock) % 2 ^ 32 > N then
        (s2, ((N + threadsPerBlock - 1) % 2 ^ 64 / threadsPerBlock) % 2 ^ 32)
      else
        (s2, blocks1)

/-- A runtime that answers the two queries with fixed statuses and values
and counts the calls of each: the state is the number of `hipGetDevice`
calls and the number of `hipGetDeviceProperties` calls made so far. -/
def countingDeviceApi (deviceStatus : hipError_t) (device : Int) (propsStatus : hipError_t)
    (multiProcessorCount : Int) : DeviceApi (Nat × Nat) where
  hipGetDevice := fun c => ((deviceStatus, device), (c.1 + 1, c.2))
  hipGetDeviceProperties := fun _ c => ((propsStatus, multiProcessorCount), (c.1, c.2 + 1))

/-- A runtime whose queries succeed, with device `0` and two
multiprocessors. -/
def twoMultiprocessors : DeviceApi (Nat × Nat) := countingDeviceApi hipSuccess 0 hipSuccess 2

/-! ## Function attribute test -/

/-- The attributes of `hipFuncSetAttribute` the tests set. -/
inductive hipFuncAttribute where
  | hipFuncAttributeMaxDynamicSharedMemorySize
  | hipFuncAttributePreferredSharedMemoryCarveout
deriving DecidableEq, Repr

/-- The calls of the runtime the function attribute test makes, as
parameters: `hipFuncGetAttributes` on the kernel gives its status and the
field `maxDynamicSharedSizeBytes` of the structure after the call,
`hipFuncSetAttribute attr value` on the kernel gives its status. -/
structure FuncApi (ρ : Type) where
  hipFuncGetAttributes : Expr (TestState ρ) (hipError_t × Int)
  hipFuncSetAttribute : hipFuncAttribute → Int → Expr (TestState ρ) hipError_t

/-- Embedding of
`TEST_CASE("Unit_hipFuncSetAttribute_Positive_MaxDynamicSharedMemorySize_Not_Supported")`,
hipFuncSetAttribute.cc lines 221-233. -/
def Unit_hipFuncSetAttribute_Positive_MaxDynamicSharedMemorySize_Not_Supported {ρ : Type}
    (api : FuncApi ρ) : TestStmt ρ :=
  fun w =>
    match (HIP_CHECK 223 "hipFuncSetAttribute.cc"
        "hipFuncGetAttributes(&old_attributes, reinterpret_cast<void*>(kernel))"
        (statusOf api.hipFuncGetAttributes) w).toResult with
    | .raised a w1 => .raised a w1
    | .aborted w1 => .aborted w1
    | .completed w1 =>
      let old_attributes := (api.hipFuncGetAttributes w).1.2
      match (HIP_CHECK_ERROR 225 "hipFuncSetAttribute.cc"
          ("hipFuncSetAttribute(reinterpret_cast<void*>(kernel), "
            ++ "hipFuncAttributeMaxDynamicSharedMemorySize, 1024)")
          (api.hipFuncSetAttribute .hipFuncAttributeMaxDynamicSharedMemorySize 1024)
          hipErrorNotSupported w1).toResult with
      | .raised a w2 => .raised a w2
      | .aborted w2 => .aborted w2
      | .completed w2 =>
        match (HIP_CHECK 230 "hipFuncSetAttribute.cc"
            "hipFuncGetAttributes(&new_attributes, reinterpret_cast<void*>(kernel))"
            (statusOf api.hipFuncGetAttributes) w2).toResult with
        | .raised a w3 => .raised a w3
        | .aborted w3 => .aborted w3
        | .completed w3 =>
          let new_attributes := (api.hipFuncGetAttributes w2).1.2
          REQUIRE 232 "hipFuncSetAttribute.cc"
            "old_attributes.maxDynamicSharedSizeBytes == new_attributes.maxDynamicSharedSizeBytes"
            (decide (old_attributes = new_attributes)) w3

/-- A runtime whose attribute query answers `getStatus` and `value` and
whose attribute change answers `setStatus`, whatever the state. -/
def constantFuncApi (getStatus : hipError_t) (value : Int) (setStatus : hipError_t) :
    FuncApi Unit where
  hipFuncGetAttributes := fun w => ((getStatus, value), w)
  hipFuncSetAttribute := fun _ _ w => (setStatus, w)

/-! ## Negative tests of the 3D copy -/

/-- The runtime structure `hipPitchedPtr`: the address, the pitch in bytes
and the sizes of the allocation. -/
structure hipPitchedPtr where
  ptr : Nat
  pitch : Nat
  xsize : Nat
  ysize : Nat
deriving DecidableEq, Repr

/-- The runtime structure `hipPos`. -/
structure hipPos where
  x : Nat
  y : Nat
  z : Nat
deriving DecidableEq, Repr

/-- The runtime structure `hipExtent`. -/
structure hipExtent where
  width : Nat
  height : Nat
  depth : Nat
deriving DecidableEq, Repr

/-- The runtime enumeration `hipMemcpyKind`. -/
inductive hipMemcpyKind where
  | hipMemcpyHostToHost
  | hipMemcpyHostToDevice
  | hipMemcpyDeviceToHost
  | hipMemcpyDeviceToDevice
  | hipMemcpyDefault
deriving DecidableEq, Repr

/-- The calls the negative tests of the 3D copy make, as parameters:
`hipDeviceGetAttribute(&attr, hipDeviceAttributeMaxPitch, 0)` gives its
status and `attr` after the call, `Memcpy3DWrapper` (declared in
`memcpy3d_tests_common.hh`, not part of the sources) gives the status of
the copy. -/
structure Memcpy3DApi (σ : Type) where
  maxPitch : Expr σ (hipError_t × Int)
  Memcpy3DWrapper : hipPitchedPtr → hipPos → hipPitchedPtr → hipPos → hipExtent →
    hipMemcpyKind → Expr σ hipError_t

/-- Embedding of the section "dst_ptr.pitch > max pitch" of `NegativeTests`,
hipMemcpy3D.cc lines 118-125. The assignment of the `int` `attr` to the
`size_t` pitch converts modulo `2 ^ 64`. -/
def NegativeTests.dst_pitch_max {σ : Type} (api : Memcpy3DApi σ) (dst_ptr : hipPitchedPtr)
    (dst_pos : hipPos) (src_ptr : hipPitchedPtr) (src_pos : hipPos) (extent : hipExtent)
    (kind : hipMemcpyKind) (w : σ) : Outcome σ :=
  match HIP_CHECK 120 "hipMemcpy3D.cc"
      "hipDeviceGetAttribute(&attr, hipDeviceAttributeMaxPitch, 0)" (statusOf api.maxPitch)
      w with
  | .raised f w1 => .raised f w1
  | .completed w1 =>
    let attr := (api.maxPitch w).1.2
    let invalid_ptr : hipPitchedPtr := { dst_ptr with pitch := (attr % 2 ^ 64).toNat }
    HIP_CHECK_ERROR 123 "hipMemcpy3D.cc"
      "Memcpy3DWrapper(invalid_ptr, dst_pos, src_ptr, src_pos, extent, kind)"
      (api.Memcpy3DWrapper invalid_ptr dst_pos src_ptr src_pos extent kind)
      hipErrorInvalidValue w1

/-- Embedding of the section "src_ptr.pitch > max pitch" of `NegativeTests`,
hipMemcpy3D.cc lines 127-134. -/
def NegativeTests.src_pitch_max {σ : Type} (api : Memcpy3DApi σ) (dst_ptr : hipPitchedPtr)
    (dst_pos : hipPos) (src_ptr : hipPitchedPtr) (src_pos : hipPos) (extent : hipExtent)
    (kind : hipMemcpyKind) (w : σ) : Outcome σ :=
  match HIP_CHECK 129 "hipMemcpy3D.cc"
      "hipDeviceGetAttribute(&attr, hipDeviceAttributeMaxPitch, 0)" (statusOf api.maxPitch)
      w with
  | .raised f w1 => .raised f w1
  | .completed w1 =>
    let attr := (api.maxPitch w).1.2
    let invalid_ptr : hipPitchedPtr := { src_ptr with pitch := (attr % 2 ^ 64).toNat }
    HIP_CHECK_ERROR 132 "hipMemcpy3D.cc"
      "Memcpy3DWrapper(dst_ptr, dst_pos, invalid_ptr, src_pos, extent, kind)"
      (api.Memcpy3DWrapper dst_ptr dst_pos invalid_ptr src_pos extent kind)
      hipErrorInvalidValue w1

/-- A runtime that reports the maximum pitch `maxPitch`, records the
destination and the source pointer of every copy it is asked for, and
answers each copy with `copyStatus`. -/
def recordingCopy (maxPitch : Int) (copyStatus : hipError_t) :
    Memcpy3DApi (List (hipPitchedPtr × hipPitchedPtr)) where
  maxPitch := fun log => ((hipSuccess, maxPitch), log)
  Memcpy3DWrapper := fun dst _ src _ _ _ log => (copyStatus, log ++ [(dst, src)])

/-- A valid pitched pointer: 128 rows of 512 bytes. -/
def validPointer (address : Nat) : hipPitchedPtr := ⟨address, 512, 512, 128⟩

/-! ## Processes of the coherency tests -/

/-- The kernels of hipMemCoherencyTstMProc.cc. -/
inductive Kernel where
  | CoherentTst
  | CoherentTst_gfx11
  | SquareKrnl
deriving DecidableEq, Repr

/-- The device attributes `TstCoherency` queries. -/
inductive DeviceAttribute where
  | hipDeviceAttributeWallClockRate
  | hipDeviceAttributeClockRate
deriving DecidableEq, Repr

/-- The flags the tests pass to `hipHostMalloc`; `hipHostMallocDefault` is
the default of the two-argument call. -/
inductive HostMallocFlags where
  | hipHostMallocDefault
  | hipHostMallocPortable
  | hipHostMallocWriteCombined
  | hipHostMallocNumaUser
  | hipHostMallocNonCoherent
deriving DecidableEq, Repr

/-- What a process of a coherency test asks of its environment: the calls of
the C library and of the operating system, the calls of the runtime, the
launch of a kernel on a stream, and the accesses of the host to the tested
integer (`*Ptr = value`, `*Ptr`). -/
inductive Op where
  | setenv (name value : String) (overwrite : Int)
  | fork
  | wait
  | malloc (size : Nat)
  | free (ptr : Int)
  | mmap (length : Nat)
  | munmap (ptr : Int) (length : Nat)
  | hipGetDevice
  | hipGetDeviceProperties (device : Int)
  | hipDeviceGetAttribute (attr : DeviceAttribute) (device : Int)
  | hipStreamCreate
  | hipStreamSynchronize (strm : Int)
  | hipStreamDestroy (strm : Int)
  | hipHostGetDevicePointer (ptr : Int)
  | hipHostMalloc (size : Nat) (flags : HostMallocFlags)
  | hipHostFree (ptr : Int)
  | hipMemAdvise (ptr : Int) (size : Nat)
  | launch (kernel : Kernel) (strm : Int) (args : List Int)
  | store (ptr : Int) (value : Int)
  | load (ptr : Int)
deriving DecidableEq, Repr

/-- Whether the operation is a call of the runtime or a kernel launch. -/
def Op.isRuntimeCall : Op → Bool
  | .hipGetDevice => true
  | .hipGetDeviceProperties _ => true
  | .hipDeviceGetAttribute _ _ => true
  | .hipStreamCreate => true
  | .hipStreamSynchronize _ => true
  | .hipStreamDestroy _ => true
  | .hipHostGetDevicePointer _ => true
  | .hipHostMalloc _ _ => true
  | .hipHostFree _ => true
  | .hipMemAdvise _ _ => true
  | .launch _ _ _ => true
  | _ => false

/-- Whether the operation is a read of the tested integer by the host. -/
def Op.isLoad : Op → Bool
  | .load _ => true
  | _ => false

/-- What the environment answers: `status` is the status a runtime call
returns; `out` is the integer a call of the C library returns (the pointer
of `malloc` and `mmap`, the result of `setenv`, `fork` and `munmap`), the
value a call writes through its pointer argument (the stream, the device,
the attribute, the device pointer, the host pointer, the status word of
`wait`), or the value a load reads; `name` is `gcnArchName` of the
properties written by `hipGetDeviceProperties`. -/
structure Answer where
  status : hipError_t
  out : Int
  name : String
deriving DecidableEq, Repr

/-- The environment of a process, as a parameter: how it answers each
operation in its state `μ`. -/
structure Machine (μ : Type) where
  perform : Op → μ → Answer × μ

/-- The state of a process of the coherency tests: the global
`YES_COHERENT`, the messages given to `WARN`, the operations made so far
with their answers, and the state of the environment. -/
structure World (μ : Type) where
  YES_COHERENT : Bool
  warnings : List String
  trace : List (Op × Answer)
  machine : μ

/-- An operation made by the process: the environment answers, and the
operation and its answer are appended to the trace. -/
def Machine.call {μ : Type} (m : Machine μ) (op : Op) : Expr (TestState (World μ)) Answer :=
  fun w =>
    ((m.perform op w.runtime.machine).1,
      { w with runtime := { w.runtime with
          trace := w.runtime.trace ++ [(op, (m.perform op w.runtime.machine).1)]
          machine := (m.perform op w.runtime.machine).2 } })

/-- The status of a runtime call, as the expression given to a check. -/
def Machine.status {μ : Type} (m : Machine μ) (op : Op) :
    Expr (TestState (World μ)) hipError_t :=
  fun w => ((m.call op w).1.status, (m.call op w).2)

/-- How a piece of a test body that computes a value of type `α` ends: it
yields the value and the body goes on, a `REQUIRE` fails, or `abort()` ends
the process. -/
inductive Step (α σ : Type) where
  | ok (value : α) (w : σ)
  | raised (a : Assertion) (w : σ)
  | aborted (w : σ)

/-- A piece of a test body that computes a value of type `α`. -/
def Prog (σ α : Type) : Type := σ → Step α σ

/-- Runs a piece of a test body in state `w`. -/
def Prog.run {σ α : Type} (x : Prog σ α) (w : σ) : Step α σ := x w

/-- A piece that yields `a` and leaves the state as it is. -/
def Prog.pure {σ α : Type} (a : α) : Prog σ α := fun w => .ok a w

/-- Sequencing: a failed assertion or an abort ends the body. -/
def Prog.bind {σ α β : Type} (x : Prog σ α) (f : α → Prog σ β) : Prog σ β :=
  fun w =>
    match x w with
    | .ok a w1 => f a w1
    | .raised a w1 => .raised a w1
    | .aborted w1 => .aborted w1

instance {σ : Type} : Monad (Prog σ) where
  pure := Prog.pure
  bind := Prog.bind

/-- State in which the piece left the process. -/
def Step.state {α σ : Type} : Step α σ → σ
  | .ok _ w => w
  | .raised _ w => w
  | .aborted w => w

/-- Whether the piece ran to its end. -/
def Step.isOk {α σ : Type} : Step α σ → Bool
  | .ok _ _ => true
  | _ => false

/-- The value the piece yields, if it ran to its end. -/
def Step.value? {α σ : Type} : Step α σ → Option α
  | .ok a _ => some a
  | _ => none

/-- A statement seen as a piece that yields `value` when it completes. -/
def Step.ofResult {α σ : Type} (value : α) : TestResult σ → Step α σ
  | .completed w => .ok value w
  | .raised a w => .raised a w
  | .aborted w => .aborted w

/-- A piece without a value seen as a statement of a test body. -/
def Step.toResult {σ : Type} : Step Unit σ → TestResult σ
  | .ok _ w => .completed w
  | .raised a w => .raised a w
  | .aborted w => .aborted w

/-- A statement of a test body as a piece without a value. -/
def Prog.ofStmt {ρ : Type} (st : TestStmt ρ) : Prog (TestState ρ) Unit :=
  fun w => Step.ofResult () (st w)

/-- A piece without a value as a statement of a test body. -/
def Prog.toStmt {ρ : Type} (x : Prog (TestState ρ) Unit) : TestStmt ρ :=
  fun w => (x w).toResult

/-- An operation that is not checked: the piece yields its answer. -/
def Machine.op {μ : Type} (m : Machine μ) (op : Op) :
    Prog (TestState (World μ)) Answer :=
  fun w => .ok (m.call op w).1 (m.call op w).2

/-- Embedding of `HIP_CHECK(error)` on a call of the runtime: the piece
yields the answer of the call when the check passes. -/
def Machine.HIP_CHECK {μ : Type} (m : Machine μ) (line : Nat) (file str : String) (op : Op) :
    Prog (TestState (World μ)) Answer :=
  fun w => Step.ofResult (m.call op w).1
    (HipTest.HIP_CHECK line file str (m.status op) w).toResult

/-- Embedding of `HIPCHECK(error)` on a call of the runtime: the piece
yields the answer of the call when the check passes. -/
def Machine.HIPCHECK {μ : Type} (m : Machine μ) (hipGetErrorString : hipError_t → String)
    (line : Nat) (file text : String) (op : Op) : Prog (TestState (World μ)) Answer :=
  fun w => Step.ofResult (m.call op w).1
    (HipTest.HIPCHECK hipGetErrorString line file text (m.status op) w)

/-- Embedding of `WARN(msg)` of the assertion framework: the message is
reported and the test goes on. -/
def WARN {μ : Type} (msg : String) : Prog (TestState (World μ)) Unit :=
  fun w => .ok () { w with runtime := { w.runtime with
    warnings := w.runtime.warnings ++ [msg] } }

/-- The assignment `YES_COHERENT = value`. -/
def setYES_COHERENT {μ : Type} (value : Bool) : Prog (TestState (World μ)) Unit :=
  fun w => .ok () { w with runtime := { w.runtime with YES_COHERENT := value } }

/-- The value of the global `YES_COHERENT`. -/
def getYES_COHERENT {μ : Type} : Prog (TestState (World μ)) Bool :=
  fun w => .ok w.runtime.YES_COHERENT w

/-- The name of the file of the coherency tests. -/
def coherencyFile : String := "hipMemCoherencyTstMProc.cc"

/-- Embedding of `IsGfx11()`, hip_test_common.hh lines 145-164, on the AMD
platform: `arch.find("gfx11") != std::string::npos`. -/
def IsGfx11 {μ : Type} (m : Machine μ) : Prog (TestState (World μ)) Bool := do
  let device ← m.HIP_CHECK 151 "hip_test_common.hh" "hipGetDevice(&device)" .hipGetDevice
  let props ← m.HIP_CHECK 152 "hip_test_common.hh" "hipGetDeviceProperties(&props, device)"
    (.hipGetDeviceProperties device.out)
  let arch := props.name
  if (strstr arch "gfx11").isSome then
    return true
  else
    return false

/-- Embedding of the loop of `TstCoherency`, hipMemCoherencyTstMProc.cc
lines 107-115. The steady clock is a parameter: `window` is the number of
times the condition of the loop (less than 3 seconds since `start`) holds
when it is evaluated. `*Ptr += 1` reads the integer and stores the value
read plus one. -/
def hostLoop {μ : Type} (m : Machine μ) (Ptr : Int) : Nat → Prog (TestState (World μ)) Unit
  | 0 => pure ()
  | window + 1 => do
    let v ← m.op (.load Ptr)
    if v.out = 2 then
      let v1 ← m.op (.load Ptr)
      let _ ← m.op (.store Ptr (v1.out + 1))
      return ()
    else
      hostLoop m Ptr window

/-- Embedding of `TstCoherency(Ptr, HmmMem)`, hipMemCoherencyTstMProc.cc
lines 76-105, up to the launch of the kernel: the piece yields the stream
`strm`. `hipGetErrorString` gives the texts of the statuses. -/
def TstCoherency.launch {μ : Type} (m : Machine μ) (hipGetErrorString : hipError_t → String)
    (Ptr : Int) (HmmMem : Bool) : Prog (TestState (World μ)) Int := do
  let strm ← m.HIP_CHECK 78 coherencyFile "hipStreamCreate(&strm)" .hipStreamCreate
  let _ ← m.op (.store Ptr 1)
  let peak_clk ←
    if (← IsGfx11 m) then
      m.HIPCHECK hipGetErrorString 84 coherencyFile
        "hipDeviceGetAttribute(&peak_clk, hipDeviceAttributeWallClockRate, 0)"
        (.hipDeviceGetAttribute .hipDeviceAttributeWallClockRate 0)
    else
      m.HIPCHECK hipGetErrorString 87 coherencyFile
        "hipDeviceGetAttribute(&peak_clk, hipDeviceAttributeClockRate, 0)"
        (.hipDeviceGetAttribute .hipDeviceAttributeClockRate 0)
  if !HmmMem then
    let Dptr ← m.HIP_CHECK 92 coherencyFile
      "hipHostGetDevicePointer(reinterpret_cast<void **>(&Dptr), Ptr, 0)"
      (.hipHostGetDevicePointer Ptr)
    if (← IsGfx11 m) then
      let _ ← m.op (.launch .CoherentTst_gfx11 strm.out [Dptr.out, peak_clk.out])
    else
      let _ ← m.op (.launch .CoherentTst strm.out [Dptr.out, peak_clk.out])
  else
    if (← IsGfx11 m) then
      let _ ← m.op (.launch .CoherentTst_gfx11 strm.out [Ptr, peak_clk.out])
    else
      let _ ← m.op (.launch .CoherentTst strm.out [Ptr, peak_clk.out])
  return strm.out

/-- Embedding of `TstCoherency(Ptr, HmmMem)`, hipMemCoherencyTstMProc.cc
lines 116-120, after the loop: the stream is synchronised and destroyed,
and `YES_COHERENT` is set when the integer reads 4. -/
def TstCoherency.verdict {μ : Type} (m : Machine μ) (Ptr : Int) (strm : Int) :
    Prog (TestState (World μ)) Unit := do
  let _ ← m.HIP_CHECK 116 coherencyFile "hipStreamSynchronize(strm)"
    (.hipStreamSynchronize strm)
  let _ ← m.HIP_CHECK 117 coherencyFile "hipStreamDestroy(strm)" (.hipStreamDestroy strm)
  let last ← m.op (.load Ptr)
  if last.out = 4 then
    setYES_COHERENT true

/-- Embedding of `TstCoherency(Ptr, HmmMem)`, hipMemCoherencyTstMProc.cc
lines 75-121: the launch of the kernel, the loop of the host and the
verdict. `window` is the parameter of the loop (see `hostLoop`). -/
def TstCoherency {μ : Type} (m : Machine μ) (hipGetErrorString : hipError_t → String)
    (Ptr : Int) (HmmMem : Bool) (window : Nat) : Prog (TestState (World μ)) Unit := do
  let strm ← TstCoherency.launch m hipGetErrorString Ptr HmmMem
  hostLoop m Ptr window
  TstCoherency.verdict m Ptr strm

/-- The value `MAP_FAILED` of `<sys/mman.h>`, `(void *) -1`. -/
def MAP_FAILED : Int := -1

/-- The block of `Unit_malloc_CoherentTst` run when `managed == 1`,
hipMemCoherencyTstMProc.cc lines 139-146. -/
def mallocBlock {μ : Type} (m : Machine μ) (hipGetErrorString : hipError_t → String)
    (window : Nat) : TestStmt (World μ) :=
  Prog.toStmt do
    let HmmMem := true
    setYES_COHERENT false
    let Ptr ← m.op (.malloc 4)
    TstCoherency m hipGetErrorString Ptr.out HmmMem window
    let _ ← m.op (.free Ptr.out)
    Prog.ofStmt (REQUIRE 146 coherencyFile "YES_COHERENT" (← getYES_COHERENT))

/-- The block of `Unit_mmap_CoherentTst` run when `managed == 1`,
hipMemCoherencyTstMProc.cc lines 203-218. -/
def mmapBlock {μ : Type} (m : Machine μ) (hipGetErrorString : hipError_t → String)
    (window : Nat) : TestStmt (World μ) :=
  Prog.toStmt do
    let HmmMem := true
    let Ptr ← m.op (.mmap 4)
    if Ptr.out = MAP_FAILED then
      WARN "Mapping Failed\n"
      Prog.ofStmt (REQUIRE 209 coherencyFile "false" false)
    let _ ← m.op (.store Ptr.out 1)
    TstCoherency m hipGetErrorString Ptr.out HmmMem window
    let err ← m.op (.munmap Ptr.out 4)
    if err.out ≠ 0 then
      WARN "munmap failed\n"
    Prog.ofStmt (REQUIRE 218 coherencyFile "YES_COHERENT" (← getYES_COHERENT))

/-- The block of `Unit_mmap_CoherentTstWthAdvise` run when `managed == 1`,
hipMemCoherencyTstMProc.cc lines 241-264. -/
def mmapAdviseBlock {μ : Type} (m : Machine μ) : TestStmt (World μ) :=
  Prog.toStmt do
    let SIZE := 4
    let Ptr ← m.op (.mmap SIZE)
    if Ptr.out = MAP_FAILED then
      WARN "Mapping Failed\n"
      Prog.ofStmt (REQUIRE 247 coherencyFile "false" false)
    let _ ← m.HIP_CHECK 249 coherencyFile
      "hipMemAdvise(Ptr, SIZE, hipMemAdviseSetCoarseGrain, 0)" (.hipMemAdvise Ptr.out SIZE)
    let _ ← m.op (.store Ptr.out 9)
    let strm ← m.HIP_CHECK 253 coherencyFile "hipStreamCreate(&strm)" .hipStreamCreate
    let _ ← m.op (.launch .SquareKrnl strm.out [Ptr.out])
    let _ ← m.HIP_CHECK 255 coherencyFile "hipStreamSynchronize(strm)"
      (.hipStreamSynchronize strm.out)
    let v ← m.op (.load Ptr.out)
    let IfTstPassed := decide (v.out = 81)
    let err ← m.op (.munmap Ptr.out SIZE)
    if err.out ≠ 0 then
      WARN "munmap failed\n"
    Prog.ofStmt (REQUIRE 264 coherencyFile "IfTstPassed" IfTstPassed)

/-! ## Tests that set the environment variable and fork -/

/-- How a process that runs a test case ends the test case: the body
returns, a `REQUIRE` fails, `abort()` ends the process, or `exit(code)`
ends the process. -/
inductive ProcessEnd (σ : Type) where
  | returned (w : σ)
  | raised (a : Assertion) (w : σ)
  | aborted (w : σ)
  | exited (code : Int) (w : σ)

/-- State in which the test case left the process. -/
def ProcessEnd.state {σ : Type} : ProcessEnd σ → σ
  | .returned w => w
  | .raised _ w => w
  | .aborted w => w
  | .exited _ w => w

/-- Whether a `REQUIRE` failed. -/
def ProcessEnd.isRaised {σ : Type} : ProcessEnd σ → Bool
  | .raised _ _ => true
  | _ => false

/-- The code given to `exit`, if the process ended by `exit`. -/
def ProcessEnd.exitCode? {σ : Type} : ProcessEnd σ → Option Int
  | .exited code _ => some code
  | _ => none

/-- A branch that ends with `exit(code)`, the code being the value the piece
yields. -/
def ProcessEnd.ofExit {σ : Type} : Step Int σ → ProcessEnd σ
  | .ok code w => .exited code w
  | .raised a w => .raised a w
  | .aborted w => .aborted w

/-- A branch that returns to the test framework. -/
def ProcessEnd.ofReturn {σ : Type} : Step Unit σ → ProcessEnd σ
  | .ok _ w => .returned w
  | .raised a w => .raised a w
  | .aborted w => .aborted w

/-- The rest of a test case runs when the first part returned. -/
def ProcessEnd.andThen {σ : Type} (r : ProcessEnd σ) (k : σ → ProcessEnd σ) : ProcessEnd σ :=
  match r with
  | .returned w => k w
  | .raised a w => .raised a w
  | .aborted w => .aborted w
  | .exited code w => .exited code w

/-- The macro `WEXITSTATUS` of `<sys/wait.h>`: bits 8 to 15 of the status
word. -/
def WEXITSTATUS (stat : Int) : Int := (stat % 65536) / 256

/-- The branch of the child in the tests `Unit_hipHostMalloc_WthEnv0Flg1` to
`Unit_hipHostMalloc_WthEnv0Flg4` (for the first, lines 283-302); the value
is the code given to `exit`. `base` is the line of `TEST_CASE`. -/
def squareChild {μ : Type} (base : Nat) (flags : HostMallocFlags) (mallocText : String)
    (m : Machine μ) : Prog (TestState (World μ)) Int := do
  let SIZE := 4
  setYES_COHERENT false
  let Ptr ← m.HIP_CHECK (base + 10) coherencyFile mallocText (.hipHostMalloc SIZE flags)
  let _ ← m.op (.store Ptr.out 4)
  let strm ← m.HIP_CHECK (base + 13) coherencyFile "hipStreamCreate(&strm)" .hipStreamCreate
  let PtrD ← m.HIP_CHECK (base + 14) coherencyFile
    "hipHostGetDevicePointer(reinterpret_cast<void**>(&PtrD), Ptr, 0)"
    (.hipHostGetDevicePointer Ptr.out)
  let _ ← m.op (.launch .SquareKrnl strm.out [PtrD.out])
  let _ ← m.HIP_CHECK (base + 16) coherencyFile "hipStreamSynchronize(strm)"
    (.hipStreamSynchronize strm.out)
  let _ ← m.HIP_CHECK (base + 17) coherencyFile "hipStreamDestroy(strm)"
    (.hipStreamDestroy strm.out)
  let v ← m.op (.load Ptr.out)
  if v.out = 16 then
    let _ ← m.HIP_CHECK (base + 20) coherencyFile "hipHostFree(Ptr)" (.hipHostFree Ptr.out)
    return 10
  else
    let _ ← m.HIP_CHECK (base + 24) coherencyFile "hipHostFree(Ptr)" (.hipHostFree Ptr.out)
    return 9

/-- The branch of the child in the tests `Unit_hipHostMalloc_WthEnv1` to
`Unit_hipHostMalloc_WthEnv1Flg3` (for the first, lines 449-464); the value
is the code given to `exit`. `initial` is the value the child stores in the
integer before `TstCoherency`. -/
def coherencyChild {μ : Type} (base : Nat) (flags : HostMallocFlags) (mallocText : String)
    (initial : Int) (m : Machine μ) (hipGetErrorString : hipError_t → String) (window : Nat) :
    Prog (TestState (World μ)) Int := do
  let SIZE := 4
  let HmmMem := false
  setYES_COHERENT false
  let Ptr ← m.HIP_CHECK (base + 12) coherencyFile mallocText (.hipHostMalloc SIZE flags)
  let _ ← m.op (.store Ptr.out initial)
  TstCoherency m hipGetErrorString Ptr.out HmmMem window
  if (← getYES_COHERENT) then
    let _ ← m.HIP_CHECK (base + 17) coherencyFile "hipHostFree(Ptr)" (.hipHostFree Ptr.out)
    return 10
  else
    let _ ← m.HIP_CHECK (base + 21) coherencyFile "hipHostFree(Ptr)" (.hipHostFree Ptr.out)
    return 9

/-- The body shared by the eight tests `Unit_hipHostMalloc_WthEnv*`, as run
by one process: `setenv`, then `fork`, whose result tells the child (0)
from the parent; the child runs `child` and exits, the parent waits and
checks `WEXITSTATUS(stat)`. `requireLine` is the line of the parent's
`REQUIRE(false)`. -/
def envTest {μ : Type} (base requireLine : Nat) (value : String) (m : Machine μ)
    (child : Prog (TestState (World μ)) Int) (w : TestState (World μ)) :
    ProcessEnd (TestState (World μ)) :=
  ProcessEnd.ofReturn ((do
    let set ← m.op (.setenv "HIP_HOST_COHERENT" value 1)
    if set.out ≠ 0 then
      WARN "Unable to turn on HIP_HOST_COHERENT, hence terminating the Test case!"
      Prog.ofStmt (REQUIRE (base + 3) coherencyFile "false" false)
    : Prog (TestState (World μ)) Unit) w) |>.andThen fun w1 =>
  if (m.call .fork w1).1.out = 0 then
    ProcessEnd.ofExit (child (m.call .fork w1).2)
  else
    ProcessEnd.ofReturn ((do
      let stat ← m.op .wait
      let Result := WEXITSTATUS stat.out
      if Result ≠ 10 then
        Prog.ofStmt (REQUIRE requireLine coherencyFile "false" false)
      : Prog (TestState (World μ)) Unit) (m.call .fork w1).2)

/-- Embedding of `TEST_CASE("Unit_hipHostMalloc_WthEnv0Flg1")`,
hipMemCoherencyTstMProc.cc lines 276-310. -/
def Unit_hipHostMalloc_WthEnv0Flg1 {μ : Type} (m : Machine μ) :
    TestState (World μ) → ProcessEnd (TestState (World μ)) :=
  envTest 276 307 "0" m (squareChild 276 .hipHostMallocPortable
    "hipHostMalloc(&Ptr, SIZE, hipHostMallocPortable)" m)

/-- Embedding of `TEST_CASE("Unit_hipHostMalloc_WthEnv0Flg2")`,
hipMemCoherencyTstMProc.cc lines 317-351. -/
def Unit_hipHostMalloc_WthEnv0Flg2 {μ : Type} (m : Machine μ) :
    TestState (World μ) → ProcessEnd (TestState (World μ)) :=
  envTest 317 348 "0" m (squareChild 317 .hipHostMallocWriteCombined
    "hipHostMalloc(&Ptr, SIZE, hipHostMallocWriteCombined)" m)

/-- Embedding of `TEST_CASE("Unit_hipHostMalloc_WthEnv0Flg3")`,
hipMemCoherencyTstMProc.cc lines 358-392. -/
def Unit_hipHostMalloc_WthEnv0Flg3 {μ : Type} (m : Machine μ) :
    TestState (World μ) → ProcessEnd (TestState (World μ)) :=
  envTest 358 389 "0" m (squareChild 358 .hipHostMallocNumaUser
    "hipHostMalloc(&Ptr, SIZE, hipHostMallocNumaUser)" m)

/-- Embedding of `TEST_CASE("Unit_hipHostMalloc_WthEnv0Flg4")`,
hipMemCoherencyTstMProc.cc lines 399-433. -/
def Unit_hipHostMalloc_WthEnv0Flg4 {μ : Type} (m : Machine μ) :
    TestState (World μ) → ProcessEnd (TestState (World μ)) :=
  envTest 399 430 "0" m (squareChild 399 .hipHostMallocNonCoherent
    "hipHostMalloc(&Ptr, SIZE, hipHostMallocNonCoherent)" m)

/-- Embedding of `TEST_CASE("Unit_hipHostMalloc_WthEnv1")`,
hipMemCoherencyTstMProc.cc lines 441-472. -/
def Unit_hipHostMalloc_WthEnv1 {μ : Type} (m : Machine μ)
    (hipGetErrorString : hipError_t → String) (window : Nat) :
    TestState (World μ) → ProcessEnd (TestState (World μ)) :=
  envTest 441 469 "1" m (coherencyChild 441 .hipHostMallocDefault
    "hipHostMalloc(&Ptr, SIZE)" 4 m hipGetErrorString window)

/-- Embedding of `TEST_CASE("Unit_hipHostMalloc_WthEnv1Flg1")`,
hipMemCoherencyTstMProc.cc lines 480-511. -/
def Unit_hipHostMalloc_WthEnv1Flg1 {μ : Type} (m : Machine μ)
    (hipGetErrorString : hipError_t → String) (window : Nat) :
    TestState (World μ) → ProcessEnd (TestState (World μ)) :=
  envTest 480 508 "1" m (coherencyChild 480 .hipHostMallocPortable
    "hipHostMalloc(&Ptr, SIZE, hipHostMallocPortable)" 1 m hipGetErrorString window)

/-- Embedding of `TEST_CASE("Unit_hipHostMalloc_WthEnv1Flg2")`,
hipMemCoherencyTstMProc.cc lines 518-549. -/
def Unit_hipHostMalloc_WthEnv1Flg2 {μ : Type} (m : Machine μ)
    (hipGetErrorString : hipError_t → String) (window : Nat) :
    TestState (World μ) → ProcessEnd (TestState (World μ)) :=
  envTest 518 546 "1" m (coherencyChild 518 .hipHostMallocWriteCombined
    "hipHostMalloc(&Ptr, SIZE, hipHostMallocWriteCombined)" 4 m hipGetErrorString window)

/-- Embedding of `TEST_CASE("Unit_hipHostMalloc_WthEnv1Flg3")`,
hipMemCoherencyTstMProc.cc lines 556-587. -/
def Unit_hipHostMalloc_WthEnv1Flg3 {μ : Type} (m : Machine μ)
    (hipGetErrorString : hipError_t → String) (window : Nat) :
    TestState (World μ) → ProcessEnd (TestState (World μ)) :=
  envTest 556 584 "1" m (coherencyChild 556 .hipHostMallocNumaUser
    "hipHostMalloc(&Ptr, SIZE, hipHostMallocNumaUser)" 1 m hipGetErrorString window)

/-! ## A sequentially consistent shared integer -/

/-- Where the kernel launched on the tested integer stands: no kernel was
launched, the kernel was launched and has not run yet, `CoherentTst` is in
its loop and `remaining` more evaluations of the loop condition hold, or
the kernel has finished. -/
inductive KernelState where
  | idle
  | launched (kernel : Kernel)
  | polling (remaining : Nat)
  | finished
deriving DecidableEq, Repr

/-- The tested integer shared by the host and the device: its value, the
state of the kernel, the schedule (`plan` gives, for each coming access of
the host, the number of steps the kernel makes before it), the number of
evaluations of the loop condition of `CoherentTst` that hold (its window
of `3 * GpuFrq` ticks), the values stored in the integer so far and the
values the kernel read so far, both in order. -/
structure Shared where
  value : Int
  kernel : KernelState
  plan : List Nat
  kernelWindow : Nat
  writes : List Int
  kernelReads : List Int
deriving DecidableEq, Repr

/-- One step of the kernel on the shared integer. `SquareKrnl`,
hipMemCoherencyTstMProc.cc lines 66-69, is one step
`*ptr = (*ptr) * (*ptr)`. `CoherentTst`, lines 42-51 (and
`CoherentTst_gfx11`, which differs by the clock it reads), makes first
`atomicAdd(ptr, 1)`, then one step for each evaluation of the loop
condition: when the condition holds, `atomicCAS(ptr, 3, 4)`, and the loop
ends if it read 3. -/
def Shared.kernelStep (s : Shared) : Shared :=
  match s.kernel with
  | .idle => s
  | .launched .SquareKrnl =>
    { s with
      value := s.value * s.value
      kernel := .finished
      writes := s.writes ++ [s.value * s.value]
      kernelReads := s.kernelReads ++ [s.value, s.value] }
  | .launched _ =>
    { s with
      value := s.value + 1
      kernel := .polling s.kernelWindow
      writes := s.writes ++ [s.value + 1]
      kernelReads := s.kernelReads ++ [s.value] }
  | .polling 0 => { s with kernel := .finished }
  | .polling (remaining + 1) =>
    if s.value = 3 then
      { s with
        value := 4
        kernel := .finished
        writes := s.writes ++ [4]
        kernelReads := s.kernelReads ++ [3] }
    else
      { s with kernel := .polling remaining, kernelReads := s.kernelReads ++ [s.value] }
  | .finished => s

/-- The kernel makes `n` steps. -/
def Shared.kernelSteps : Nat → Shared → Shared
  | 0, s => s
  | n + 1, s => Shared.kernelSteps n s.kernelStep

/-- The kernel makes the steps the schedule gives it before the coming
access of the host. -/
def Shared.scheduled (s : Shared) : Shared :=
  match s.plan with
  | [] => s
  | n :: rest => Shared.kernelSteps n { s with plan := rest }

/-- A number of steps after which the kernel has finished. -/
def Shared.bound (s : Shared) : Nat :=
  match s.kernel with
  | .launched _ => s.kernelWindow + 2
  | .polling remaining => remaining + 1
  | _ => 0

/-- The kernel runs to its end, as `hipStreamSynchronize` waits for. -/
def Shared.drain (s : Shared) : Shared := Shared.kernelSteps s.bound s

/-- The environment of the coherency handshake: a sequentially consistent
integer shared by the host and one kernel. Every access of the host and
every step of the kernel acts on the one value, in the order the schedule
gives; a launch starts the kernel, `hipStreamSynchronize` returns when the
kernel has finished; every call of the runtime succeeds, the device has
the architecture name `arch`, and `fork` answers `forked`. -/
def scMachine (arch : String) (forked : Int) : Machine Shared where
  perform := fun op s =>
    match op with
    | .load _ => (⟨hipSuccess, s.scheduled.value, ""⟩, s.scheduled)
    | .store _ value =>
      (⟨hipSuccess, 0, ""⟩,
        { s.scheduled with value := value, writes := s.scheduled.writes ++ [value] })
    | .launch kernel _ _ => (⟨hipSuccess, 0, ""⟩, { s with kernel := .launched kernel })
    | .hipStreamSynchronize _ => (⟨hipSuccess, 0, ""⟩, s.drain)
    | .hipGetDeviceProperties _ => (⟨hipSuccess, 0, arch⟩, s)
    | .fork => (⟨hipSuccess, forked, ""⟩, s)
    | _ => (⟨hipSuccess, 0, ""⟩, s)

/-- An environment without state that answers each operation as `answer`
tells. -/
def scriptedMachine (answer : Op → Answer) : Machine Unit where
  perform := fun op s => (answer op, s)

/-- The values the host read from the integer before it synchronised with
the stream, in order: the reads of the loop of `TstCoherency`. -/
def loadsBeforeSync : List (Op × Answer) → List Int
  | [] => []
  | (.hipStreamSynchronize _, _) :: _ => []
  | (.load _, a) :: rest => a.out :: loadsBeforeSync rest
  | _ :: rest => loadsBeforeSync rest

/-- The value of the last read of the integer by the host. -/
def lastLoad (trace : List (Op × Answer)) : Option Int :=
  ((trace.filter fun e => e.1.isLoad).getLast?).map fun e => e.2.out

/-! ## Sample inputs of the coherency tests -/

/-- A process that has made no operation yet, with the global
`YES_COHERENT` equal to `flag`. -/
def startAt {μ : Type} (flag : Bool) (machine : μ) : TestState (World μ) :=
  ⟨"", ⟨flag, [], [], machine⟩⟩

/-- A shared integer on which no kernel was launched. -/
def sharedAt (value : Int) (plan : List Nat) (kernelWindow : Nat) : Shared :=
  ⟨value, .idle, plan, kernelWindow, [], []⟩

/-- A device with xnack enabled that supports managed memory. -/
def xnackManaged : Device :=
  ⟨hipSuccess, "gfx90a:sramecc+:xnack+", hipSuccess, 1, fun _ => "no error"⟩

/-- An environment in which `setenv` and `mmap` fail and `fork` answers as
to the parent; the status word of the child is `stat`. -/
def failingSetup (stat : Int) : Machine Unit :=
  scriptedMachine fun op =>
    match op with
    | .setenv _ _ _ => ⟨hipSuccess, -1, ""⟩
    | .mmap _ => ⟨hipSuccess, MAP_FAILED, ""⟩
    | .fork => ⟨hipSuccess, 4242, ""⟩
    | .wait => ⟨hipSuccess, stat, ""⟩
    | _ => ⟨hipSuccess, 0, ""⟩

/-- An environment in which every operation succeeds and `fork` answers as
to the parent; the status word of the child is `stat`. -/
def parentSide (stat : Int) : Machine Unit :=
  scriptedMachine fun op =>
    match op with
    | .fork => ⟨hipSuccess, 4242, ""⟩
    | .wait => ⟨hipSuccess, stat, ""⟩
    | _ => ⟨hipSuccess, 0, ""⟩

/-! ## Invariants of the handshake -/

/-- Whether the operation is `hipStreamSynchronize`. -/
def Op.isSync : Op → Bool
  | .hipStreamSynchronize _ => true
  | _ => false

/-- The kernel `CoherentTst` was launched and has not run yet: the integer
holds the 1 the host stored. -/
def Shared.Launched (s : Shared) : Prop :=
  3 ∉ s.kernelReads
    ∧ (∃ kernel, kernel ≠ Kernel.SquareKrnl ∧ s.kernel = .launched kernel)
    ∧ s.value = 1 ∧ s.writes = [1]

/-- The kernel has incremented the integer and the host has not written
yet. -/
def Shared.Incremented (s : Shared) : Prop :=
  3 ∉ s.kernelReads
    ∧ ((∃ remaining, s.kernel = .polling remaining) ∨ s.kernel = .finished)
    ∧ s.value = 2 ∧ s.writes = [1, 2]

/-- The host has written 3 and the kernel has not read it yet. -/
def Shared.HostWrote (s : Shared) : Prop :=
  3 ∉ s.kernelReads
    ∧ ((∃ remaining, s.kernel = .polling remaining) ∨ s.kernel = .finished)
    ∧ s.value = 3 ∧ s.writes = [1, 2, 3]

/-- Every call of the runtime and every kernel launch succeeds, in every
state of the environment. -/
def Machine.RuntimeSucceeds {μ : Type} (m : Machine μ) : Prop :=
  ∀ op s, op.isRuntimeCall = true → (m.perform op s).1.status = hipSuccess

/-- Total correctness of a piece of a test body: from every state that
satisfies `P` the piece runs to its end, and the value it yields and the
state it leaves satisfy `Q`. -/
def Prog.Ensures {σ α : Type} (P : σ → Prop) (x : Prog σ α) (Q : α → σ → Prop) : Prop :=
  ∀ w, P w → ∃ a w1, x w = .ok a w1 ∧ Q a w1

/-- The piece runs to its end from every state that satisfies `I` and
leaves a state that satisfies `I`. -/
def Prog.Keeps {σ α : Type} (I : σ → Prop) (x : Prog σ α) : Prop :=
  Prog.Ensures I x fun _ => I

/-- The global `YES_COHERENT` is `flag` and the trace begins with `trace`:
what the process did since is appended to it. -/
def Since {μ : Type} (flag : Bool) (trace : List (Op × Answer)) (w : TestState (World μ)) :
    Prop :=
  w.runtime.YES_COHERENT = flag ∧ ∃ ext, w.runtime.trace = trace ++ ext

/-- Whether the operation acts on the tested integer or on the kernel: a
read or a write of the host, a launch, a synchronisation. -/
def Op.touchesInteger : Op → Bool
  | .load _ => true
  | .store _ _ => true
  | .launch _ _ _ => true
  | .hipStreamSynchronize _ => true
  | _ => false

/-- The process has not synchronised with the stream yet. -/
def NoSync (trace : List (Op × Answer)) : Prop := ∀ e ∈ trace, e.1.isSync = false

/-- Before `TstCoherency` stores its 1: no kernel was launched and nothing
was written or read yet. -/
def Quiet (flag : Bool) (w : TestState (World Shared)) : Prop :=
  w.runtime.YES_COHERENT = flag ∧ NoSync w.runtime.trace
    ∧ loadsBeforeSync w.runtime.trace = []
    ∧ w.runtime.machine.kernel = .idle ∧ w.runtime.machine.writes = []
    ∧ w.runtime.machine.kernelReads = []

/-- After `TstCoherency` stored its 1 and before the launch. -/
def Stored (flag : Bool) (w : TestState (World Shared)) : Prop :=
  w.runtime.YES_COHERENT = flag ∧ NoSync w.runtime.trace
    ∧ loadsBeforeSync w.runtime.trace = []
    ∧ w.runtime.machine.kernel = .idle ∧ w.runtime.machine.value = 1
    ∧ w.runtime.machine.writes = [1] ∧ w.runtime.machine.kernelReads = []

/-- In the loop of the host, before the host has read 2. -/
def Waiting (flag : Bool) (w : TestState (World Shared)) : Prop :=
  w.runtime.YES_COHERENT = flag ∧ NoSync w.runtime.trace
    ∧ 2 ∉ loadsBeforeSync w.runtime.trace
    ∧ (w.runtime.machine.Launched ∨ w.runtime.machine.Incremented)

/-- The host has read 2 and written 3. -/
def Answered (flag : Bool) (w : TestState (World Shared)) : Prop :=
  w.runtime.YES_COHERENT = flag ∧ NoSync w.runtime.trace
    ∧ 2 ∈ loadsBeforeSync w.runtime.trace
    ∧ w.runtime.machine.HostWrote

/-- After `TstCoherency`: the kernel has finished, the last read of the host
gave the final value, and one of three outcomes holds. The integer ends at
2 (the host did not read 2 in its loop), at 3 (the host read 2 and wrote 3,
the kernel did not read 3) or at 4 (the host read 2 and the kernel read 3),
and `YES_COHERENT` was set in the last case only. -/
def Settled (flag : Bool) (w : TestState (World Shared)) : Prop :=
  w.runtime.machine.kernel = .finished
    ∧ lastLoad w.runtime.trace = some w.runtime.machine.value
    ∧ ((w.runtime.machine.value = 2 ∧ w.runtime.machine.writes = [1, 2]
          ∧ 2 ∉ loadsBeforeSync w.runtime.trace ∧ 3 ∉ w.runtime.machine.kernelReads
          ∧ w.runtime.YES_COHERENT = flag)
      ∨ (w.runtime.machine.value = 3 ∧ w.runtime.machine.writes = [1, 2, 3]
          ∧ 2 ∈ loadsBeforeSync w.runtime.trace ∧ 3 ∉ w.runtime.machine.kernelReads
          ∧ w.runtime.YES_COHERENT = flag)
      ∨ (w.runtime.machine.value = 4 ∧ w.runtime.machine.writes = [1, 2, 3, 4]
          ∧ 2 ∈ loadsBeforeSync w.runtime.trace ∧ 3 ∈ w.runtime.machine.kernelReads
          ∧ w.runtime.YES_COHERENT = true))

/-- One run of `TstCoherency` on the shared integer: the integer holds
`value` before the call, the global `YES_COHERENT` is `flag`, the schedule
is `plan`, and the windows of the host and of the kernel are `window` and
`kernelWindow`. -/
def handshakeRun (arch : String) (forked : Int) (hipGetErrorString : hipError_t → String)
    (Ptr : Int) (HmmMem : Bool) (window kernelWindow : Nat) (plan : List Nat) (value : Int)
    (flag : Bool) : Step Unit (TestState (World Shared)) :=
  TstCoherency (scMachine arch forked) hipGetErrorString Ptr HmmMem window
    (startAt flag (sharedAt value plan kernelWindow))

/-- The four tests that set `HIP_HOST_COHERENT` to 0. -/
def envSquareTests {μ : Type} (m : Machine μ) :
    List (TestState (World μ) → ProcessEnd (TestState (World μ))) :=
  [Unit_hipHostMalloc_WthEnv0Flg1 m, Unit_hipHostMalloc_WthEnv0Flg2 m,
    Unit_hipHostMalloc_WthEnv0Flg3 m, Unit_hipHostMalloc_WthEnv0Flg4 m]

/-- The four tests that set `HIP_HOST_COHERENT` to 1. -/
def envCoherencyTests {μ : Type} (m : Machine μ) (hipGetErrorString : hipError_t → String)
    (window : Nat) : List (TestState (World μ) → ProcessEnd (TestState (World μ))) :=
  [Unit_hipHostMalloc_WthEnv1 m hipGetErrorString window,
    Unit_hipHostMalloc_WthEnv1Flg1 m hipGetErrorString window,
    Unit_hipHostMalloc_WthEnv1Flg2 m hipGetErrorString window,
    Unit_hipHostMalloc_WthEnv1Flg3 m hipGetErrorString window]

/-- The texts of the statuses used by the sample runs. -/
def noText : hipError_t → String := fun _ => "no error"

/-! # Theorems -/

/-! ## The collector -/

theorem sequenceIn_appendFor_self (t : ThreadId) (r : HCResult)
    (m : List (ThreadId × List HCResult)) :
    sequenceIn t (appendFor t r m) = sequenceIn t m ++ [r] := by
  induction m with
  | nil => simp [appendFor, sequenceIn]
  | cons e rest ih =>
    obtain ⟨u, rs⟩ := e
    by_cases h : u = t
    · simp [appendFor, sequenceIn, h]
    · simp [appendFor, sequenceIn, h, ih]

theorem sequenceIn_appendFor_other (t u : ThreadId) (r : HCResult) (h : u ≠ t)
    (m : List (ThreadId × List HCResult)) :
    sequenceIn u (appendFor t r m) = sequenceIn u m := by
  induction m with
  | nil => simp [appendFor, sequenceIn, Ne.symm h]
  | cons e rest ih =>
    obtain ⟨v, rs⟩ := e
    by_cases hv : v = t
    · subst hv
      simp [appendFor, sequenceIn, Ne.symm h]
    · by_cases hu : v = u
      · subst hu
        simp [appendFor, sequenceIn, hv]
      · simp [appendFor, sequenceIn, hv, hu, ih]

theorem flatten_appendFor_perm (t : ThreadId) (r : HCResult)
    (m : List (ThreadId × List HCResult)) :
    (((appendFor t r m).map Prod.snd).flatten).Perm (r :: (m.map Prod.snd).flatten) := by
  induction m with
  | nil => simp [appendFor]
  | cons e rest ih =>
    obtain ⟨u, rs⟩ := e
    by_cases h : u = t
    · simp only [appendFor, h, if_true, List.map_cons, List.flatten_cons, List.append_assoc,
        List.singleton_append]
      exact List.perm_middle
    · simp only [appendFor, h, if_false, List.map_cons, List.flatten_cons]
      exact (List.Perm.append_left rs ih).trans List.perm_middle

theorem allRecords_addResults_perm (c : TestContext) (t : ThreadId) (r : HCResult) :
    ((c.addResults t r).allRecords).Perm (r :: c.allRecords) :=
  flatten_appendFor_perm t r c.results

theorem recordCount_addResults (c : TestContext) (t : ThreadId) (r : HCResult) :
    (c.addResults t r).recordCount = c.recordCount + 1 := by
  unfold TestContext.recordCount
  rw [(allRecords_addResults_perm c t r).length_eq]
  simp

theorem sequenceOf_addResults_self (c : TestContext) (t : ThreadId) (r : HCResult) :
    (c.addResults t r).sequenceOf t = c.sequenceOf t ++ [r] :=
  sequenceIn_appendFor_self t r c.results

theorem sequenceOf_addResults_other (c : TestContext) (t u : ThreadId) (r : HCResult)
    (h : u ≠ t) : (c.addResults t r).sequenceOf u = c.sequenceOf u :=
  sequenceIn_appendFor_other t u r h c.results

theorem hasErrorOccured_addResults (c : TestContext) (t : ThreadId) (r : HCResult) :
    (c.addResults t r).hasErrorOccured = (c.hasErrorOccured || r.indicatesFailure) := by
  cases hr : r.indicatesFailure <;> simp [TestContext.addResults, TestContext.hasErrorOccured, hr]

theorem indicatesFailure_iff (r : HCResult) :
    r.indicatesFailure = true ↔ (r.status ≠ hipSuccess ∨ r.outcome = some false) := by
  simp [HCResult.indicatesFailure]

theorem failing_addResults_perm (c : TestContext) (t : ThreadId) (r : HCResult) :
    (((c.addResults t r).allRecords).filter HCResult.indicatesFailure).Perm
      ((r :: c.allRecords).filter HCResult.indicatesFailure) :=
  (allRecords_addResults_perm c t r).filter _


theorem recordCount_submitAll (subs : List (ThreadId × HCResult)) (c : TestContext) :
    (submitAll subs c).recordCount = c.recordCount + subs.length := by
  induction subs generalizing c with
  | nil => simp [submitAll]
  | cons e rest ih =>
    obtain ⟨t, r⟩ := e
    simp only [submitAll, ih, recordCount_addResults, List.length_cons]
    omega

theorem allRecords_submitAll_perm (subs : List (ThreadId × HCResult)) (c : TestContext) :
    ((submitAll subs c).allRecords).Perm (c.allRecords ++ subs.map Prod.snd) := by
  induction subs generalizing c with
  | nil => simp [submitAll]
  | cons e rest ih =>
    obtain ⟨t, r⟩ := e
    simp only [submitAll, List.map_cons]
    refine (ih (c.addResults t r)).trans ?_
    refine ((allRecords_addResults_perm c t r).append_right _).trans ?_
    simpa using (@List.perm_middle _ r c.allRecords (rest.map Prod.snd)).symm

theorem hasErrorOccured_submitAll (subs : List (ThreadId × HCResult)) (c : TestContext) :
    (submitAll subs c).hasErrorOccured
      = (c.hasErrorOccured || (subs.map Prod.snd).any HCResult.indicatesFailure) := by
  induction subs generalizing c with
  | nil => simp [submitAll]
  | cons e rest ih =>
    obtain ⟨t, r⟩ := e
    simp only [submitAll, ih, hasErrorOccured_addResults, List.map_cons, List.any_cons,
      Bool.or_assoc]

theorem sequenceOf_submitAll (subs : List (ThreadId × HCResult)) (c : TestContext)
    (t : ThreadId) :
    (submitAll subs c).sequenceOf t
      = c.sequenceOf t ++ (subs.filter (fun e => decide (e.1 = t))).map Prod.snd := by
  induction subs generalizing c with
  | nil => simp [submitAll]
  | cons e rest ih =>
    obtain ⟨u, r⟩ := e
    by_cases h : u = t
    · subst h
      simp [submitAll, ih, sequenceOf_addResults_self]
    · have h2 : t ≠ u := fun e => h e.symm
      simp [submitAll, ih, sequenceOf_addResults_other _ _ _ _ h2, h]

theorem length_eq_sum_per_thread (N : Nat) (subs : List (ThreadId × HCResult))
    (h : ∀ e ∈ subs, e.1 < N) :
    subs.length
      = ∑ t in Finset.range N, (subs.filter (fun e => decide (e.1 = t))).length := by
  induction subs with
  | nil => simp
  | cons e rest ih =>
    have hrest : ∀ x ∈ rest, x.1 < N := fun x hx => h x (List.mem_cons_of_mem _ hx)
    have he : e.1 < N := h e (List.mem_cons_self _ _)
    have hsplit : ∀ t, ((e :: rest).filter (fun x => decide (x.1 = t))).length
        = (rest.filter (fun x => decide (x.1 = t))).length + (if e.1 = t then 1 else 0) := by
      intro t
      by_cases ht : e.1 = t <;> simp [List.filter_cons, ht]
    simp only [hsplit, Finset.sum_add_distrib, List.length_cons, ← ih hrest]
    simp [Finset.sum_ite_eq, he]


/-! ## Threaded checks, one call -/

/-- C1: in a collector state where `hasErrorOccured()` is true, a threaded
check of either shape returns from the worker function at once. The state
after the function is the state before the check, whatever statements
`rest` follow it: the expression is not evaluated (its evaluation counter
is unchanged), no record is submitted (the record count is unchanged), and
no later statement runs. -/
theorem threaded_check_returns_when_flagged {σ : Type} (c : TestContext) (w : σ) (n : Nat)
    (self : ThreadId) (line : Nat) (file text : String) (error : Expr σ hipError_t)
    (condition : Expr σ Bool) (rest : List (Stmt (σ × Nat)))
    (h : c.hasErrorOccured = true) :
    runBody (HIP_CHECK_THREAD self line file text (counting error) :: rest) (c, (w, n))
        = (.returned, (c, (w, n)))
    ∧ runBody (REQUIRE_THREAD self line file text (counting condition) :: rest) (c, (w, n))
        = (.returned, (c, (w, n)))
    ∧ (runBody (HIP_CHECK_THREAD self line file text (counting error) :: rest)
        (c, (w, n))).2.1.recordCount = c.recordCount
    ∧ (runBody (REQUIRE_THREAD self line file text (counting condition) :: rest)
        (c, (w, n))).2.1.recordCount = c.recordCount
    ∧ (runBody (HIP_CHECK_THREAD self line file text (counting error) :: rest)
        (c, (w, n))).2.2.2 = n
    ∧ (runBody (REQUIRE_THREAD self line file text (counting condition) :: rest)
        (c, (w, n))).2.2.2 = n := by
  have h1 : runBody (HIP_CHECK_THREAD self line file text (counting error) :: rest) (c, (w, n))
      = (.returned, (c, (w, n))) := by
    simp [runBody, HIP_CHECK_THREAD, h]
  have h2 : runBody (REQUIRE_THREAD self line file text (counting condition) :: rest)
      (c, (w, n)) = (.returned, (c, (w, n))) := by
    simp [runBody, REQUIRE_THREAD, h]
  refine ⟨h1, h2, ?_, ?_, ?_, ?_⟩ <;> simp [h1, h2]

/-- Witness of C1: a flagged collector, and a later statement that would
submit a record. -/
theorem threaded_check_returns_when_flagged_witness :
    flaggedContext.hasErrorOccured = true
    ∧ runBody (HIP_CHECK_THREAD 1 7 "worker.cc" "hipFree(p)" (counting succeeds)
        :: [submitsRecord]) (flaggedContext, ((), 0)) = (.returned, (flaggedContext, ((), 0)))
    ∧ runBody (REQUIRE_THREAD 1 7 "worker.cc" "hipFree(p)" (counting holds)
        :: [submitsRecord]) (flaggedContext, ((), 0)) = (.returned, (flaggedContext, ((), 0))) :=
  have h := threaded_check_returns_when_flagged flaggedContext () 0 1 7 "worker.cc"
    "hipFree(p)" succeeds holds [submitsRecord] (by decide)
  ⟨by decide, h.1, h.2.1⟩

/-- C3: in a collector state where `hasErrorOccured()` is false,
`REQUIRE_THREAD(cond)` evaluates the condition once (the state after is the
state after one evaluation, and the evaluation counter grows by one) and
submits one record, appended to the sequence of the calling thread, that
carries the line, the file, the status `hipSuccess`, the text of the
condition and the boolean the condition evaluated to. -/
theorem require_thread_submits_one_record {σ : Type} (c : TestContext) (w : σ) (n : Nat)
    (self : ThreadId) (line : Nat) (file text : String) (condition : Expr σ Bool)
    (h : c.hasErrorOccured = false) :
    REQUIRE_THREAD self line file text condition (c, w)
        = (.fallthrough,
            (c.addResults self ⟨line, file, hipSuccess, text, some (condition w).1⟩,
             (condition w).2))
    ∧ (REQUIRE_THREAD self line file text condition (c, w)).2.1.sequenceOf self
        = c.sequenceOf self ++ [⟨line, file, hipSuccess, text, some (condition w).1⟩]
    ∧ (REQUIRE_THREAD self line file text condition (c, w)).2.1.recordCount
        = c.recordCount + 1
    ∧ (REQUIRE_THREAD self line file text (counting condition) (c, (w, n))).2.2
        = ((condition w).2, n + 1) := by
  have h1 : REQUIRE_THREAD self line file text condition (c, w)
      = (.fallthrough,
          (c.addResults self ⟨line, file, hipSuccess, text, some (condition w).1⟩,
           (condition w).2)) := by
    simp [REQUIRE_THREAD, h]
  refine ⟨h1, ?_, ?_, ?_⟩
  · rw [h1]; exact sequenceOf_addResults_self _ _ _
  · rw [h1]; exact recordCount_addResults _ _ _
  · simp [REQUIRE_THREAD, h, counting]

/-- Witness of C3: a condition check on a fresh collector. -/
theorem require_thread_submits_one_record_witness :
    TestContext.fresh.hasErrorOccured = false
    ∧ (REQUIRE_THREAD 1 8 "worker.cc" "p != nullptr" holds (TestContext.fresh, ())).2.1.sequenceOf 1
        = TestContext.fresh.sequenceOf 1 ++ [⟨8, "worker.cc", hipSuccess, "p != nullptr", some (holds ()).1⟩] :=
  ⟨by decide,
    (require_thread_submits_one_record TestContext.fresh () 0 1 8 "worker.cc" "p != nullptr"
      holds (by decide)).2.1⟩

/-! ## The collector, claims -/

/-- C4: `addResults(r)` called by thread `t` appends `r` to the sequence of
`t` and leaves the sequence of every other thread alone; the failure flag
afterwards is the flag before or-ed with "r indicates failure", where `r`
indicates failure exactly when its status is not `hipSuccess` or its
boolean outcome is false. So the call sets the flag if and only if the
record indicates failure, and a passing record submitted while the flag is
false leaves `hasErrorOccured()` false. -/
theorem addResults_appends_and_flags (c : TestContext) (t : ThreadId) (r : HCResult) :
    (c.addResults t r).sequenceOf t = c.sequenceOf t ++ [r]
    ∧ (∀ u, u ≠ t → (c.addResults t r).sequenceOf u = c.sequenceOf u)
    ∧ (c.addResults t r).hasErrorOccured = (c.hasErrorOccured || r.indicatesFailure)
    ∧ (r.indicatesFailure = true ↔ (r.status ≠ hipSuccess ∨ r.outcome = some false))
    ∧ (r.indicatesFailure = true → (c.addResults t r).hasErrorOccured = true)
    ∧ (r.indicatesFailure = false →
        (c.addResults t r).hasErrorOccured = c.hasErrorOccured)
    ∧ (c.hasErrorOccured = false → r.indicatesFailure = false →
        (c.addResults t r).hasErrorOccured = false) := by
  refine ⟨sequenceOf_addResults_self c t r,
    fun u hu => sequenceOf_addResults_other c t u r hu,
    hasErrorOccured_addResults c t r, indicatesFailure_iff r, ?_, ?_, ?_⟩
  · intro hr; simp [hasErrorOccured_addResults, hr]
  · intro hr; simp [hasErrorOccured_addResults, hr]
  · intro hc hr; simp [hasErrorOccured_addResults, hr, hc]

theorem hasErrorOccured_apply {σ : Type} (op : CollectorOp σ) (c : TestContext)
    (h : c.hasErrorOccured = true) : (op.apply c).hasErrorOccured = true := by
  cases op with
  | submit t r => simp [CollectorOp.apply, hasErrorOccured_addResults, h]
  | statusCheck t line file text error w => simp [CollectorOp.apply, HIP_CHECK_THREAD, h]
  | conditionCheck t line file text condition w =>
    simp [CollectorOp.apply, REQUIRE_THREAD, h]

theorem hasErrorOccured_applyOps {σ : Type} (ops : List (CollectorOp σ)) (c : TestContext)
    (h : c.hasErrorOccured = true) : (applyOps ops c).hasErrorOccured = true := by
  induction ops generalizing c with
  | nil => simpa [applyOps] using h
  | cons op rest ih => exact ih _ (hasErrorOccured_apply op c h)

/-- C5: the failure flag is monotonic within a test case. Once
`hasErrorOccured()` is true, it is true after every initial part of every
sequence of record submissions and threaded checks (of either shape, by any
threads), whatever the records submitted. -/
theorem failure_flag_monotonic {σ : Type} (ops : List (CollectorOp σ)) (c : TestContext)
    (h : c.hasErrorOccured = true) (k : Nat) :
    (applyOps (ops.take k) c).hasErrorOccured = true :=
  hasErrorOccured_applyOps _ c h

/-- Witness of C5: operations of three threads on a flagged collector. -/
theorem failure_flag_monotonic_witness :
    flaggedContext.hasErrorOccured = true
    ∧ (applyOps (sampleOps.take 3) flaggedContext).hasErrorOccured = true :=
  ⟨by decide, failure_flag_monotonic sampleOps flaggedContext (by decide) 3⟩

theorem failing_submitAll_perm (subs : List (ThreadId × HCResult)) :
    (((submitAll subs TestContext.fresh).allRecords).filter HCResult.indicatesFailure).Perm
      ((subs.map Prod.snd).filter HCResult.indicatesFailure) := by
  have h := (allRecords_submitAll_perm subs TestContext.fresh).filter HCResult.indicatesFailure
  simpa [TestContext.fresh, TestContext.allRecords] using h

/-- C6: after `N` worker threads have each submitted `k` records, none of
which indicates failure, in any order of the submissions, the collector
holds `N * k` records and its flag is false; `HIP_CHECK_THREAD_FINALIZE`
raises no reportable failure and leaves the collector reset:
`hasErrorOccured()` is false and no record remains. -/
theorem finalize_after_passing_submissions (N k : Nat) (subs : List (ThreadId × HCResult))
    (hthreads : ∀ e ∈ subs, e.1 < N)
    (heach : ∀ t, t < N → (subs.filter (fun e => decide (e.1 = t))).length = k)
    (hpass : ∀ e ∈ subs, e.2.status = hipSuccess ∧ e.2.outcome ≠ some false) :
    (submitAll subs TestContext.fresh).recordCount = N * k
    ∧ (submitAll subs TestContext.fresh).hasErrorOccured = false
    ∧ (HIP_CHECK_THREAD_FINALIZE (submitAll subs TestContext.fresh)).1 = []
    ∧ (HIP_CHECK_THREAD_FINALIZE (submitAll subs TestContext.fresh)).2.hasErrorOccured = false
    ∧ (HIP_CHECK_THREAD_FINALIZE (submitAll subs TestContext.fresh)).2.recordCount = 0
    ∧ ∀ t, (HIP_CHECK_THREAD_FINALIZE (submitAll subs TestContext.fresh)).2.sequenceOf t
        = [] := by
  have hpass2 : ∀ e ∈ subs, e.2.indicatesFailure = false := by
    intro e he
    cases hf : e.2.indicatesFailure with
    | false => rfl
    | true =>
      rcases (indicatesFailure_iff e.2).1 hf with h1 | h1
      · exact absurd (hpass e he).1 h1
      · exact absurd h1 (hpass e he).2
  have hnone : (subs.map Prod.snd).filter HCResult.indicatesFailure = [] := by
    rw [List.filter_eq_nil_iff]
    intro r hr
    obtain ⟨e, he, rfl⟩ := List.mem_map.1 hr
    simp [hpass2 e he]
  refine ⟨?_, ?_, ?_, rfl, rfl, fun _ => rfl⟩
  · rw [recordCount_submitAll, length_eq_sum_per_thread N subs hthreads,
      Finset.sum_congr rfl (fun t ht => heach t (Finset.mem_range.1 ht))]
    simp [TestContext.recordCount, TestContext.allRecords, TestContext.fresh]
  · rw [hasErrorOccured_submitAll]
    have : (subs.map Prod.snd).any HCResult.indicatesFailure = false := by
      rw [List.any_eq_false]
      intro r hr
      obtain ⟨e, he, rfl⟩ := List.mem_map.1 hr
      simp [hpass2 e he]
    simp [this, TestContext.fresh, TestContext.hasErrorOccured]
  · have h := failing_submitAll_perm subs
    rw [hnone] at h
    simp [HIP_CHECK_THREAD_FINALIZE, TestContext.finalizeResults, h.eq_nil]

/-- Witness of C6: two threads, one passing record each. -/
theorem finalize_after_passing_submissions_witness :
    (submitAll passingSubmissions TestContext.fresh).recordCount = 2 * 1
    ∧ (HIP_CHECK_THREAD_FINALIZE (submitAll passingSubmissions TestContext.fresh)).1 = [] :=
  have h := finalize_after_passing_submissions 2 1 passingSubmissions
    (by decide) (by decide) (by decide)
  ⟨h.1, h.2.2.1⟩

/-- C7: for every collection of submitted records (any threads, any
order), the failures `HIP_CHECK_THREAD_FINALIZE` raises are, up to the order
of the walk, the reports of the records whose status is not `hipSuccess` or
whose boolean outcome is false: one for each such record and none for a
passing record. When exactly one submitted record `r` is failing, exactly
one failure is raised, and it names the file, the line and the status of
`r`. -/
theorem finalize_raises_one_failure_per_failing_record (subs : List (ThreadId × HCResult)) :
    ((HIP_CHECK_THREAD_FINALIZE (submitAll subs TestContext.fresh)).1).Perm
        (((subs.map Prod.snd).filter
            (fun r => decide (r.status ≠ hipSuccess ∨ r.outcome = some false))).map
          HCResult.report)
    ∧ (HIP_CHECK_THREAD_FINALIZE (submitAll subs TestContext.fresh)).1.length
        = (subs.map Prod.snd).countP
            (fun r => decide (r.status ≠ hipSuccess ∨ r.outcome = some false))
    ∧ (∀ r, (subs.map Prod.snd).filter
            (fun r => decide (r.status ≠ hipSuccess ∨ r.outcome = some false)) = [r] →
        (HIP_CHECK_THREAD_FINALIZE (submitAll subs TestContext.fresh)).1 = [r.report]
        ∧ r.report.file = r.file ∧ r.report.line = r.line ∧ r.report.code = r.status
        ∧ r.report.expectedCode = some hipSuccess) := by
  have hp : (fun r : HCResult => decide (r.status ≠ hipSuccess ∨ r.outcome = some false))
      = HCResult.indicatesFailure := by
    funext r
    cases hf : r.indicatesFailure with
    | false =>
      have := (indicatesFailure_iff r).not.1 (by simp [hf])
      simpa using this
    | true => simpa using (indicatesFailure_iff r).1 hf
  rw [hp]
  have h := failing_submitAll_perm subs
  refine ⟨?_, ?_, ?_⟩
  · exact h.map _
  · simp only [HIP_CHECK_THREAD_FINALIZE, TestContext.finalizeResults, List.length_map]
    rw [h.length_eq, List.countP_eq_length_filter]
  · intro r hr
    rw [hr] at h
    refine ⟨?_, rfl, rfl, rfl, rfl⟩
    simp [HIP_CHECK_THREAD_FINALIZE, TestContext.finalizeResults, List.perm_singleton.1 h]

/-! ## Main-thread checks, claims -/

/-- C9 as stated fails: `hipErrorPeerAccessAlreadyEnabled` is a status
other than `hipSuccess`, and `HIP_CHECK` of an expression that evaluates to
it raises nothing. -/
theorem HIP_CHECK_accepts_peer_access_already_enabled :
    hipErrorPeerAccessAlreadyEnabled ≠ hipSuccess
    ∧ (peerAccessAlreadyEnabled ()).1 = hipErrorPeerAccessAlreadyEnabled
    ∧ (HIP_CHECK 12 "test.cc" "hipDeviceEnablePeerAccess(1, 0)"
        peerAccessAlreadyEnabled ()).isRaised = false := by
  decide

/-- C9, amended: `HIP_CHECK(expr)` raises a reportable failure exactly when
the status `expr` evaluates to is neither `hipSuccess` nor
`hipErrorPeerAccessAlreadyEnabled`; for these two it raises nothing. The
failure is raised right after the one evaluation of `expr` and carries the
status, the text, the file and the line of the check. -/
theorem HIP_CHECK_raises_iff {σ : Type} (line : Nat) (file str : String)
    (error : Expr σ hipError_t) (w : σ) :
    ((HIP_CHECK line file str error w).isRaised = true
      ↔ ((error w).1 ≠ hipSuccess ∧ (error w).1 ≠ hipErrorPeerAccessAlreadyEnabled))
    ∧ ((HIP_CHECK line file str error w).isRaised = true ↔
        HIP_CHECK line file str error w
          = .raised ⟨(error w).1, none, str, file, line⟩ (error w).2)
    ∧ ((HIP_CHECK line file str error w).isRaised = false ↔
        ((error w).1 = hipSuccess ∨ (error w).1 = hipErrorPeerAccessAlreadyEnabled))
    ∧ (HIP_CHECK line file str error w).state = (error w).2 := by
  by_cases h : (error w).1 ≠ hipSuccess ∧ (error w).1 ≠ hipErrorPeerAccessAlreadyEnabled
  · simp [HIP_CHECK, h, Outcome.isRaised, Outcome.state]
  · have h2 : (error w).1 = hipSuccess ∨ (error w).1 = hipErrorPeerAccessAlreadyEnabled := by
      by_contra hc
      exact h ⟨fun e => hc (Or.inl e), fun e => hc (Or.inr e)⟩
    simp [HIP_CHECK, h, h2, Outcome.isRaised, Outcome.state]

/-- C10: `HIP_CHECK_ERROR(errorExpr, expectedError)` evaluates `errorExpr`
once (the state after is the state after one evaluation, and the evaluation
counter grows by one) and raises a reportable failure if and only if the
actual status differs from the expected one. No status is treated
specially: with `hipSuccess` expected it raises for every other actual
status, `hipErrorPeerAccessAlreadyEnabled` included, which `HIP_CHECK`
lets pass. -/
theorem HIP_CHECK_ERROR_raises_iff {σ : Type} (line : Nat) (file str : String)
    (errorExpr : Expr σ hipError_t) (expectedError : hipError_t) (w : σ) (n : Nat) :
    ((HIP_CHECK_ERROR line file str errorExpr expectedError w).isRaised = true
      ↔ (errorExpr w).1 ≠ expectedError)
    ∧ (HIP_CHECK_ERROR line file str errorExpr expectedError w).state = (errorExpr w).2
    ∧ (HIP_CHECK_ERROR line file str (counting errorExpr) expectedError (w, n)).state
        = ((errorExpr w).2, n + 1)
    ∧ ((HIP_CHECK_ERROR line file str errorExpr hipSuccess w).isRaised = true
        ↔ (errorExpr w).1 ≠ hipSuccess)
    ∧ ((errorExpr w).1 = hipErrorPeerAccessAlreadyEnabled →
        (HIP_CHECK_ERROR line file str errorExpr hipSuccess w).isRaised = true
        ∧ (HIP_CHECK line file str errorExpr w).isRaised = false) := by
  have key : ∀ (τ : Type) (e : Expr τ hipError_t) (x : hipError_t) (v : τ),
      ((HIP_CHECK_ERROR line file str e x v).isRaised = true ↔ (e v).1 ≠ x)
      ∧ (HIP_CHECK_ERROR line file str e x v).state = (e v).2 := by
    intro τ e x v
    by_cases h : (e v).1 = x <;> simp [HIP_CHECK_ERROR, h, Outcome.isRaised, Outcome.state]
  refine ⟨(key σ errorExpr expectedError w).1, (key σ errorExpr expectedError w).2, ?_,
    (key σ errorExpr hipSuccess w).1, ?_⟩
  · rw [(key _ (counting errorExpr) expectedError (w, n)).2]
    rfl
  · intro h
    refine ⟨(key σ errorExpr hipSuccess w).1.2 (by rw [h]; decide), ?_⟩
    simp [HIP_CHECK, h, Outcome.isRaised]


/-! ## Concurrent workers -/

theorem step_cases {σ : Type} (code : ThreadId → List (StatusCheck σ)) (t : ThreadId)
    (s : System σ) :
    System.step code t s = s
    ∨ (∃ chk, (code t)[(s.workers t).pc]? = some chk ∧ (s.workers t).returned = false
        ∧ (s.workers t).phase = .entry ∧ s.ctx.hasErrorOccured = true
        ∧ System.step code t s = s.setWorker t { s.workers t with returned := true })
    ∨ (∃ chk, (code t)[(s.workers t).pc]? = some chk ∧ (s.workers t).returned = false
        ∧ (s.workers t).phase = .entry ∧ s.ctx.hasErrorOccured = false
        ∧ System.step code t s = s.setWorker t { s.workers t with phase := .evaluate })
    ∨ (∃ chk, (code t)[(s.workers t).pc]? = some chk ∧ (s.workers t).returned = false
        ∧ (s.workers t).phase = .evaluate
        ∧ System.step code t s = s.setWorker t
            { s.workers t with
              phase := .submit (chk.error (s.workers t).world).1
              world := (chk.error (s.workers t).world).2 })
    ∨ (∃ chk e, (code t)[(s.workers t).pc]? = some chk ∧ (s.workers t).returned = false
        ∧ (s.workers t).phase = .submit e
        ∧ System.step code t s =
            { ctx := s.ctx.addResults t ⟨chk.line, chk.file, e, chk.text, none⟩
              workers := fun u =>
                if u = t then { s.workers t with pc := (s.workers t).pc + 1, phase := .entry }
                else s.workers u }) := by
  unfold System.step
  simp only []
  by_cases hr : (s.workers t).returned = true
  · simp [hr]
  · have hr2 : (s.workers t).returned = false := by simpa using hr
    cases hc : (code t)[(s.workers t).pc]? with
    | none => simp
    | some chk =>
      cases hp : (s.workers t).phase with
      | entry =>
        by_cases hf : s.ctx.hasErrorOccured = true
        · right; left
          exact ⟨chk, rfl, hr2, rfl, hf, by simp [hr2, hf]⟩
        · right; right; left
          have hf2 : s.ctx.hasErrorOccured = false := by simpa using hf
          exact ⟨chk, rfl, hr2, rfl, hf2, by simp [hr2, hf2]⟩
      | evaluate =>
        right; right; right; left
        exact ⟨chk, rfl, hr2, rfl, by simp [hr2]⟩
      | submit e =>
        right; right; right; right
        exact ⟨chk, e, rfl, hr2, rfl, by simp [hr2]⟩


/-- The three steps of a thread through one check, taken without another
thread in between, are one `HIP_CHECK_THREAD`: same collector, same state
of the thread, and the thread has returned exactly when the check
returned. -/
theorem three_steps_eq_HIP_CHECK_THREAD {σ : Type} (code : ThreadId → List (StatusCheck σ))
    (t : ThreadId) (s : System σ) (chk : StatusCheck σ)
    (hc : (code t)[(s.workers t).pc]? = some chk) (hr : (s.workers t).returned = false)
    (hp : (s.workers t).phase = .entry) :
    ((System.run code [t, t, t] s).ctx, ((System.run code [t, t, t] s).workers t).world)
        = (HIP_CHECK_THREAD t chk.line chk.file chk.text chk.error
            (s.ctx, (s.workers t).world)).2
    ∧ (((System.run code [t, t, t] s).workers t).returned = true
        ↔ (HIP_CHECK_THREAD t chk.line chk.file chk.text chk.error
            (s.ctx, (s.workers t).world)).1 = .returned) := by
  cases hf : s.ctx.hasErrorOccured with
  | true =>
    have h1 : System.step code t s = s.setWorker t { s.workers t with returned := true } := by
      simp [System.step, hr, hc, hp, hf]
    have h2 : ∀ s1 : System σ, (s1.workers t).returned = true → System.step code t s1 = s1 := by
      intro s1 hs1
      simp [System.step, hs1]
    have hret : ((s.setWorker t { s.workers t with returned := true }).workers t).returned
        = true := by
      simp [System.setWorker]
    simp only [System.run, h1, h2 _ hret]
    simp [HIP_CHECK_THREAD, hf, System.setWorker]
  | false =>
    have h1 : System.step code t s = s.setWorker t { s.workers t with phase := .evaluate } := by
      simp [System.step, hr, hc, hp, hf]
    simp only [System.run, h1]
    simp [System.step, System.setWorker, hr, hc, HIP_CHECK_THREAD, hf]

theorem lt_four_of_check {σ : Type} (code : ThreadId → List (StatusCheck σ))
    (hcode : ∀ t : Nat, 4 ≤ t → code t = []) (t i : Nat) (chk : StatusCheck σ)
    (hc : (code t)[i]? = some chk) : t < 4 := by
  by_contra h
  rw [hcode t (Nat.le_of_not_lt h)] at hc
  simp at hc

theorem pc_lt_of_check {σ : Type} (l : List (StatusCheck σ)) (i : Nat) (chk : StatusCheck σ)
    (hc : l[i]? = some chk) : i < l.length := by
  by_contra h
  rw [List.getElem?_eq_none (by omega)] at hc
  simp at hc

theorem workerInv_of_local {σ : Type} (code : ThreadId → List (StatusCheck σ))
    (s : System σ) (t : ThreadId) (wk : Worker σ) (h : ∀ u, WorkerInv code s u)
    (hpc : wk.pc = (s.workers t).pc)
    (hret : wk.returned = true → s.ctx.hasErrorOccured = true ∧ wk.phase = .entry)
    (hsub : ∀ e, wk.phase = .submit e →
      ∃ chk w, (code t)[wk.pc]? = some chk ∧ e = (chk.error w).1) :
    ∀ u, WorkerInv code (s.setWorker t wk) u := by
  intro u
  by_cases hu : u = t
  · subst hu
    obtain ⟨h1, h2, _, _⟩ := h u
    refine ⟨?_, ?_, ?_, ?_⟩
    · simpa [System.setWorker, hpc] using h1
    · simpa [System.setWorker, hpc] using h2
    · simpa [System.setWorker] using hret
    · simpa [System.setWorker] using hsub
  · simpa [WorkerInv, System.setWorker, hu] using h u

theorem pcs_setWorker {σ : Type} (s : System σ) (t : ThreadId) (wk : Worker σ)
    (hpc : wk.pc = (s.workers t).pc) (u : ThreadId) :
    ((s.setWorker t wk).workers u).pc = (s.workers u).pc := by
  by_cases hu : u = t
  · subst hu; simp [System.setWorker, hpc]
  · simp [System.setWorker, hu]

theorem systemInv_setWorker {σ : Type} (code : ThreadId → List (StatusCheck σ))
    (s : System σ) (t : ThreadId) (wk : Worker σ) (h : SystemInv code s)
    (hpc : wk.pc = (s.workers t).pc)
    (hret : wk.returned = true → s.ctx.hasErrorOccured = true ∧ wk.phase = .entry)
    (hsub : ∀ e, wk.phase = .submit e →
      ∃ chk w, (code t)[wk.pc]? = some chk ∧ e = (chk.error w).1) :
    SystemInv code (s.setWorker t wk) := by
  refine ⟨workerInv_of_local code s t wk h.1 hpc hret hsub, ?_⟩
  rw [pcs_setWorker s t wk hpc 0, pcs_setWorker s t wk hpc 1, pcs_setWorker s t wk hpc 2,
    pcs_setWorker s t wk hpc 3]
  exact h.2

theorem systemInv_submit {σ : Type} (code : ThreadId → List (StatusCheck σ))
    (hcode : ∀ t : Nat, 4 ≤ t → code t = []) (s : System σ) (t : Nat) (chk : StatusCheck σ)
    (r : HCResult) (h : SystemInv code s)
    (hc : (code t)[(s.workers t).pc]? = some chk) (hr : (s.workers t).returned = false) :
    SystemInv code
      { ctx := s.ctx.addResults t r
        workers := fun u =>
          if u = t then { s.workers t with pc := (s.workers t).pc + 1, phase := .entry }
          else s.workers u } := by
  have ht : t < 4 := lt_four_of_check code hcode t _ chk hc
  have hlt := pc_lt_of_check _ _ _ hc
  refine ⟨?_, ?_⟩
  · intro u
    by_cases hu : u = t
    · subst hu
      obtain ⟨h1, _, _, _⟩ := h.1 u
      refine ⟨?_, ?_, ?_, ?_⟩
      · simp [sequenceOf_addResults_self, h1]
      · simpa using hlt
      · simp [hr]
      · simp
    · obtain ⟨h1, h2, h3, h4⟩ := h.1 u
      refine ⟨?_, ?_, ?_, ?_⟩
      · simpa [hu, sequenceOf_addResults_other _ _ _ _ hu] using h1
      · simpa [hu] using h2
      · intro hret
        have := h3 (by simpa [hu] using hret)
        simp [hu, hasErrorOccured_addResults, this.1, this.2]
      · simpa [hu] using h4
  · have h2 := h.2
    simp only [recordCount_addResults, h2]
    have : t = 0 ∨ t = 1 ∨ t = 2 ∨ t = 3 := by omega
    rcases this with rfl | rfl | rfl | rfl <;> simp <;> omega

theorem systemInv_step {σ : Type} (code : ThreadId → List (StatusCheck σ))
    (hcode : ∀ t : Nat, 4 ≤ t → code t = []) (t : ThreadId) (s : System σ)
    (h : SystemInv code s) : SystemInv code (System.step code t s) := by
  rcases step_cases code t s with h0 | ⟨chk, hc, hr, hp, hf, hs⟩ | ⟨chk, hc, hr, hp, hf, hs⟩
    | ⟨chk, hc, hr, hp, hs⟩ | ⟨chk, e, hc, hr, hp, hs⟩
  · rw [h0]; exact h
  · rw [hs]
    exact systemInv_setWorker code s t _ h rfl (fun _ => ⟨hf, hp⟩) (by simp [hp])
  · rw [hs]
    exact systemInv_setWorker code s t _ h rfl (by simp [hr]) (by simp)
  · rw [hs]
    refine systemInv_setWorker code s t _ h rfl (by simp [hr]) ?_
    intro e he
    exact ⟨chk, (s.workers t).world, hc, by simpa using he.symm⟩
  · rw [hs]
    exact systemInv_submit code hcode s t chk _ h hc hr

theorem systemInv_start {σ : Type} (code : ThreadId → List (StatusCheck σ))
    (w0 : ThreadId → σ) : SystemInv code (System.start w0) := by
  refine ⟨fun t => ⟨?_, ?_, ?_, ?_⟩, ?_⟩ <;>
    simp [System.start, TestContext.fresh, TestContext.sequenceOf, sequenceIn,
      TestContext.recordCount, TestContext.allRecords]

theorem systemInv_run {σ : Type} (code : ThreadId → List (StatusCheck σ))
    (hcode : ∀ t : Nat, 4 ≤ t → code t = []) (sched : List ThreadId) (s : System σ)
    (h : SystemInv code s) : SystemInv code (System.run code sched s) := by
  induction sched generalizing s with
  | nil => exact h
  | cons t rest ih => exact ih _ (systemInv_step code hcode t s h)


theorem fourWorkers_none {σ : Type} (a b c d : List (StatusCheck σ)) (t : Nat)
    (h : 4 ≤ t) : fourWorkers a b c d t = [] := by
  match t, h with
  | n + 4, _ => rfl

theorem fourWorkers_mem {σ : Type} (a b c d : List (StatusCheck σ)) (t i : Nat)
    (chk : StatusCheck σ) (h : (fourWorkers a b c d t)[i]? = some chk) :
    chk ∈ a ∨ chk ∈ b ∨ chk ∈ c ∨ chk ∈ d := by
  have hm := List.getElem?_mem h
  match t, hm with
  | 0, hm => exact Or.inl hm
  | 1, hm => exact Or.inr (Or.inl hm)
  | 2, hm => exact Or.inr (Or.inr (Or.inl hm))
  | 3, hm => exact Or.inr (Or.inr (Or.inr hm))
  | n + 4, hm => simp [fourWorkers] at hm

theorem filter_failing_addResults_passing (c : TestContext) (t : ThreadId) (r : HCResult)
    (l : List HCResult) (hr : r.indicatesFailure = false)
    (hl : c.allRecords.filter HCResult.indicatesFailure = l) (hlen : l.length ≤ 1) :
    (c.addResults t r).allRecords.filter HCResult.indicatesFailure = l := by
  have h := failing_addResults_perm c t r
  rw [List.filter_cons, hr] at h
  simp only [Bool.false_eq_true, if_false, hl] at h
  match l, hlen, h with
  | [], _, h => exact h.eq_nil
  | [x], _, h => exact List.perm_singleton.1 h

theorem filter_failing_addResults_failing (c : TestContext) (t : ThreadId) (r : HCResult)
    (hr : r.indicatesFailure = true)
    (hl : c.allRecords.filter HCResult.indicatesFailure = []) :
    (c.addResults t r).allRecords.filter HCResult.indicatesFailure = [r] := by
  have h := failing_addResults_perm c t r
  rw [List.filter_cons, hr] at h
  simp only [if_true, hl] at h
  exact List.perm_singleton.1 h

theorem allPass_step {σ : Type} (code : ThreadId → List (StatusCheck σ))
    (hpass : ∀ (t i : Nat) (chk : StatusCheck σ), (code t)[i]? = some chk →
      ∀ w, (chk.error w).1 = hipSuccess)
    (t : ThreadId) (s : System σ) (h : SystemInv code s)
    (hf : s.ctx.hasErrorOccured = false
      ∧ s.ctx.allRecords.filter HCResult.indicatesFailure = []) :
    (System.step code t s).ctx.hasErrorOccured = false
      ∧ (System.step code t s).ctx.allRecords.filter HCResult.indicatesFailure = [] := by
  rcases step_cases code t s with h0 | ⟨chk, hc, hr, hp, hf1, hs⟩ | ⟨chk, hc, hr, hp, hf1, hs⟩
    | ⟨chk, hc, hr, hp, hs⟩ | ⟨chk, e, hc, hr, hp, hs⟩
  · rw [h0]; exact hf
  · rw [hs]; exact hf
  · rw [hs]; exact hf
  · rw [hs]; exact hf
  · rw [hs]
    obtain ⟨chk1, w, hc1, he⟩ := (h.1 t).2.2.2 e hp
    have he0 : e = hipSuccess := by rw [he]; exact hpass t _ chk1 hc1 w
    have hrec : (⟨chk.line, chk.file, e, chk.text, none⟩ : HCResult).indicatesFailure
        = false := by
      simp [HCResult.indicatesFailure, he0]
    refine ⟨?_, ?_⟩
    · simp only [hasErrorOccured_addResults, hf.1, hrec, Bool.or_self]
    · exact filter_failing_addResults_passing _ _ _ _ hrec hf.2 (by simp)

theorem allPass_run {σ : Type} (code : ThreadId → List (StatusCheck σ))
    (hcode : ∀ t : Nat, 4 ≤ t → code t = [])
    (hpass : ∀ (t i : Nat) (chk : StatusCheck σ), (code t)[i]? = some chk →
      ∀ w, (chk.error w).1 = hipSuccess)
    (sched : List ThreadId) (s : System σ) (h : SystemInv code s)
    (hf : s.ctx.hasErrorOccured = false
      ∧ s.ctx.allRecords.filter HCResult.indicatesFailure = []) :
    SystemInv code (System.run code sched s)
      ∧ (System.run code sched s).ctx.hasErrorOccured = false
      ∧ (System.run code sched s).ctx.allRecords.filter HCResult.indicatesFailure = [] := by
  induction sched generalizing s with
  | nil => exact ⟨h, hf⟩
  | cons t rest ih =>
    exact ih _ (systemInv_step code hcode t s h) (allPass_step code hpass t s h hf)

theorem pc_of_ended {σ : Type} (code : ThreadId → List (StatusCheck σ)) (s : System σ)
    (t : ThreadId) (h : SystemInv code s) (hf : s.ctx.hasErrorOccured = false)
    (he : s.ended code t = true) : (s.ctx.sequenceOf t).length = (code t).length := by
  obtain ⟨h1, h2, h3, _⟩ := h.1 t
  have hr : (s.workers t).returned = false := by
    by_contra hc
    have := (h3 (by simpa using hc)).1
    rw [hf] at this
    exact Bool.noConfusion this
  simp only [System.ended, hr, Bool.false_or, decide_eq_true_eq] at he
  omega

/-- C2: in a collector state where `hasErrorOccured()` is false,
`HIP_CHECK_THREAD(expr)` evaluates `expr` once (the state after is the state
after one evaluation, and the evaluation counter grows by one) and submits
one record, appended to the sequence of the calling thread, that carries
the line, the file, the status `expr` returned (success or not) and the
text of `expr`. Hence, when four workers run status checks that all return
success, in every interleaving of their steps that lets the four be joined
no failure is ever flagged, every worker contributes as many records as it
has checks, and no failure is reported: four workers with 100 checks each
give 400 records. -/
theorem HIP_CHECK_THREAD_submits_one_record {σ : Type} (c : TestContext) (w : σ) (n : Nat)
    (self : ThreadId) (line : Nat) (file text : String) (error : Expr σ hipError_t)
    (wa wb wc wd : List (StatusCheck σ)) (w0 : ThreadId → σ) (sched : List ThreadId)
    (h : c.hasErrorOccured = false)
    (hpass : ∀ chk, chk ∈ wa ∨ chk ∈ wb ∨ chk ∈ wc ∨ chk ∈ wd →
      ∀ v, (chk.error v).1 = hipSuccess)
    (hjoin : (System.run (fourWorkers wa wb wc wd) sched (System.start w0)).joined
      (fourWorkers wa wb wc wd) = true) :
    HIP_CHECK_THREAD self line file text error (c, w)
        = (.fallthrough,
            (c.addResults self ⟨line, file, (error w).1, text, none⟩, (error w).2))
    ∧ (HIP_CHECK_THREAD self line file text error (c, w)).2.1.sequenceOf self
        = c.sequenceOf self ++ [⟨line, file, (error w).1, text, none⟩]
    ∧ (HIP_CHECK_THREAD self line file text error (c, w)).2.1.recordCount = c.recordCount + 1
    ∧ (HIP_CHECK_THREAD self line file text (counting error) (c, (w, n))).2.2
        = ((error w).2, n + 1)
    ∧ ((System.run (fourWorkers wa wb wc wd) sched (System.start w0)).ctx.sequenceOf 0).length
        = wa.length
    ∧ ((System.run (fourWorkers wa wb wc wd) sched (System.start w0)).ctx.sequenceOf 1).length
        = wb.length
    ∧ ((System.run (fourWorkers wa wb wc wd) sched (System.start w0)).ctx.sequenceOf 2).length
        = wc.length
    ∧ ((System.run (fourWorkers wa wb wc wd) sched (System.start w0)).ctx.sequenceOf 3).length
        = wd.length
    ∧ (System.run (fourWorkers wa wb wc wd) sched (System.start w0)).ctx.recordCount
        = wa.length + wb.length + wc.length + wd.length
    ∧ (wa.length = 100 → wb.length = 100 → wc.length = 100 → wd.length = 100 →
        (System.run (fourWorkers wa wb wc wd) sched (System.start w0)).ctx.recordCount = 400)
    ∧ (System.run (fourWorkers wa wb wc wd) sched (System.start w0)).ctx.hasErrorOccured
        = false
    ∧ (HIP_CHECK_THREAD_FINALIZE
        (System.run (fourWorkers wa wb wc wd) sched (System.start w0)).ctx).1 = [] := by
  have h1 : HIP_CHECK_THREAD self line file text error (c, w)
      = (.fallthrough,
          (c.addResults self ⟨line, file, (error w).1, text, none⟩, (error w).2)) := by
    simp [HIP_CHECK_THREAD, h]
  obtain ⟨hinv, hflag, hnone⟩ := allPass_run (fourWorkers wa wb wc wd)
    (fourWorkers_none wa wb wc wd)
    (fun t i chk hc => hpass chk (fourWorkers_mem wa wb wc wd t i chk hc)) sched
    (System.start w0) (systemInv_start _ w0)
    ⟨rfl, by simp [System.start, TestContext.fresh, TestContext.allRecords]⟩
  simp only [System.joined, Bool.and_eq_true] at hjoin
  obtain ⟨⟨⟨e0, e1⟩, e2⟩, e3⟩ := hjoin
  have l0 := pc_of_ended _ _ 0 hinv hflag e0
  have l1 := pc_of_ended _ _ 1 hinv hflag e1
  have l2 := pc_of_ended _ _ 2 hinv hflag e2
  have l3 := pc_of_ended _ _ 3 hinv hflag e3
  have hcount : (System.run (fourWorkers wa wb wc wd) sched (System.start w0)).ctx.recordCount
      = wa.length + wb.length + wc.length + wd.length := by
    rw [hinv.2, ← (hinv.1 0).1, ← (hinv.1 1).1, ← (hinv.1 2).1, ← (hinv.1 3).1, l0, l1, l2, l3]
    rfl
  refine ⟨h1, ?_, ?_, ?_, l0, l1, l2, l3, hcount, ?_, hflag, ?_⟩
  · rw [h1]; exact sequenceOf_addResults_self _ _ _
  · rw [h1]; exact recordCount_addResults _ _ _
  · simp [HIP_CHECK_THREAD, h, counting]
  · intro ha hb hc hd
    rw [hcount, ha, hb, hc, hd]
  · simp [HIP_CHECK_THREAD_FINALIZE, TestContext.finalizeResults, hnone]

/-- Witness of C2: a check on a fresh collector, and four workers with one
passing check each, run one after the other. -/
theorem HIP_CHECK_THREAD_submits_one_record_witness :
    TestContext.fresh.hasErrorOccured = false
    ∧ (System.run (fourWorkers [passingCheck 1] [passingCheck 2] [passingCheck 3]
          [passingCheck 4]) oneCheckEach (System.start (fun _ => ()))).joined
        (fourWorkers [passingCheck 1] [passingCheck 2] [passingCheck 3] [passingCheck 4]) = true
    ∧ (HIP_CHECK_THREAD 1 7 "worker.cc" "hipFree(p)" succeeds
        (TestContext.fresh, ())).2.1.recordCount = TestContext.fresh.recordCount + 1
    ∧ (System.run (fourWorkers [passingCheck 1] [passingCheck 2] [passingCheck 3]
          [passingCheck 4]) oneCheckEach (System.start (fun _ => ()))).ctx.recordCount
        = [passingCheck 1].length + [passingCheck 2].length + [passingCheck 3].length
          + [passingCheck 4].length :=
  have h := HIP_CHECK_THREAD_submits_one_record TestContext.fresh () 0 1 7 "worker.cc"
    "hipFree(p)" succeeds [passingCheck 1] [passingCheck 2] [passingCheck 3] [passingCheck 4]
    (fun _ => ()) oneCheckEach (by decide)
    (by
      intro chk hchk v
      simp only [List.mem_singleton] at hchk
      rcases hchk with rfl | rfl | rfl | rfl <;> rfl)
    (by decide)
  ⟨by decide, by decide, h.2.2.1, h.2.2.2.2.2.2.2.2.1⟩


theorem oneFailureInv_of_same_ctx {σ : Type} (code : ThreadId → List (StatusCheck σ))
    (s s1 : System σ) (h : OneFailureInv code s) (hctx : s1.ctx = s.ctx)
    (hpc : (s1.workers 0).pc = (s.workers 0).pc)
    (hph : (s1.workers 0).pc = 50 → (s1.workers 0).phase = .entry) :
    OneFailureInv code s1 := by
  obtain ⟨i1, i2, _, i4, i5⟩ := h
  refine ⟨?_, ?_, hph, ?_, ?_⟩
  · rw [hpc]; exact i1
  · rw [hpc, hctx]; exact i2
  · rw [hctx]; exact i4
  · rw [hctx]; exact i5

theorem oneFailureInv_setWorker {σ : Type} (code : ThreadId → List (StatusCheck σ))
    (s : System σ) (t : ThreadId) (wk : Worker σ) (h : OneFailureInv code s)
    (hpc : wk.pc = (s.workers t).pc)
    (hph : t = 0 → wk.pc = 50 → wk.phase = .entry) :
    OneFailureInv code (s.setWorker t wk) := by
  refine oneFailureInv_of_same_ctx code s _ h rfl (pcs_setWorker s t wk hpc 0) ?_
  by_cases ht : t = 0
  · subst ht
    simpa [System.setWorker] using hph rfl
  · have ht2 : ¬ (0 = t) := fun e => ht e.symm
    simpa [System.setWorker, ht2] using h.2.2.1

theorem oneFailure_step {σ : Type} (code : ThreadId → List (StatusCheck σ))
    (hfail : ∀ chk : StatusCheck σ, (code 0)[49]? = some chk →
      ∀ v, (chk.error v).1 ≠ hipSuccess)
    (hpass : ∀ (t i : Nat) (chk : StatusCheck σ), (code t)[i]? = some chk →
      ¬ (t = 0 ∧ i = 49) → ∀ v, (chk.error v).1 = hipSuccess)
    (t : Nat) (s : System σ) (hs : SystemInv code s) (h : OneFailureInv code s) :
    OneFailureInv code (System.step code t s) := by
  rcases step_cases code t s with h0 | ⟨chk, hc, hr, hp, hf1, hst⟩ | ⟨chk, hc, hr, hp, hf1, hst⟩
    | ⟨chk, hc, hr, hp, hst⟩ | ⟨chk, e, hc, hr, hp, hst⟩
  · rw [h0]; exact h
  · rw [hst]
    exact oneFailureInv_setWorker code s t _ h rfl (fun _ _ => hp)
  · rw [hst]
    refine oneFailureInv_setWorker code s t _ h rfl ?_
    intro ht hpc
    subst ht
    have := h.2.1.2 hpc
    rw [hf1] at this
    exact Bool.noConfusion this
  · rw [hst]
    refine oneFailureInv_setWorker code s t _ h rfl ?_
    intro ht hpc
    subst ht
    have := h.2.2.1 hpc
    rw [hp] at this
    exact Phase.noConfusion this
  · rw [hst]
    obtain ⟨chk1, w, hc1, he⟩ := (hs.1 t).2.2.2 e hp
    obtain ⟨i1, i2, i3, i4, i5⟩ := h
    by_cases ht : t = 0
    · subst ht
      have hne : (s.workers 0).pc ≠ 50 := by
        intro h50
        have := i3 h50
        rw [hp] at this
        exact Phase.noConfusion this
      have hflag : s.ctx.hasErrorOccured = false := by
        cases hfl : s.ctx.hasErrorOccured with
        | false => rfl
        | true => exact absurd (i2.1 hfl) hne
      by_cases h49 : (s.workers 0).pc = 49
      · have hbad : e ≠ hipSuccess := by
          rw [he]; exact hfail chk1 (by rw [← h49]; exact hc1) w
        have hrec : (⟨chk.line, chk.file, e, chk.text, none⟩ : HCResult).indicatesFailure
            = true := by
          simp [HCResult.indicatesFailure, hbad]
        have hchk : chk1 = chk := Option.some.inj (hc1.symm.trans hc)
        refine ⟨?_, ?_, ?_, ?_, ?_⟩
        · simp [h49]
        · simp [h49, hasErrorOccured_addResults, hrec]
        · simp
        · simp [hasErrorOccured_addResults, hrec]
        · intro _
          refine ⟨chk, w, by rw [← h49]; exact hc, by rw [← hchk, ← he]; exact hbad, ?_⟩
          rw [← hchk, ← he, hchk]
          exact filter_failing_addResults_failing _ _ _ hrec (i4 hflag)
      · have hgood : e = hipSuccess := by
          rw [he]; exact hpass 0 _ chk1 hc1 (fun hh => h49 hh.2) w
        have hrec : (⟨chk.line, chk.file, e, chk.text, none⟩ : HCResult).indicatesFailure
            = false := by
          simp [HCResult.indicatesFailure, hgood]
        have hlt : (s.workers 0).pc + 1 ≠ 50 := by omega
        refine ⟨?_, ?_, ?_, ?_, ?_⟩
        · simp; omega
        · simp [hasErrorOccured_addResults, hrec, hflag, hlt]
        · simp
        · intro _
          exact filter_failing_addResults_passing _ _ _ _ hrec (i4 hflag) (by simp)
        · simp [hasErrorOccured_addResults, hrec, hflag]
    · have ht2 : ¬ (0 = t) := fun e => ht e.symm
      have hgood : e = hipSuccess := by
        rw [he]; exact hpass t _ chk1 hc1 (fun hh => ht hh.1) w
      have hrec : (⟨chk.line, chk.file, e, chk.text, none⟩ : HCResult).indicatesFailure
          = false := by
        simp [HCResult.indicatesFailure, hgood]
      refine ⟨?_, ?_, ?_, ?_, ?_⟩
      · simpa [ht2] using i1
      · simpa [ht2, hasErrorOccured_addResults, hrec] using i2
      · simpa [ht2] using i3
      · intro hfl
        have hfl2 : s.ctx.hasErrorOccured = false := by
          simpa [hasErrorOccured_addResults, hrec] using hfl
        exact filter_failing_addResults_passing _ _ _ _ hrec (i4 hfl2) (by simp)
      · intro hfl
        have hfl2 : s.ctx.hasErrorOccured = true := by
          simpa [hasErrorOccured_addResults, hrec] using hfl
        obtain ⟨c5, w5, hc5, hne5, hl5⟩ := i5 hfl2
        exact ⟨c5, w5, hc5, hne5,
          filter_failing_addResults_passing _ _ _ _ hrec hl5 (by simp)⟩

theorem oneFailure_run {σ : Type} (code : ThreadId → List (StatusCheck σ))
    (hcode : ∀ t : Nat, 4 ≤ t → code t = [])
    (hfail : ∀ chk : StatusCheck σ, (code 0)[49]? = some chk →
      ∀ v, (chk.error v).1 ≠ hipSuccess)
    (hpass : ∀ (t i : Nat) (chk : StatusCheck σ), (code t)[i]? = some chk →
      ¬ (t = 0 ∧ i = 49) → ∀ v, (chk.error v).1 = hipSuccess)
    (sched : List ThreadId) (s : System σ) (hs : SystemInv code s)
    (h : OneFailureInv code s) :
    SystemInv code (System.run code sched s)
      ∧ OneFailureInv code (System.run code sched s) := by
  induction sched generalizing s with
  | nil => exact ⟨hs, h⟩
  | cons t rest ih =>
    exact ih _ (systemInv_step code hcode t s hs) (oneFailure_step code hfail hpass t s hs h)

theorem oneFailureInv_start {σ : Type} (code : ThreadId → List (StatusCheck σ))
    (w0 : ThreadId → σ) : OneFailureInv code (System.start w0) := by
  refine ⟨?_, ?_, ?_, ?_, ?_⟩ <;>
    simp [System.start, TestContext.fresh, TestContext.hasErrorOccured,
      TestContext.allRecords]


theorem workerA_fails (chk : StatusCheck Unit) (h : workerA[49]? = some chk) (v : Unit) :
    (chk.error v).1 ≠ hipSuccess := by
  have h2 : workerA[49]? = some (failingCheck 50) := rfl
  rw [h2] at h
  cases h
  simp [failingCheck, fails]

theorem workerA_passes (i : Nat) (chk : StatusCheck Unit) (h : workerA[i]? = some chk)
    (hi : i ≠ 49) (v : Unit) : (chk.error v).1 = hipSuccess := by
  rw [workerA, List.getElem?_map] at h
  by_cases hlt : i < 100
  · rw [List.getElem?_range hlt] at h
    simp only [Option.map_some', hi, if_false, Option.some.injEq] at h
    subst h
    rfl
  · rw [List.getElem?_eq_none (by simpa using hlt)] at h
    cases h

theorem workerB_passes (chk : StatusCheck Unit) (h : chk ∈ workerB) (v : Unit) :
    (chk.error v).1 = hipSuccess := by
  simp only [workerB, List.mem_map] at h
  obtain ⟨j, _, rfl⟩ := h
  rfl

set_option maxRecDepth 100000 in
/-- C8 as stated fails. Worker A has 100 status checks of which the 50th
returns `hipErrorInvalidValue` and the others succeed, workers B, C and D
have 100 checks that succeed. In the interleaving where A runs first, the
first check of B, C and D finds the failure flagged and returns: the four
workers can be joined, and B, C and D have submitted no record, not 100. -/
theorem siblings_return_once_failure_is_flagged :
    workerA.length = 100 ∧ workerB.length = 100
    ∧ workerA.map (fun chk => (chk.error ()).1)
        = List.replicate 49 hipSuccess ++ [hipErrorInvalidValue] ++ List.replicate 50 hipSuccess
    ∧ workerB.map (fun chk => (chk.error ()).1) = List.replicate 100 hipSuccess
    ∧ (System.run (fourWorkers workerA workerB workerB workerB) failureFirst
        (System.start (fun _ => ()))).joined (fourWorkers workerA workerB workerB workerB) = true
    ∧ ((System.run (fourWorkers workerA workerB workerB workerB) failureFirst
        (System.start (fun _ => ()))).ctx.sequenceOf 1).length = 0
    ∧ ((System.run (fourWorkers workerA workerB workerB workerB) failureFirst
        (System.start (fun _ => ()))).ctx.sequenceOf 2).length = 0
    ∧ ((System.run (fourWorkers workerA workerB workerB workerB) failureFirst
        (System.start (fun _ => ()))).ctx.sequenceOf 3).length = 0
    ∧ ((System.run (fourWorkers workerA workerB workerB workerB) failureFirst
        (System.start (fun _ => ()))).ctx.sequenceOf 1).length ≠ 100 := by
  decide

/-- C8, amended: four workers A, B, C, D each run 100 `HIP_CHECK_THREAD`
status checks, A's 50th check returns a non-success status and every other
check returns success. In every interleaving of their steps that lets the
four be joined, `HIP_CHECK_THREAD_FINALIZE` raises exactly one reportable
failure, which carries the file, the line and the text of A's 50th call
site and the status it returned, and A has submitted exactly 50 records.
Each of B, C and D has submitted at most 100 records: it has completed its
100 checks, or one of its checks found the failure flagged and returned
from the worker function. -/
theorem one_failure_among_four_workers {σ : Type} (wa wb wc wd : List (StatusCheck σ))
    (w0 : ThreadId → σ) (sched : List ThreadId)
    (hlen : wa.length = 100 ∧ wb.length = 100 ∧ wc.length = 100 ∧ wd.length = 100)
    (hfail : ∀ chk : StatusCheck σ, wa[49]? = some chk → ∀ v, (chk.error v).1 ≠ hipSuccess)
    (hpassA : ∀ (i : Nat) (chk : StatusCheck σ), wa[i]? = some chk → i ≠ 49 →
      ∀ v, (chk.error v).1 = hipSuccess)
    (hpass : ∀ chk, chk ∈ wb ∨ chk ∈ wc ∨ chk ∈ wd → ∀ v, (chk.error v).1 = hipSuccess)
    (hjoin : (System.run (fourWorkers wa wb wc wd) sched (System.start w0)).joined
      (fourWorkers wa wb wc wd) = true) :
    (∃ chk v, wa[49]? = some chk ∧ (chk.error v).1 ≠ hipSuccess
      ∧ (HIP_CHECK_THREAD_FINALIZE
          (System.run (fourWorkers wa wb wc wd) sched (System.start w0)).ctx).1
        = [⟨(chk.error v).1, some hipSuccess, chk.text, chk.file, chk.line⟩])
    ∧ ((System.run (fourWorkers wa wb wc wd) sched (System.start w0)).ctx.sequenceOf 0).length
        = 50
    ∧ (∀ t : Nat, t = 1 ∨ t = 2 ∨ t = 3 →
        ((System.run (fourWorkers wa wb wc wd) sched (System.start w0)).ctx.sequenceOf
            t).length ≤ 100
        ∧ (((System.run (fourWorkers wa wb wc wd) sched (System.start w0)).ctx.sequenceOf
              t).length = 100
            ∨ ((System.run (fourWorkers wa wb wc wd) sched (System.start w0)).workers
                t).returned = true)) := by
  obtain ⟨la, lb, lc, ld⟩ := hlen
  have hp : ∀ (t i : Nat) (chk : StatusCheck σ), (fourWorkers wa wb wc wd t)[i]? = some chk →
      ¬ (t = 0 ∧ i = 49) → ∀ v, (chk.error v).1 = hipSuccess := by
    intro t i chk hc hne
    match t, hc, hne with
    | 0, hc, hne => exact hpassA i chk hc (fun h => hne ⟨rfl, h⟩)
    | 1, hc, _ => exact hpass chk (Or.inl (List.getElem?_mem hc))
    | 2, hc, _ => exact hpass chk (Or.inr (Or.inl (List.getElem?_mem hc)))
    | 3, hc, _ => exact hpass chk (Or.inr (Or.inr (List.getElem?_mem hc)))
    | n + 4, hc, _ => simp [fourWorkers] at hc
  obtain ⟨hinv, i1, i2, _, _, i5⟩ := oneFailure_run (fourWorkers wa wb wc wd)
    (fourWorkers_none wa wb wc wd) hfail hp sched (System.start w0)
    (systemInv_start _ w0) (oneFailureInv_start _ w0)
  simp only [System.joined, Bool.and_eq_true] at hjoin
  obtain ⟨⟨⟨e0, e1⟩, e2⟩, e3⟩ := hjoin
  have hlen4 : ∀ t : Nat, t = 1 ∨ t = 2 ∨ t = 3 → (fourWorkers wa wb wc wd t).length = 100 := by
    intro t ht
    rcases ht with rfl | rfl | rfl
    · exact lb
    · exact lc
    · exact ld
  have hflag : (System.run (fourWorkers wa wb wc wd) sched (System.start w0)).ctx.hasErrorOccured
      = true := by
    simp only [System.ended, Bool.or_eq_true, decide_eq_true_eq] at e0
    rcases e0 with hret | hpc
    · exact ((hinv.1 0).2.2.1 hret).1
    · have : (fourWorkers wa wb wc wd 0).length = 100 := la
      omega
  refine ⟨?_, ?_, ?_⟩
  · obtain ⟨chk, v, hc, hne, hl⟩ := i5 hflag
    exact ⟨chk, v, hc, hne, by
      simp [HIP_CHECK_THREAD_FINALIZE, TestContext.finalizeResults, hl, HCResult.report]⟩
  · rw [(hinv.1 0).1]; exact i2.1 hflag
  · intro t ht
    have hl := hlen4 t ht
    have hended : (System.run (fourWorkers wa wb wc wd) sched (System.start w0)).ended
        (fourWorkers wa wb wc wd) t = true := by
      rcases ht with rfl | rfl | rfl
      · exact e1
      · exact e2
      · exact e3
    obtain ⟨h1, h2, _, _⟩ := hinv.1 t
    refine ⟨by omega, ?_⟩
    simp only [System.ended, Bool.or_eq_true, decide_eq_true_eq] at hended
    rcases hended with hret | hpc
    · exact Or.inr hret
    · left; omega

set_option maxRecDepth 100000 in
/-- Witness of C8, amended: the scenario with A running first. -/
theorem one_failure_among_four_workers_witness :
    (System.run (fourWorkers workerA workerB workerB workerB) failureFirst
        (System.start (fun _ => ()))).joined (fourWorkers workerA workerB workerB workerB) = true
    ∧ (∃ chk v, workerA[49]? = some chk ∧ (chk.error v).1 ≠ hipSuccess
      ∧ (HIP_CHECK_THREAD_FINALIZE
          (System.run (fourWorkers workerA workerB workerB workerB) failureFirst
            (System.start (fun _ => ()))).ctx).1
        = [⟨(chk.error v).1, some hipSuccess, chk.text, chk.file, chk.line⟩])
    ∧ ((System.run (fourWorkers workerA workerB workerB workerB) failureFirst
        (System.start (fun _ => ()))).ctx.sequenceOf 0).length = 50 :=
  have h := one_failure_among_four_workers workerA workerB workerB workerB (fun _ => ())
    failureFirst (by decide) workerA_fails workerA_passes
    (fun chk hchk v => workerB_passes chk (by rcases hchk with h | h | h <;> exact h) v)
    (by decide)
  ⟨by decide, h.1, h.2.1⟩


/-! ## The skip protocol -/

theorem textLines_terminated (t : List Char) (h : '\n' ∉ t) :
    textLines (t ++ ['\n']) = [t] := by
  induction t with
  | nil => simp [textLines]
  | cons c t ih =>
    have hc : c ≠ '\n' := fun e => h (by simp [e])
    have ht : '\n' ∉ t := fun e => h (List.mem_cons_of_mem _ e)
    simp [textLines, hc, ih ht]

theorem textLines_last_line (a t : List Char) (h : '\n' ∉ t) :
    ∃ l ls, textLines (a ++ '\n' :: (t ++ ['\n'])) = l :: (ls ++ [t]) := by
  induction a with
  | nil => exact ⟨[], [], by simp [textLines, textLines_terminated t h]⟩
  | cons c a ih =>
    obtain ⟨l, ls, hl⟩ := ih
    by_cases hc : c = '\n'
    · exact ⟨[], l :: ls, by simp [textLines, hc, hl]⟩
    · exact ⟨c :: l, ls, by simp [textLines, hc, hl]⟩

theorem getLast?_textLines (a t : List Char) (h : '\n' ∉ t) :
    (textLines (a ++ '\n' :: (t ++ ['\n']))).getLast? = some t := by
  obtain ⟨l, ls, hl⟩ := textLines_last_line a t h
  rw [hl, ← List.cons_append, List.getLast?_concat]

theorem HIP_SKIP_TEST_data {ρ : Type} (reason : String) (w : TestState ρ) :
    (HIP_SKIP_TEST reason w).stdout.data
      = (w.stdout.data ++ "Skipping test. Reason: ".data ++ reason.data)
          ++ '\n' :: ("HIP_SKIP_THIS_TEST".data ++ ['\n']) := by
  simp [HIP_SKIP_TEST, String.data_append, String.data_push]

theorem HIP_SKIP_TEST_stdout {ρ : Type} (r : String)
    (w : TestState ρ) :
    (HIP_SKIP_TEST r w).stdout
      = w.stdout ++ ("Skipping test. Reason: " ++ r ++ "\n" ++ "HIP_SKIP_THIS_TEST" ++ "\n") := by
  apply String.ext
  rw [HIP_SKIP_TEST_data]
  have hnl : "\n".data = ['\n'] := rfl
  simp [String.data_append, hnl]

/-- C11: for every reason string `r`, `HIP_SKIP_TEST(r)` appends to standard
output exactly the text
`"Skipping test. Reason: " ++ r ++ "\n" ++ "HIP_SKIP_THIS_TEST" ++ "\n"` and
touches nothing else. Whatever `r` contains, the last line of the output
(of the text written, and of all the output so far) is the token
`HIP_SKIP_THIS_TEST` alone, and it is ended by a newline. -/
theorem HIP_SKIP_TEST_writes_marker_on_last_line {ρ : Type} (r : String) (w : TestState ρ) :
    (HIP_SKIP_TEST r w).stdout
        = w.stdout ++ ("Skipping test. Reason: " ++ r ++ "\n" ++ "HIP_SKIP_THIS_TEST" ++ "\n")
    ∧ (HIP_SKIP_TEST r w).runtime = w.runtime
    ∧ (textLines
        ("Skipping test. Reason: " ++ r ++ "\n" ++ "HIP_SKIP_THIS_TEST" ++ "\n").data).getLast?
        = some "HIP_SKIP_THIS_TEST".data
    ∧ (textLines (HIP_SKIP_TEST r w).stdout.data).getLast? = some "HIP_SKIP_THIS_TEST".data
    ∧ (HIP_SKIP_TEST r w).stdout.data.getLast? = some '\n' := by
  have hdata := HIP_SKIP_TEST_data r w
  have hnl : "\n".data = ['\n'] := rfl
  have htoken : '\n' ∉ "HIP_SKIP_THIS_TEST".data := by decide
  refine ⟨?_, rfl, ?_, ?_, ?_⟩
  · apply String.ext
    rw [hdata]
    simp [String.data_append, hnl]
  · have h := getLast?_textLines ("Skipping test. Reason: ".data ++ r.data)
      "HIP_SKIP_THIS_TEST".data htoken
    simpa [String.data_append, hnl] using h
  · rw [hdata]
    exact getLast?_textLines _ _ htoken
  · rw [hdata]
    have h := List.getLast?_concat (a := '\n')
      ((w.stdout.data ++ "Skipping test. Reason: ".data ++ r.data)
        ++ '\n' :: "HIP_SKIP_THIS_TEST".data)
    simpa using h

/-- C12, the code at the failing input: `HIP_SKIP_TEST(r)` prints and
returns to its caller, so the statements `rest` that follow the call in a
test body are run, in the state after the printing. A body that goes on
with `REQUIRE(false)` prints the skip lines and then raises the
assertion. -/
theorem HIP_SKIP_TEST_returns_to_the_test {ρ : Type} (r : String) (rest : List (TestStmt ρ))
    (w : TestState ρ) :
    runStatements (skipStatement r :: rest) w = runStatements rest (HIP_SKIP_TEST r w)
    ∧ (runStatements skipThenAssert quietProcess).isRaised = true
    ∧ (runStatements skipThenAssert quietProcess).state.stdout
        = "Skipping test. Reason: unsupported device\nHIP_SKIP_THIS_TEST\n" := by
  refine ⟨rfl, ?_, ?_⟩ <;> decide


/-! ## Device-gated tests -/

theorem beginsWith_iff (needle hay : List Char) :
    beginsWith hay needle = true ↔ ∃ b, hay = needle ++ b := by
  induction needle generalizing hay with
  | nil => simp [beginsWith]
  | cons n ns ih =>
    cases hay with
    | nil => simp [beginsWith]
    | cons h hs =>
      simp only [beginsWith, Bool.and_eq_true, beq_iff_eq, ih, List.cons_append,
        List.cons.injEq]
      constructor
      · rintro ⟨rfl, b, rfl⟩
        exact ⟨b, rfl, rfl⟩
      · rintro ⟨b, rfl, rfl⟩
        exact ⟨rfl, b, rfl⟩

theorem strstrAt_eq_none_iff (needle hay : List Char) :
    strstrAt needle hay = none ↔ ¬ ∃ a b, hay = a ++ needle ++ b := by
  induction hay with
  | nil =>
    cases needle with
    | nil => simp [strstrAt, beginsWith]
    | cons n ns => simp [strstrAt, beginsWith]
  | cons h hs ih =>
    by_cases hb : beginsWith (h :: hs) needle = true
    · have hex : ∃ a b, h :: hs = a ++ needle ++ b := by
        obtain ⟨b, hb2⟩ := (beginsWith_iff needle (h :: hs)).1 hb
        exact ⟨[], b, by simpa using hb2⟩
      simp only [strstrAt, hb, if_true]
      constructor
      · intro hc; cases hc
      · intro hc; exact absurd hex hc
    · simp only [strstrAt, hb, Bool.false_eq_true, if_false, Option.map_eq_none', ih]
      constructor
      · rintro hnot ⟨a, b, hab⟩
        cases a with
        | nil => exact hb ((beginsWith_iff needle (h :: hs)).2 ⟨b, by simpa using hab⟩)
        | cons x a =>
          simp only [List.cons_append, List.cons.injEq] at hab
          exact hnot ⟨a, b, hab.2⟩
      · rintro hnot ⟨a, b, hab⟩
        exact hnot ⟨h :: a, b, by simp [hab]⟩

theorem strstr_isSome_iff (hay needle : String) :
    (strstr hay needle).isSome = true ↔ ∃ a b, hay.data = a ++ needle.data ++ b := by
  rw [← not_iff_not, ← strstrAt_eq_none_iff]
  simp [strstr]

theorem gatedByHipCheck_skips {ρ : Type} (propsLine attrLine : Nat) (dev : Device)
    (whenManaged : TestStmt ρ) (w : TestState ρ) (hprops : dev.propsStatus = hipSuccess)
    (hx : ¬ ∃ a b, dev.gcnArchName.data = a ++ "xnack+".data ++ b) :
    gatedByHipCheck propsLine attrLine dev whenManaged w
      = .completed (HIP_SKIP_TEST notXnackReason w) := by
  have h : (strstr dev.gcnArchName "xnack+").isSome = false := by
    simpa using (strstr_isSome_iff dev.gcnArchName "xnack+").not.2 hx
  simp [gatedByHipCheck, HIPCHECK, hprops, h]

theorem gatedByHipCheck_unmanaged {ρ : Type} (propsLine attrLine : Nat) (dev : Device)
    (whenManaged : TestStmt ρ) (w : TestState ρ) (hprops : dev.propsStatus = hipSuccess)
    (hx : ∃ a b, dev.gcnArchName.data = a ++ "xnack+".data ++ b)
    (hattr : dev.attrStatus = hipSuccess) (hm : dev.managed ≠ 1) :
    gatedByHipCheck propsLine attrLine dev whenManaged w = .completed w := by
  have h : (strstr dev.gcnArchName "xnack+").isSome = true :=
    (strstr_isSome_iff dev.gcnArchName "xnack+").2 hx
  simp [gatedByHipCheck, HIPCHECK, HIP_CHECK, Outcome.toResult, hprops, hattr, h, hm]

/-- C13 as stated fails. The device `xnackWithoutManagedMemory` has an
architecture name with "xnack+" and the managed-memory attribute 0, so the
precondition "attribute is 1" is unmet; each of the four tests ends without
an assertion and with nothing printed: no skip line is emitted. -/
theorem unmanaged_device_is_not_reported_as_skipped :
    xnackWithoutManagedMemory.managed ≠ 1
    ∧ (strstr xnackWithoutManagedMemory.gcnArchName "xnack+").isSome = true
    ∧ (Unit_malloc_CoherentTst xnackWithoutManagedMemory failingBlock quietProcess).isCompleted
        = true
    ∧ (Unit_malloc_CoherentTst xnackWithoutManagedMemory failingBlock
        quietProcess).state.stdout = ""
    ∧ (Unit_malloc_CoherentTstWthAdvise xnackWithoutManagedMemory failingBlock
        quietProcess).isCompleted = true
    ∧ (Unit_malloc_CoherentTstWthAdvise xnackWithoutManagedMemory failingBlock
        quietProcess).state.stdout = ""
    ∧ (Unit_mmap_CoherentTst xnackWithoutManagedMemory failingBlock quietProcess).isCompleted
        = true
    ∧ (Unit_mmap_CoherentTst xnackWithoutManagedMemory failingBlock
        quietProcess).state.stdout = ""
    ∧ (Unit_mmap_CoherentTstWthAdvise xnackWithoutManagedMemory failingBlock
        quietProcess).isCompleted = true
    ∧ (Unit_mmap_CoherentTstWthAdvise xnackWithoutManagedMemory failingBlock
        quietProcess).state.stdout = "" := by
  decide

/-- C13, amended: for each of the four device-gated coherency tests and
every device description whose queries succeed: when the architecture name
does not contain "xnack+", the test ends without an assertion, having
printed the skip lines (the reason, an empty line since the reason ends
with a newline, and the token `HIP_SKIP_THIS_TEST` alone on the last line);
when the name contains "xnack+" and the managed-memory attribute is not 1,
the test ends without an assertion and prints nothing. The block guarded by
`managed == 1` is not run in either case. -/
theorem device_gated_tests_when_preconditions_unmet {ρ : Type} (dev : Device)
    (whenManaged : TestStmt ρ) (w : TestState ρ)
    (hprops : dev.propsStatus = hipSuccess) (hattr : dev.attrStatus = hipSuccess) :
    ((¬ ∃ a b, dev.gcnArchName.data = a ++ "xnack+".data ++ b) →
      Unit_malloc_CoherentTst dev whenManaged w = .completed (HIP_SKIP_TEST notXnackReason w)
      ∧ Unit_malloc_CoherentTstWthAdvise dev whenManaged w
          = .completed (HIP_SKIP_TEST notXnackReason w)
      ∧ Unit_mmap_CoherentTst dev whenManaged w = .completed (HIP_SKIP_TEST notXnackReason w)
      ∧ Unit_mmap_CoherentTstWthAdvise dev whenManaged w
          = .completed (HIP_SKIP_TEST notXnackReason w)
      ∧ (HIP_SKIP_TEST notXnackReason w).stdout
          = w.stdout ++ ("Skipping test. Reason: GPU is not xnack enabled hence skipping the "
              ++ "test...\n\nHIP_SKIP_THIS_TEST\n")
      ∧ (textLines (HIP_SKIP_TEST notXnackReason w).stdout.data).getLast?
          = some "HIP_SKIP_THIS_TEST".data)
    ∧ ((∃ a b, dev.gcnArchName.data = a ++ "xnack+".data ++ b) → dev.managed ≠ 1 →
      Unit_malloc_CoherentTst dev whenManaged w = .completed w
      ∧ Unit_malloc_CoherentTstWthAdvise dev whenManaged w = .completed w
      ∧ Unit_mmap_CoherentTst dev whenManaged w = .completed w
      ∧ Unit_mmap_CoherentTstWthAdvise dev whenManaged w = .completed w) := by
  refine ⟨fun hx => ⟨?_, gatedByHipCheck_skips _ _ dev whenManaged w hprops hx,
      gatedByHipCheck_skips _ _ dev whenManaged w hprops hx,
      gatedByHipCheck_skips _ _ dev whenManaged w hprops hx, ?_, ?_⟩,
    fun hx hm => ⟨?_, gatedByHipCheck_unmanaged _ _ dev whenManaged w hprops hx hattr hm,
      gatedByHipCheck_unmanaged _ _ dev whenManaged w hprops hx hattr hm,
      gatedByHipCheck_unmanaged _ _ dev whenManaged w hprops hx hattr hm⟩⟩
  · have h : (strstr dev.gcnArchName "xnack+").isSome = false := by
      simpa using (strstr_isSome_iff dev.gcnArchName "xnack+").not.2 hx
    simp [Unit_malloc_CoherentTst, HIPCHECK, hprops, h]
  · rw [(HIP_SKIP_TEST_stdout notXnackReason w)]
    apply String.ext
    simp [String.data_append, notXnackReason]
  · rw [HIP_SKIP_TEST_data]
    exact getLast?_textLines _ _ (by decide)
  · have h : (strstr dev.gcnArchName "xnack+").isSome = true :=
      (strstr_isSome_iff dev.gcnArchName "xnack+").2 hx
    simp [Unit_malloc_CoherentTst, HIPCHECK, hprops, hattr, h, hm]

/-- Witness of C13, amended: a device without "xnack+", and a block that
would fail if it ran. -/
theorem device_gated_tests_when_preconditions_unmet_witness :
    withoutXnack.propsStatus = hipSuccess ∧ withoutXnack.attrStatus = hipSuccess
    ∧ (¬ ∃ a b, withoutXnack.gcnArchName.data = a ++ "xnack+".data ++ b)
    ∧ Unit_mmap_CoherentTst withoutXnack failingBlock quietProcess
        = .completed (HIP_SKIP_TEST notXnackReason quietProcess) :=
  have hx : ¬ ∃ a b, withoutXnack.gcnArchName.data = a ++ "xnack+".data ++ b :=
    (strstr_isSome_iff withoutXnack.gcnArchName "xnack+").not.1 (by decide)
  ⟨rfl, rfl, hx,
    ((device_gated_tests_when_preconditions_unmet withoutXnack failingBlock quietProcess
      rfl rfl).1 hx).2.2.1⟩

theorem HIP_CHECK_isRaised {σ : Type} (line : Nat) (file str : String)
    (error : Expr σ hipError_t) (w : σ) :
    (HIP_CHECK line file str error w).isRaised = true
      ↔ ((error w).1 ≠ hipSuccess ∧ (error w).1 ≠ hipErrorPeerAccessAlreadyEnabled) := by
  by_cases h : (error w).1 ≠ hipSuccess ∧ (error w).1 ≠ hipErrorPeerAccessAlreadyEnabled
  · simp [HIP_CHECK, h, Outcome.isRaised]
  · simp only [HIP_CHECK, h, if_false, Outcome.isRaised]
    simp

theorem HIP_CHECK_state {σ : Type} (line : Nat) (file str : String)
    (error : Expr σ hipError_t) (w : σ) :
    (HIP_CHECK line file str error w).state = (error w).2 := by
  by_cases h : (error w).1 ≠ hipSuccess ∧ (error w).1 ≠ hipErrorPeerAccessAlreadyEnabled
  · simp [HIP_CHECK, h, Outcome.state]
  · simp [HIP_CHECK, h, Outcome.state]


/-! ## The blocking stream coordinator, claims -/

theorem store_atomics_self {ρ : Type} (p : Process ρ) (a : Address) (b : Bool) :
    (p.store a b).atomics a = b := by
  simp [Process.store]

theorem block_stream_state {ρ : Type} (api : StreamApi ρ) (c : BlockingContext)
    (p : Process ρ) :
    (c.block_stream api p).state
      = { atomics := (p.store c.blocked true).atomics
          runtime := (api.hipStreamAddCallback c.stream c.blocked 0
            (p.store c.blocked true).atomics p.runtime).2 } := by
  have h := (HIP_CHECK_state 387 "hip_test_common.hh"
    "hipStreamAddCallback(stream, blocking_callback, (void*)&blocked, 0)" (c.enqueue api)
    (p.store c.blocked true))
  rw [BlockingContext.block_stream, h]
  rfl

theorem block_stream_completed {ρ : Type} (api : StreamApi ρ) (c : BlockingContext)
    (p p1 : Process ρ) (h : c.block_stream api p = .completed p1) :
    c.blocked_val p1 = true := by
  have hs := block_stream_state api c p
  rw [h] at hs
  simp only [Outcome.state] at hs
  rw [hs]
  simp [BlockingContext.blocked_val, Process.store]

theorem runCalls_last {ρ : Type} (api : StreamApi ρ) (c : BlockingContext)
    (calls : List CoordinatorCall) (p p1 : Process ρ)
    (h : runCalls api c calls p = .completed p1) (last : CoordinatorCall)
    (hlast : calls.getLast? = some last) :
    c.blocked_val p1 = decide (last = .block_stream) := by
  induction calls generalizing p with
  | nil => simp at hlast
  | cons x rest ih =>
    cases rest with
    | nil =>
      simp only [List.getLast?_singleton, Option.some.injEq] at hlast
      subst hlast
      cases x with
      | block_stream =>
        cases hb : c.block_stream api p with
        | completed p2 =>
          simp only [runCalls, hb] at h
          have hp : p2 = p1 := Outcome.completed.inj h
          rw [← hp]
          simpa using block_stream_completed api c p p2 hb
        | raised f p2 =>
          simp only [runCalls, hb] at h
          cases h
      | unblock_stream =>
        simp only [runCalls] at h
        have hp : c.unblock_stream p = p1 := Outcome.completed.inj h
        rw [← hp]
        simp [BlockingContext.blocked_val, BlockingContext.unblock_stream, Process.store]
    | cons y rest2 =>
      rw [List.getLast?_cons_cons] at hlast
      cases x with
      | block_stream =>
        cases hb : c.block_stream api p with
        | completed p2 =>
          simp only [runCalls, hb] at h
          exact ih p2 h hlast
        | raised f p2 =>
          simp only [runCalls, hb] at h
          cases h
      | unblock_stream =>
        rw [runCalls] at h
        exact ih _ h hlast

/-- C14: the flag of the coordinator follows a re-armable two-state
machine. After every non-empty sequence of `block_stream()` and
`unblock_stream()` calls whose enqueues pass their status check,
`blocked_val()` is true if the last call was `block_stream()` and false if
it was `unblock_stream()`, for every runtime and every state before the
calls; block, unblock, block leaves the coordinator blocked again. -/
theorem blocked_val_follows_last_call {ρ : Type} (api : StreamApi ρ) (c : BlockingContext)
    (calls : List CoordinatorCall) (p p1 : Process ρ)
    (h : runCalls api c calls p = .completed p1) :
    (calls.getLast? = some .block_stream → c.blocked_val p1 = true)
    ∧ (calls.getLast? = some .unblock_stream → c.blocked_val p1 = false)
    ∧ (∀ q q1 : Process ρ, runCalls api c rearm q = .completed q1 →
        c.blocked_val q1 = true) := by
  refine ⟨fun hl => ?_, fun hl => ?_, fun q q1 hq => ?_⟩
  · simpa using runCalls_last api c calls p p1 h _ hl
  · simpa using runCalls_last api c calls p p1 h _ hl
  · simpa using runCalls_last api c rearm q q1 hq .block_stream rfl

/-- Witness of C14: block, unblock, block on a runtime whose enqueues
succeed. -/
theorem blocked_val_follows_last_call_witness :
    runCalls (recordingApi hipSuccess hipSuccess) sampleCoordinator rearm idleProcess
        = .completed
            (runCalls (recordingApi hipSuccess hipSuccess) sampleCoordinator rearm
              idleProcess).state
    ∧ rearm.getLast? = some .block_stream
    ∧ sampleCoordinator.blocked_val
        (runCalls (recordingApi hipSuccess hipSuccess) sampleCoordinator rearm
          idleProcess).state = true :=
  ⟨rfl, rfl,
    (blocked_val_follows_last_call (recordingApi hipSuccess hipSuccess) sampleCoordinator rearm
      idleProcess _ rfl).1 rfl⟩

/-- C15 as stated fails: right after the construction of a coordinator, on
a process whose atomic booleans are all false, `blocked_val()` is true, not
false. -/
theorem constructed_coordinator_is_blocked :
    (BlockingContext.construct 5 7 idleProcess).1.blocked_val
        (BlockingContext.construct 5 7 idleProcess).2 = true
    ∧ (BlockingContext.construct 5 7 idleProcess).1.blocked_val
        (BlockingContext.construct 5 7 idleProcess).2 ≠ false := by
  decide

/-- C15, amended: a blocking coordinator starts with its flag set. For
every queue handle `s`, right after `BlockingContext(s)` and before any
`block_stream()` call, `blocked_val()` is true and `stream_val()` is `s`;
the construction changes no other atomic boolean and makes no call to the
runtime, and `reset()` sets the flag to true again. -/
theorem blocked_val_after_construction {ρ : Type} (a : Address) (s : hipStream_t)
    (p : Process ρ) :
    (BlockingContext.construct a s p).1.blocked_val (BlockingContext.construct a s p).2 = true
    ∧ (BlockingContext.construct a s p).1.stream_val = s
    ∧ (∀ x, x ≠ a → (BlockingContext.construct a s p).2.atomics x = p.atomics x)
    ∧ (BlockingContext.construct a s p).2.runtime = p.runtime
    ∧ (∀ q : Process ρ, (BlockingContext.construct a s p).1.blocked_val
        ((BlockingContext.construct a s p).1.reset q) = true) := by
  refine ⟨?_, rfl, ?_, rfl, ?_⟩
  · simp [BlockingContext.construct, BlockingContext.blocked_val, Process.store]
  · intro x hx
    simp [BlockingContext.construct, Process.store, hx]
  · intro q
    simp [BlockingContext.construct, BlockingContext.blocked_val, BlockingContext.reset,
      Process.store]


/-- C16: for every coordinator state and every runtime, `block_stream()`
stores true in the flag of the coordinator and changes no other atomic
boolean, then makes exactly one `hipStreamAddCallback` call: on the wrapped
handle `stream_val()`, with the address of the coordinator's own flag as
data and flags 0, at a time when the flag already reads true. A recording
runtime sees exactly that one call, whatever status it answers, and the
work queues of the runtime change on the wrapped handle only, by this one
callback. The handle of the coordinator is not written. -/
theorem block_stream_sets_flag_then_enqueues_once {ρ : Type} (api : StreamApi ρ)
    (c : BlockingContext) (p : Process ρ) :
    c.blocked_val (c.block_stream api p).state = true
    ∧ (∀ x, x ≠ c.blocked → (c.block_stream api p).state.atomics x = p.atomics x)
    ∧ (c.block_stream api p).state.runtime
        = (api.hipStreamAddCallback c.stream_val c.blocked 0
            (p.store c.blocked true).atomics p.runtime).2
    ∧ (p.store c.blocked true).atomics c.blocked = true
    ∧ (∀ (status query : hipError_t) (m : Address → Bool) (log : List EnqueueCall),
        (c.block_stream (recordingApi status query) ⟨m, log⟩).state.runtime
          = log ++ [⟨c.stream_val, c.blocked, 0, true⟩])
    ∧ (∀ (m : Address → Bool) (q : Queues),
        (c.block_stream queueApi ⟨m, q⟩).state.runtime c.stream_val
            = q c.stream_val ++ [Work.callback c.blocked]
        ∧ ∀ t, t ≠ c.stream_val → (c.block_stream queueApi ⟨m, q⟩).state.runtime t = q t) := by
  refine ⟨?_, ?_, ?_, store_atomics_self p _ _, ?_, ?_⟩
  · rw [block_stream_state]
    simp [BlockingContext.blocked_val, Process.store]
  · intro x hx
    rw [block_stream_state]
    simp [Process.store, hx]
  · rw [block_stream_state]
    rfl
  · intro status query m log
    rw [block_stream_state]
    simp [recordingApi, Process.store, BlockingContext.stream_val]
  · intro m q
    rw [block_stream_state]
    refine ⟨by simp [queueApi, BlockingContext.stream_val], fun t ht => ?_⟩
    have ht2 : ¬ t = c.stream := ht
    simp [queueApi, ht2]

theorem spin_returns (loads : Nat → Bool) (k : Nat) (hfalse : loads k = false) :
    ∀ (n i : Nat), i ≤ k → (∀ j, i ≤ j → j < k → loads j = true) → k - i < n →
      spin loads n i = some k := by
  intro n
  induction n with
  | zero => intro i _ _ h; omega
  | succ n ih =>
    intro i hik htrue hlt
    by_cases hi : i = k
    · subst hi
      simp [spin, hfalse]
    · have hload : loads i = true := htrue i (Nat.le_refl i) (by omega)
      simp only [spin, hload, if_true]
      exact ih (i + 1) (by omega) (fun j hj hjk => htrue j (by omega) hjk) (by omega)

theorem spin_sound (loads : Nat → Bool) :
    ∀ (n i k : Nat), spin loads n i = some k →
      i ≤ k ∧ loads k = false ∧ ∀ j, i ≤ j → j < k → loads j = true := by
  intro n
  induction n with
  | zero => intro i k h; simp [spin] at h
  | succ n ih =>
    intro i k h
    by_cases hload : loads i = true
    · simp only [spin, hload, if_true] at h
      obtain ⟨h1, h2, h3⟩ := ih (i + 1) k h
      refine ⟨by omega, h2, fun j hj hjk => ?_⟩
      by_cases hji : j = i
      · rw [hji]; exact hload
      · exact h3 j (by omega) hjk
    · simp only [spin, hload, Bool.false_eq_true, if_false, Option.some.injEq] at h
      subst h
      exact ⟨Nat.le_refl i, by simpa using hload, fun j hj hjk => by omega⟩

theorem spin_forever (loads : Nat → Bool) (h : ∀ i, loads i = true) :
    ∀ (n i : Nat), spin loads n i = none := by
  intro n
  induction n with
  | zero => intro i; rfl
  | succ n ih => intro i; simp [spin, h i, ih]

/-- C17: the blocking callback never returns while the flag is true. With
the successive reads of the flag given as a sequence of booleans: if read
number `k` is the first that is false, the callback returns at that read,
having yielded `k` times (once per read that was true), as soon as the
bound on the reads exceeds `k`; whenever it returns, it does so at a read
that is false and every earlier read was true; if the first read is false
it returns without yielding; if every read is true it does not return,
whatever the bound. -/
theorem blocking_callback_returns_at_first_false_read (loads : Nat → Bool) :
    (∀ k, loads k = false → (∀ j, j < k → loads j = true) →
        ∀ fuel, k < fuel → blocking_callback loads fuel = some k)
    ∧ (∀ fuel k, blocking_callback loads fuel = some k →
        loads k = false ∧ ∀ j, j < k → loads j = true)
    ∧ (loads 0 = false → ∀ fuel, blocking_callback loads (fuel + 1) = some 0)
    ∧ ((∀ i, loads i = true) → ∀ fuel, blocking_callback loads fuel = none)
    ∧ blocking_callback unblockedAfterTwo 5 = some 2 := by
  refine ⟨?_, ?_, ?_, ?_, by decide⟩
  · intro k hk htrue fuel hfuel
    exact spin_returns loads k hk fuel 0 (Nat.zero_le k) (fun j _ hj => htrue j hj) (by omega)
  · intro fuel k h
    obtain ⟨_, h2, h3⟩ := spin_sound loads fuel 0 k h
    exact ⟨h2, fun j hj => h3 j (Nat.zero_le j) hj⟩
  · intro h0 fuel
    simp [blocking_callback, spin, h0]
  · intro h fuel
    exact spin_forever loads h fuel 0

/-- C18: for every coordinator state, every runtime and the status `q` its
queue-state query returns, `is_blocked()` returns true if and only if `q`
is `hipErrorNotReady`: it returns false for `hipSuccess` and for every
other error status. The result is the same whatever the atomic booleans
hold, the blocked flag included; the call changes no atomic boolean and
does not write the handle. -/
theorem is_blocked_iff_not_ready {ρ : Type} (api : StreamApi ρ) (c : BlockingContext)
    (p : Process ρ) :
    ((c.is_blocked api p).1 = true
      ↔ (api.hipStreamQuery c.stream_val p.runtime).1 = hipErrorNotReady)
    ∧ ((api.hipStreamQuery c.stream_val p.runtime).1 = hipSuccess →
        (c.is_blocked api p).1 = false)
    ∧ ((api.hipStreamQuery c.stream_val p.runtime).1 ≠ hipErrorNotReady →
        (c.is_blocked api p).1 = false)
    ∧ (∀ m : Address → Bool, (c.is_blocked api ⟨m, p.runtime⟩).1 = (c.is_blocked api p).1)
    ∧ (c.is_blocked api p).2.atomics = p.atomics
    ∧ c.blocked_val (c.is_blocked api p).2 = c.blocked_val p
    ∧ (∀ (status q : hipError_t) (m : Address → Bool) (log : List EnqueueCall),
        (c.is_blocked (recordingApi status q) ⟨m, log⟩).1 = decide (q = hipErrorNotReady)) := by
  refine ⟨?_, ?_, ?_, fun _ => rfl, rfl, rfl, fun _ _ _ _ => rfl⟩
  · simp [BlockingContext.is_blocked, BlockingContext.stream_val]
  · intro h
    simp only [BlockingContext.stream_val] at h
    simp [BlockingContext.is_blocked, h]
  · intro h
    simp only [BlockingContext.stream_val] at h
    simp [BlockingContext.is_blocked, h]

/-- C20 as stated fails: when the enqueue call returns
`hipErrorPeerAccessAlreadyEnabled`, a status other than `hipSuccess`,
`block_stream()` raises no reportable failure. -/
theorem block_stream_lets_one_failure_status_pass :
    hipErrorPeerAccessAlreadyEnabled ≠ hipSuccess
    ∧ (sampleCoordinator.enqueue (recordingApi hipErrorPeerAccessAlreadyEnabled hipSuccess)
        (idleProcess.store sampleCoordinator.blocked true)).1 = hipErrorPeerAccessAlreadyEnabled
    ∧ (sampleCoordinator.block_stream (recordingApi hipErrorPeerAccessAlreadyEnabled hipSuccess)
        idleProcess).isRaised = false := by
  decide

/-- C20, amended: for every status `s` the enqueue call returns,
`block_stream()` makes exactly one enqueue attempt (the runtime is left as
that one call leaves it; a recording runtime sees one call, whatever the
status) and raises a reportable failure, which ends the test case, if and
only if `s` is neither `hipSuccess` nor `hipErrorPeerAccessAlreadyEnabled`,
the status `HIP_CHECK` lets pass. -/
theorem block_stream_raises_without_retry {ρ : Type} (api : StreamApi ρ)
    (c : BlockingContext) (p : Process ρ) :
    ((c.block_stream api p).isRaised = true
      ↔ ((api.hipStreamAddCallback c.stream c.blocked 0 (p.store c.blocked true).atomics
            p.runtime).1 ≠ hipSuccess
          ∧ (api.hipStreamAddCallback c.stream c.blocked 0 (p.store c.blocked true).atomics
            p.runtime).1 ≠ hipErrorPeerAccessAlreadyEnabled))
    ∧ (c.block_stream api p).state.runtime
        = (api.hipStreamAddCallback c.stream c.blocked 0 (p.store c.blocked true).atomics
            p.runtime).2
    ∧ (∀ (s query : hipError_t) (m : Address → Bool) (log : List EnqueueCall),
        (c.block_stream (recordingApi s query) ⟨m, log⟩).state.runtime.length = log.length + 1
        ∧ ((c.block_stream (recordingApi s query) ⟨m, log⟩).isRaised = true
            ↔ (s ≠ hipSuccess ∧ s ≠ hipErrorPeerAccessAlreadyEnabled)))
    ∧ (∀ (rest : List CoordinatorCall),
        (c.block_stream api p).isRaised = true →
          runCalls api c (.block_stream :: rest) p = c.block_stream api p) := by
  have hr : ∀ (τ : Type) (a : StreamApi τ) (q : Process τ),
      ((c.block_stream a q).isRaised = true
        ↔ ((a.hipStreamAddCallback c.stream c.blocked 0 (q.store c.blocked true).atomics
              q.runtime).1 ≠ hipSuccess
            ∧ (a.hipStreamAddCallback c.stream c.blocked 0 (q.store c.blocked true).atomics
              q.runtime).1 ≠ hipErrorPeerAccessAlreadyEnabled)) := by
    intro τ a q
    exact HIP_CHECK_isRaised 387 _ _ (c.enqueue a) (q.store c.blocked true)
  refine ⟨hr ρ api p, ?_, ?_, ?_⟩
  · rw [block_stream_state]
  · intro s query m log
    refine ⟨?_, ?_⟩
    · rw [block_stream_state]
      simp [recordingApi]
    · simpa [recordingApi] using hr _ (recordingApi s query) ⟨m, log⟩
  · intro rest hraised
    cases hb : c.block_stream api p with
    | completed p1 => rw [hb] at hraised; simp [Outcome.isRaised] at hraised
    | raised f p1 => simp [runCalls, hb]


/-! ## The coordinator on the work queue of the runtime -/

theorem deviceStep_atomics (s : hipStream_t) (p : Process Queues) :
    (deviceStep s p).atomics = p.atomics := by
  unfold deviceStep
  split
  · rfl
  · rfl
  · rfl
  · split <;> rfl

theorem deviceStep_other (s t : hipStream_t) (p : Process Queues) (h : t ≠ s) :
    (deviceStep s p).runtime t = p.runtime t := by
  unfold deviceStep
  split
  · rfl
  · simp [h]
  · simp [h]
  · split
    · rfl
    · simp [h]

theorem pausedAt_deviceStep (c : BlockingContext) (s : hipStream_t) (p : Process Queues)
    (h : PausedAt c p) : PausedAt c (deviceStep s p) := by
  obtain ⟨hflag, pre, hpre, hq⟩ := h
  refine ⟨by rw [deviceStep_atomics]; exact hflag, ?_⟩
  by_cases hs : c.stream = s
  · subst hs
    cases pre with
    | nil =>
      refine ⟨[], hpre, ?_⟩
      have hq2 : p.runtime c.stream = [Work.callback c.blocked] := by simpa using hq
      simp [deviceStep, hq2, hflag]
    | cons w pre2 =>
      obtain ⟨n, rfl⟩ := hpre w (List.mem_cons_self _ _)
      have hpre2 : ∀ x ∈ pre2, ∃ k, x = Work.task k :=
        fun x hx => hpre x (List.mem_cons_of_mem _ hx)
      have hq2 : p.runtime c.stream = Work.task n :: (pre2 ++ [Work.callback c.blocked]) := by
        simpa using hq
      cases n with
      | zero => exact ⟨pre2, hpre2, by simp [deviceStep, hq2]⟩
      | succ k =>
        refine ⟨Work.task k :: pre2, ?_, by simp [deviceStep, hq2]⟩
        intro x hx
        rcases List.mem_cons.1 hx with rfl | hx2
        · exact ⟨k, rfl⟩
        · exact hpre2 x hx2
  · exact ⟨pre, hpre, by rw [deviceStep_other s c.stream p hs]; exact hq⟩

theorem pausedAt_deviceSteps (c : BlockingContext) (steps : List hipStream_t)
    (p : Process Queues) (h : PausedAt c p) : PausedAt c (deviceSteps steps p) := by
  induction steps generalizing p with
  | nil => exact h
  | cons s rest ih => exact ih _ (pausedAt_deviceStep c s p h)

theorem is_blocked_of_pausedAt (c : BlockingContext) (p : Process Queues)
    (h : PausedAt c p) : (c.is_blocked queueApi p).1 = true := by
  obtain ⟨_, pre, _, hq⟩ := h
  cases pre <;> simp [BlockingContext.is_blocked, queueApi, hq]

theorem synchronize_none_of_pausedAt (c : BlockingContext) (fuel : Nat) (p : Process Queues)
    (h : PausedAt c p) : hipStreamSynchronize c.stream fuel p = none := by
  induction fuel generalizing p with
  | zero =>
    obtain ⟨_, pre, _, hq⟩ := h
    cases pre <;> simp [hipStreamSynchronize, hq]
  | succ n ih =>
    have hne : (p.runtime c.stream).isEmpty = false := by
      obtain ⟨_, pre, _, hq⟩ := h
      cases pre <;> simp [hq]
    simp only [hipStreamSynchronize, hne, Bool.false_eq_true, if_false]
    exact ih _ (pausedAt_deviceStep c c.stream p h)

theorem released_deviceStep (s : hipStream_t) (p : Process Queues) (h : Released s p)
    (hne : p.runtime s ≠ []) :
    Released s (deviceStep s p)
      ∧ stepsToDrain ((deviceStep s p).runtime s) < stepsToDrain (p.runtime s) := by
  cases hq : p.runtime s with
  | nil => exact absurd hq hne
  | cons w rest =>
    have hrest : ∀ d, Work.callback d ∈ rest → p.atomics d = false :=
      fun d hd => h d (by rw [hq]; exact List.mem_cons_of_mem _ hd)
    cases w with
    | task n =>
      cases n with
      | zero =>
        refine ⟨?_, by simp [deviceStep, hq, stepsToDrain]⟩
        intro d hd
        rw [deviceStep_atomics]
        exact hrest d (by simpa [deviceStep, hq] using hd)
      | succ k =>
        refine ⟨?_, by simp [deviceStep, hq, stepsToDrain]⟩
        intro d hd
        rw [deviceStep_atomics]
        exact hrest d (by simpa [deviceStep, hq] using hd)
    | callback data =>
      have hdata : p.atomics data = false := h data (by rw [hq]; exact List.mem_cons_self _ _)
      refine ⟨?_, by simp [deviceStep, hq, hdata, stepsToDrain]⟩
      intro d hd
      rw [deviceStep_atomics]
      exact hrest d (by simpa [deviceStep, hq, hdata] using hd)

theorem synchronize_returns (s : hipStream_t) (fuel : Nat) (p : Process Queues)
    (h : Released s p) (hfuel : stepsToDrain (p.runtime s) ≤ fuel) :
    ∃ p3, hipStreamSynchronize s fuel p = some p3 ∧ p3.runtime s = [] := by
  induction fuel generalizing p with
  | zero =>
    have hq : p.runtime s = [] := by
      cases hq : p.runtime s with
      | nil => rfl
      | cons w rest =>
        rw [hq] at hfuel
        cases w <;> simp [stepsToDrain] at hfuel
    exact ⟨p, by simp [hipStreamSynchronize, hq], hq⟩
  | succ n ih =>
    by_cases hq : p.runtime s = []
    · exact ⟨p, by simp [hipStreamSynchronize, hq], hq⟩
    · have hne : (p.runtime s).isEmpty = false := by
        cases hq2 : p.runtime s with
        | nil => exact absurd hq2 hq
        | cons w rest => rfl
      obtain ⟨hrel, hlt⟩ := released_deviceStep s p h hq
      obtain ⟨p3, h1, h2⟩ := ih (deviceStep s p) hrel (by omega)
      exact ⟨p3, by simp only [hipStreamSynchronize, hne, Bool.false_eq_true, if_false, h1], h2⟩

theorem released_unblock_stream (c : BlockingContext) (p : Process Queues)
    (h : PausedAt c p) : Released c.stream (c.unblock_stream p) := by
  obtain ⟨_, pre, hpre, hq⟩ := h
  intro d hd
  have hd2 : Work.callback d ∈ pre ++ [Work.callback c.blocked] := by
    rw [← hq]; exact hd
  rcases List.mem_append.1 hd2 with hin | hin
  · obtain ⟨n, hn⟩ := hpre _ hin
    cases hn
  · have hdc : d = c.blocked := by simpa using hin
    simp [BlockingContext.unblock_stream, Process.store, hdc]

theorem pausedAt_block_stream (c : BlockingContext) (p0 p1 : Process Queues)
    (hpending : ∀ w ∈ p0.runtime c.stream, ∃ n, w = Work.task n)
    (h : c.block_stream queueApi p0 = .completed p1) : PausedAt c p1 := by
  have hs := block_stream_state queueApi c p0
  rw [h] at hs
  simp only [Outcome.state] at hs
  rw [hs]
  exact ⟨by simp [Process.store], p0.runtime c.stream, hpending, by simp [queueApi]⟩

/-- C19: on the work queue of the runtime, for a queue whose pending work
is device tasks: `block_stream()` succeeds, and from then on, whatever
steps the device takes on whatever streams, every `is_blocked()` poll
returns true and leaves the process as it was, and a synchronize on the
queue does not return. After `unblock_stream()` a synchronize on the queue
returns with the queue drained, within a bounded number of device steps. -/
theorem polls_blocked_until_unblock (c : BlockingContext) (p0 : Process Queues)
    (hpending : ∀ w ∈ p0.runtime c.stream, ∃ n, w = Work.task n) :
    ∃ p1, c.block_stream queueApi p0 = .completed p1
      ∧ (∀ steps, (c.is_blocked queueApi (deviceSteps steps p1)).1 = true
          ∧ (c.is_blocked queueApi (deviceSteps steps p1)).2 = deviceSteps steps p1)
      ∧ (∀ steps fuel, hipStreamSynchronize c.stream fuel (deviceSteps steps p1) = none)
      ∧ (∀ steps, ∃ bound, ∀ fuel, bound ≤ fuel →
          ∃ p3, hipStreamSynchronize c.stream fuel
              (c.unblock_stream (deviceSteps steps p1)) = some p3
            ∧ p3.runtime c.stream = []) := by
  have hcompleted : (c.block_stream queueApi p0).isRaised = false := by
    cases hr : (c.block_stream queueApi p0).isRaised with
    | false => rfl
    | true =>
      have := (HIP_CHECK_isRaised 387 "hip_test_common.hh"
        "hipStreamAddCallback(stream, blocking_callback, (void*)&blocked, 0)"
        (c.enqueue queueApi) (p0.store c.blocked true)).1 hr
      exact absurd rfl this.1
  cases hb : c.block_stream queueApi p0 with
  | raised f p1 => rw [hb] at hcompleted; simp [Outcome.isRaised] at hcompleted
  | completed p1 =>
    have hp := pausedAt_block_stream c p0 p1 hpending hb
    refine ⟨p1, rfl, fun steps => ⟨?_, rfl⟩, fun steps fuel => ?_, fun steps => ?_⟩
    · exact is_blocked_of_pausedAt c _ (pausedAt_deviceSteps c steps p1 hp)
    · exact synchronize_none_of_pausedAt c fuel _ (pausedAt_deviceSteps c steps p1 hp)
    · refine ⟨stepsToDrain ((c.unblock_stream (deviceSteps steps p1)).runtime c.stream),
        fun fuel hfuel => ?_⟩
      exact synchronize_returns c.stream fuel _
        (released_unblock_stream c _ (pausedAt_deviceSteps c steps p1 hp)) hfuel

/-- Witness of C19: a coordinator on a stream with two device tasks
pending. -/
theorem polls_blocked_until_unblock_witness :
    (∀ w ∈ busyProcess.runtime sampleCoordinator.stream, ∃ n, w = Work.task n)
    ∧ busyProcess.runtime sampleCoordinator.stream ≠ []
    ∧ ∃ p1, sampleCoordinator.block_stream queueApi busyProcess = .completed p1
      ∧ (∀ steps, (sampleCoordinator.is_blocked queueApi (deviceSteps steps p1)).1 = true
          ∧ (sampleCoordinator.is_blocked queueApi (deviceSteps steps p1)).2
              = deviceSteps steps p1)
      ∧ (∀ steps fuel,
          hipStreamSynchronize sampleCoordinator.stream fuel (deviceSteps steps p1) = none)
      ∧ (∀ steps, ∃ bound, ∀ fuel, bound ≤ fuel →
          ∃ p3, hipStreamSynchronize sampleCoordinator.stream fuel
              (sampleCoordinator.unblock_stream (deviceSteps steps p1)) = some p3
            ∧ p3.runtime sampleCoordinator.stream = []) :=
  have hpending : ∀ w ∈ busyProcess.runtime sampleCoordinator.stream, ∃ n, w = Work.task n := by
    intro w hw
    simp only [busyProcess, sampleCoordinator, if_true, List.mem_cons, List.mem_singleton,
      List.not_mem_nil, or_false] at hw
    rcases hw with rfl | rfl
    · exact ⟨2, rfl⟩
    · exact ⟨0, rfl⟩
  ⟨hpending, by decide, polls_blocked_until_unblock sampleCoordinator busyProcess hpending⟩


/-! ## Main-thread checks compared -/

theorem HIPCHECK_isAborted {ρ : Type} (hipGetErrorString : hipError_t → String) (line : Nat)
    (file text : String) (error : Expr (TestState ρ) hipError_t) (w : TestState ρ) :
    (HIPCHECK hipGetErrorString line file text error w).isAborted = true
      ↔ ((error w).1 ≠ hipSuccess ∧ (error w).1 ≠ hipErrorPeerAccessAlreadyEnabled) := by
  by_cases h : (error w).1 ≠ hipSuccess ∧ (error w).1 ≠ hipErrorPeerAccessAlreadyEnabled
  · simp [HIPCHECK, h, TestResult.isAborted]
  · simp only [HIPCHECK, h, if_false, TestResult.isAborted]
    simp

/-- C30: the two main-thread status checks agree on which statuses are
failures. For every expression and the status `s` it evaluates to,
`HIP_CHECK` raises a reportable failure if and only if `HIPCHECK` aborts
the process, and each does so exactly when `s` is neither `hipSuccess` nor
`hipErrorPeerAccessAlreadyEnabled`; `HIPCHECK` never raises an assertion. -/
theorem HIP_CHECK_and_HIPCHECK_agree {ρ : Type} (hipGetErrorString : hipError_t → String)
    (line : Nat) (file text : String) (error : Expr (TestState ρ) hipError_t)
    (w : TestState ρ) :
    ((HIP_CHECK line file text error w).isRaised = true
      ↔ (HIPCHECK hipGetErrorString line file text error w).isAborted = true)
    ∧ ((HIP_CHECK line file text error w).isRaised = true
      ↔ ((error w).1 ≠ hipSuccess ∧ (error w).1 ≠ hipErrorPeerAccessAlreadyEnabled))
    ∧ ((HIPCHECK hipGetErrorString line file text error w).isAborted = true
      ↔ ((error w).1 ≠ hipSuccess ∧ (error w).1 ≠ hipErrorPeerAccessAlreadyEnabled))
    ∧ (HIPCHECK hipGetErrorString line file text error w).isRaised = false := by
  have h1 := HIP_CHECK_isRaised line file text error w
  have h2 := HIPCHECK_isAborted hipGetErrorString line file text error w
  refine ⟨h1.trans h2.symm, h1, h2, ?_⟩
  by_cases h : (error w).1 ≠ hipSuccess ∧ (error w).1 ≠ hipErrorPeerAccessAlreadyEnabled
  · simp [HIPCHECK, h, TestResult.isRaised]
  · simp only [HIPCHECK, h, if_false, TestResult.isRaised]


/-! ## Grid size helpers, claims -/

theorem ceil_div_covers (N t : Nat) (ht : 0 < t) : N ≤ (N + t - 1) / t * t := by
  have h := Nat.lt_mul_div_succ (N + t - 1) ht
  have hc : t * ((N + t - 1) / t + 1) = (N + t - 1) / t * t + t := by ring
  rw [hc] at h
  omega

theorem ceil_div_le_of_le_mul (N t b : Nat) (ht : 0 < t) (h : N ≤ b * t) :
    (N + t - 1) / t ≤ b := by
  apply Nat.le_of_lt_succ
  rw [Nat.div_lt_iff_lt_mul ht]
  have hc : (b + 1) * t = b * t + t := by ring
  rw [hc]
  omega

theorem unsigned_product (m b : Nat) (h : m * b < 2 ^ 32) :
    (((m : Int) % 2 ^ 32).toNat * b) % 2 ^ 32 = m * b := by
  have hcast : ((m : Int) % 2 ^ 32).toNat = m % 2 ^ 32 := by
    have : ((m : Int) % 2 ^ 32) = ((m % 2 ^ 32 : Nat) : Int) := by
      simp
    rw [this, Int.toNat_ofNat]
  rw [hcast]
  by_cases hb : b = 0
  · simp [hb]
  · have hm : m < 2 ^ 32 := by
      have hb1 : 1 ≤ b := Nat.one_le_iff_ne_zero.2 hb
      calc m = m * 1 := (Nat.mul_one m).symm
        _ ≤ m * b := Nat.mul_le_mul_left m hb1
        _ < 2 ^ 32 := h
    rw [Nat.mod_eq_of_lt hm, Nat.mod_eq_of_lt h]

/-- C28: `setNumBlocks` returns a grid that covers the problem. When both
queries succeed and report `m` multiprocessors, `threadsPerBlock` is
positive, and `m * blocksPerCU`, `m * blocksPerCU * threadsPerBlock` and
`ceil(N / threadsPerBlock)` fit in 32-bit unsigned arithmetic, the function
returns `b = max(m * blocksPerCU, ceil(N / threadsPerBlock))`, and
`b * threadsPerBlock >= N`. -/
theorem setNumBlocks_covers {σ : Type} (api : DeviceApi σ) (w : σ)
    (m blocksPerCU threadsPerBlock N : Nat)
    (hdevice : (api.hipGetDevice w).1.1 = hipSuccess)
    (hprops : (api.hipGetDeviceProperties (api.hipGetDevice w).1.2 (api.hipGetDevice w).2).1
      = (hipSuccess, (m : Int)))
    (hpos : 0 < threadsPerBlock) (htype : threadsPerBlock < 2 ^ 32)
    (hblocks : m * blocksPerCU < 2 ^ 32)
    (hthreads : m * blocksPerCU * threadsPerBlock < 2 ^ 32)
    (hceil : (N + threadsPerBlock - 1) / threadsPerBlock < 2 ^ 32) :
    (setNumBlocks api blocksPerCU threadsPerBlock N w).value?
        = some (max (m * blocksPerCU) ((N + threadsPerBlock - 1) / threadsPerBlock))
    ∧ N ≤ max (m * blocksPerCU) ((N + threadsPerBlock - 1) / threadsPerBlock)
        * threadsPerBlock := by
  have hsum : N + threadsPerBlock - 1 < 2 ^ 64 := by
    have h1 := (Nat.div_lt_iff_lt_mul hpos).1 hceil
    have h2 : 2 ^ 32 * threadsPerBlock ≤ 2 ^ 32 * 2 ^ 32 :=
      Nat.mul_le_mul_left _ (Nat.le_of_lt htype)
    have h3 : (2 : Nat) ^ 32 * 2 ^ 32 = 2 ^ 64 := by norm_num
    omega
  have hne : threadsPerBlock ≠ 0 := Nat.pos_iff_ne_zero.1 hpos
  have hcov := ceil_div_covers N threadsPerBlock hpos
  have hp1 : (api.hipGetDeviceProperties (api.hipGetDevice w).1.2
      (api.hipGetDevice w).2).1.1 = hipSuccess := by rw [hprops]
  have hp2 : (api.hipGetDeviceProperties (api.hipGetDevice w).1.2
      (api.hipGetDevice w).2).1.2 = (m : Int) := by rw [hprops]
  have hcheck1 : HIP_CHECK 187 "hip_test_common.hh" "hipGetDevice(&device)"
      (statusOf api.hipGetDevice) w = .completed (api.hipGetDevice w).2 := by
    simp [HIP_CHECK, statusOf, hdevice]
  have hcheck2 : HIP_CHECK 189 "hip_test_common.hh" "hipGetDeviceProperties(&props, device)"
      (statusOf (api.hipGetDeviceProperties (api.hipGetDevice w).1.2)) (api.hipGetDevice w).2
        = .completed (api.hipGetDeviceProperties (api.hipGetDevice w).1.2
            (api.hipGetDevice w).2).2 := by
    simp [HIP_CHECK, statusOf, hp1]
  have hunfold : setNumBlocks api blocksPerCU threadsPerBlock N w
      = if m * blocksPerCU * threadsPerBlock < N then
          if threadsPerBlock = 0 then
            .undefined (api.hipGetDeviceProperties (api.hipGetDevice w).1.2
              (api.hipGetDevice w).2).2
          else
            .returned (((N + threadsPerBlock - 1) % 2 ^ 64 / threadsPerBlock) % 2 ^ 32)
              (api.hipGetDeviceProperties (api.hipGetDevice w).1.2 (api.hipGetDevice w).2).2
        else
          .returned (m * blocksPerCU)
            (api.hipGetDeviceProperties (api.hipGetDevice w).1.2 (api.hipGetDevice w).2).2 := by
    unfold setNumBlocks
    rw [hcheck1]
    simp only []
    rw [hcheck2]
    simp only []
    rw [hp2, unsigned_product m _ hblocks, Nat.mod_eq_of_lt hthreads]
  by_cases hlt : m * blocksPerCU * threadsPerBlock < N
  · have hmax : max (m * blocksPerCU) ((N + threadsPerBlock - 1) / threadsPerBlock)
        = (N + threadsPerBlock - 1) / threadsPerBlock := by
      apply Nat.max_eq_right
      by_contra hc
      have hc2 : (N + threadsPerBlock - 1) / threadsPerBlock + 1 ≤ m * blocksPerCU := by omega
      have := Nat.mul_le_mul_right threadsPerBlock hc2
      have hexp : ((N + threadsPerBlock - 1) / threadsPerBlock + 1) * threadsPerBlock
          = (N + threadsPerBlock - 1) / threadsPerBlock * threadsPerBlock + threadsPerBlock := by
        ring
      omega
    rw [hmax]
    refine ⟨?_, hcov⟩
    rw [hunfold, if_pos hlt, if_neg hne, Nat.mod_eq_of_lt hsum, Nat.mod_eq_of_lt hceil]
    rfl
  · have hge : N ≤ m * blocksPerCU * threadsPerBlock := Nat.le_of_not_lt hlt
    have hmax : max (m * blocksPerCU) ((N + threadsPerBlock - 1) / threadsPerBlock)
        = m * blocksPerCU :=
      Nat.max_eq_left (ceil_div_le_of_le_mul N threadsPerBlock _ hpos hge)
    rw [hmax]
    refine ⟨?_, hge⟩
    rw [hunfold, if_neg hlt]
    rfl

/-- Witness of C28: two multiprocessors, one block per unit, one thread per
block, ten elements. -/
theorem setNumBlocks_covers_witness :
    (setNumBlocks twoMultiprocessors 1 1 10 (0, 0)).value? = some (max (2 * 1) ((10 + 1 - 1) / 1))
    ∧ 10 ≤ max (2 * 1) ((10 + 1 - 1) / 1) * 1 :=
  setNumBlocks_covers twoMultiprocessors (0, 0) 2 1 1 10 rfl rfl (by decide) (by decide)
    (by decide) (by decide) (by decide)

/-- C23, the code at the failing input: with two multiprocessors, one block
per unit, one thread per block and `N = 10`, no failure flagged and both
queries succeeding, `setNumBlocks` returns 10 and `setNumBlocksThread`
stores 2 in `blocks`: the threaded function tests
`blocks * threadsPerBlock > N` where `setNumBlocks` tests `<`. -/
theorem setNumBlocksThread_stores_another_value :
    TestContext.fresh.hasErrorOccured = false
    ∧ (setNumBlocks twoMultiprocessors 1 1 10 (0, 0)).value? = some 10
    ∧ (setNumBlocksThread 0 twoMultiprocessors 1 1 10 7 (TestContext.fresh, (0, 0))).2 = 2
    ∧ (setNumBlocksThread 0 twoMultiprocessors 1 1 10 7
        (TestContext.fresh, (0, 0))).1.1.hasErrorOccured = false := by
  decide

/-- C24: if a failure is already flagged when `setNumBlocksThread` is
entered, or its first runtime query returns a status other than
`hipSuccess`, then `blocks` is 0 on return, whatever the arguments and the
value `blocks` held before. With the failure flagged no query is made and
the state is left as it was; with the first query failing, that query is
the only one made (its record is submitted and flags the failure) and
`hipGetDeviceProperties` is not called. -/
theorem setNumBlocksThread_zero_on_failure {σ : Type} (self : ThreadId) (api : DeviceApi σ)
    (blocksPerCU threadsPerBlock N blocks : Nat) (s : TestContext × σ)
    (h : s.1.hasErrorOccured = true ∨ (api.hipGetDevice s.2).1.1 ≠ hipSuccess) :
    (setNumBlocksThread self api blocksPerCU threadsPerBlock N blocks s).2 = 0
    ∧ (s.1.hasErrorOccured = true →
        setNumBlocksThread self api blocksPerCU threadsPerBlock N blocks s = (s, 0))
    ∧ (s.1.hasErrorOccured = false →
        (setNumBlocksThread self api blocksPerCU threadsPerBlock N blocks s).1
          = (s.1.addResults self
              ⟨208, "hip_test_common.hh", (api.hipGetDevice s.2).1.1, "hipGetDevice(&device)",
                none⟩,
             (api.hipGetDevice s.2).2))
    ∧ (∀ (deviceStatus propsStatus : hipError_t) (device count : Int) (c : TestContext)
        (calls : Nat × Nat),
        (c.hasErrorOccured = true ∨ deviceStatus ≠ hipSuccess) →
        ((setNumBlocksThread self (countingDeviceApi deviceStatus device propsStatus count)
            blocksPerCU threadsPerBlock N blocks (c, calls)).1.2).2 = calls.2) := by
  have key : ∀ (τ : Type) (a : DeviceApi τ) (t : TestContext × τ),
      (t.1.hasErrorOccured = true ∨ (a.hipGetDevice t.2).1.1 ≠ hipSuccess) →
      (t.1.hasErrorOccured = true →
        setNumBlocksThread self a blocksPerCU threadsPerBlock N blocks t = (t, 0))
      ∧ (t.1.hasErrorOccured = false →
        setNumBlocksThread self a blocksPerCU threadsPerBlock N blocks t
          = ((t.1.addResults self
              ⟨208, "hip_test_common.hh", (a.hipGetDevice t.2).1.1, "hipGetDevice(&device)",
                none⟩,
             (a.hipGetDevice t.2).2), 0)) := by
    intro τ a t ht
    refine ⟨fun hf => ?_, fun hf => ?_⟩
    · simp [setNumBlocksThread, HIP_CHECK_THREAD, hf]
    · have hne : (a.hipGetDevice t.2).1.1 ≠ hipSuccess := by
        rcases ht with h1 | h1
        · rw [hf] at h1; exact Bool.noConfusion h1
        · exact h1
      have hflag : (t.1.addResults self
          ⟨208, "hip_test_common.hh", (a.hipGetDevice t.2).1.1, "hipGetDevice(&device)",
            none⟩).hasErrorOccured = true := by
        simp [hasErrorOccured_addResults, HCResult.indicatesFailure, hne]
      simp [setNumBlocksThread, HIP_CHECK_THREAD, hf, statusOf, hflag]
  obtain ⟨k1, k2⟩ := key σ api s h
  refine ⟨?_, k1, fun hf => by rw [k2 hf], ?_⟩
  · cases hf : s.1.hasErrorOccured with
    | true => rw [k1 hf]
    | false => rw [k2 hf]
  · intro deviceStatus propsStatus device count c calls hc
    obtain ⟨j1, j2⟩ := key _ (countingDeviceApi deviceStatus device propsStatus count)
      (c, calls) hc
    cases hf : c.hasErrorOccured with
    | true => rw [j1 hf]
    | false => rw [j2 hf]; rfl

/-- Witness of C24: a worker that enters `setNumBlocksThread` with a
failure flagged. -/
theorem setNumBlocksThread_zero_on_failure_witness :
    flaggedContext.hasErrorOccured = true
    ∧ (setNumBlocksThread 1 twoMultiprocessors 1 1 10 7 (flaggedContext, (0, 0))).2 = 0
    ∧ setNumBlocksThread 1 twoMultiprocessors 1 1 10 7 (flaggedContext, (0, 0))
        = ((flaggedContext, (0, 0)), 0) :=
  have h := setNumBlocksThread_zero_on_failure 1 twoMultiprocessors 1 1 10 7
    (flaggedContext, (0, 0)) (Or.inl (by decide))
  ⟨by decide, h.1, h.2.1 (by decide)⟩

theorem HIP_CHECK_ERROR_state {σ : Type} (line : Nat) (file str : String)
    (errorExpr : Expr σ hipError_t) (expectedError : hipError_t) (w : σ) :
    (HIP_CHECK_ERROR line file str errorExpr expectedError w).state = (errorExpr w).2 := by
  by_cases h : (errorExpr w).1 = expectedError <;>
    simp [HIP_CHECK_ERROR, h, Outcome.state]


/-! ## Function attribute test and 3D copy, claims -/

/-- C26 as stated fails: with a runtime whose attribute queries return
`hipErrorPeerAccessAlreadyEnabled`, which is not a success, and the same
value before and after, and whose attribute change returns
`hipErrorNotSupported`, the test passes. -/
theorem not_supported_test_passes_without_successful_queries :
    ((constantFuncApi hipErrorPeerAccessAlreadyEnabled 0
        hipErrorNotSupported).hipFuncGetAttributes quietProcess).1.1 ≠ hipSuccess
    ∧ (Unit_hipFuncSetAttribute_Positive_MaxDynamicSharedMemorySize_Not_Supported
        (constantFuncApi hipErrorPeerAccessAlreadyEnabled 0 hipErrorNotSupported)
        quietProcess).isCompleted = true := by
  decide

/-- C26, amended: for every behaviour of the runtime, the test passes if and
only if both attribute queries return a status `HIP_CHECK` lets pass
(`hipSuccess` or `hipErrorPeerAccessAlreadyEnabled`),
`hipFuncSetAttribute(kernel, hipFuncAttributeMaxDynamicSharedMemorySize,
1024)` returns exactly `hipErrorNotSupported`, and
`maxDynamicSharedSizeBytes` read after the call equals the value read
before it. Here `q1` is the answer of the first query, `st` the answer of
the attribute change made after it, and `q2` the answer of the second query
made after that. -/
theorem not_supported_test_passes_iff {ρ : Type} (api : FuncApi ρ) (w : TestState ρ)
    (q1 q2 : (hipError_t × Int) × TestState ρ) (st : hipError_t × TestState ρ)
    (h1 : api.hipFuncGetAttributes w = q1)
    (hs : api.hipFuncSetAttribute .hipFuncAttributeMaxDynamicSharedMemorySize 1024 q1.2 = st)
    (h2 : api.hipFuncGetAttributes st.2 = q2) :
    (Unit_hipFuncSetAttribute_Positive_MaxDynamicSharedMemorySize_Not_Supported api
        w).isCompleted = true
      ↔ ((q1.1.1 = hipSuccess ∨ q1.1.1 = hipErrorPeerAccessAlreadyEnabled)
          ∧ st.1 = hipErrorNotSupported
          ∧ (q2.1.1 = hipSuccess ∨ q2.1.1 = hipErrorPeerAccessAlreadyEnabled)
          ∧ q1.1.2 = q2.1.2) := by
  subst h1 hs h2
  unfold Unit_hipFuncSetAttribute_Positive_MaxDynamicSharedMemorySize_Not_Supported
  by_cases c1 : (api.hipFuncGetAttributes w).1.1 ≠ hipSuccess
      ∧ (api.hipFuncGetAttributes w).1.1 ≠ hipErrorPeerAccessAlreadyEnabled
  · have n1 : ¬ ((api.hipFuncGetAttributes w).1.1 = hipSuccess
        ∨ (api.hipFuncGetAttributes w).1.1 = hipErrorPeerAccessAlreadyEnabled) := by
      rintro (h | h)
      · exact c1.1 h
      · exact c1.2 h
    simp [HIP_CHECK, statusOf, c1, n1, Outcome.toResult, TestResult.isCompleted]
  · have p1 : (api.hipFuncGetAttributes w).1.1 = hipSuccess
        ∨ (api.hipFuncGetAttributes w).1.1 = hipErrorPeerAccessAlreadyEnabled := by
      by_contra hc
      exact c1 ⟨fun e => hc (Or.inl e), fun e => hc (Or.inr e)⟩
    have e1 : (HIP_CHECK 223 "hipFuncSetAttribute.cc"
        "hipFuncGetAttributes(&old_attributes, reinterpret_cast<void*>(kernel))"
        (statusOf api.hipFuncGetAttributes) w).toResult
        = .completed (api.hipFuncGetAttributes w).2 := by
      simp only [HIP_CHECK, statusOf, c1, if_false, Outcome.toResult]
    rw [e1]
    simp only []
    by_cases c2 : (api.hipFuncSetAttribute .hipFuncAttributeMaxDynamicSharedMemorySize 1024
        (api.hipFuncGetAttributes w).2).1 = hipErrorNotSupported
    · have e2 : (HIP_CHECK_ERROR 225 "hipFuncSetAttribute.cc"
          ("hipFuncSetAttribute(reinterpret_cast<void*>(kernel), "
            ++ "hipFuncAttributeMaxDynamicSharedMemorySize, 1024)")
          (api.hipFuncSetAttribute .hipFuncAttributeMaxDynamicSharedMemorySize 1024)
          hipErrorNotSupported (api.hipFuncGetAttributes w).2).toResult
          = .completed (api.hipFuncSetAttribute .hipFuncAttributeMaxDynamicSharedMemorySize
              1024 (api.hipFuncGetAttributes w).2).2 := by
        simp only [HIP_CHECK_ERROR, c2, if_true, Outcome.toResult]
      rw [e2]
      simp only []
      by_cases c3 : (api.hipFuncGetAttributes (api.hipFuncSetAttribute
            .hipFuncAttributeMaxDynamicSharedMemorySize 1024
            (api.hipFuncGetAttributes w).2).2).1.1 ≠ hipSuccess
          ∧ (api.hipFuncGetAttributes (api.hipFuncSetAttribute
            .hipFuncAttributeMaxDynamicSharedMemorySize 1024
            (api.hipFuncGetAttributes w).2).2).1.1 ≠ hipErrorPeerAccessAlreadyEnabled
      · have n3 : ¬ ((api.hipFuncGetAttributes (api.hipFuncSetAttribute
              .hipFuncAttributeMaxDynamicSharedMemorySize 1024
              (api.hipFuncGetAttributes w).2).2).1.1 = hipSuccess
            ∨ (api.hipFuncGetAttributes (api.hipFuncSetAttribute
              .hipFuncAttributeMaxDynamicSharedMemorySize 1024
              (api.hipFuncGetAttributes w).2).2).1.1 = hipErrorPeerAccessAlreadyEnabled) := by
          rintro (h | h)
          · exact c3.1 h
          · exact c3.2 h
        simp [HIP_CHECK, statusOf, c3, n3, Outcome.toResult, TestResult.isCompleted]
      · have p3 : (api.hipFuncGetAttributes (api.hipFuncSetAttribute
              .hipFuncAttributeMaxDynamicSharedMemorySize 1024
              (api.hipFuncGetAttributes w).2).2).1.1 = hipSuccess
            ∨ (api.hipFuncGetAttributes (api.hipFuncSetAttribute
              .hipFuncAttributeMaxDynamicSharedMemorySize 1024
              (api.hipFuncGetAttributes w).2).2).1.1 = hipErrorPeerAccessAlreadyEnabled := by
          by_contra hc
          exact c3 ⟨fun e => hc (Or.inl e), fun e => hc (Or.inr e)⟩
        by_cases c4 : (api.hipFuncGetAttributes w).1.2
            = (api.hipFuncGetAttributes (api.hipFuncSetAttribute
              .hipFuncAttributeMaxDynamicSharedMemorySize 1024
              (api.hipFuncGetAttributes w).2).2).1.2
        · simp [HIP_CHECK, statusOf, c3, p1, p3, c2, c4, Outcome.toResult, REQUIRE,
            TestResult.isCompleted]
        · simp [HIP_CHECK, statusOf, c3, c4, Outcome.toResult, REQUIRE,
            TestResult.isCompleted]
    · simp [HIP_CHECK_ERROR, c2, Outcome.toResult, TestResult.isCompleted]

/-- Witness of C26, amended: a runtime that rejects the change and reports
the same value before and after. -/
theorem not_supported_test_passes_iff_witness :
    (Unit_hipFuncSetAttribute_Positive_MaxDynamicSharedMemorySize_Not_Supported
        (constantFuncApi hipSuccess 0 hipErrorNotSupported) quietProcess).isCompleted = true
      ↔ (((hipSuccess : hipError_t) = hipSuccess
            ∨ (hipSuccess : hipError_t) = hipErrorPeerAccessAlreadyEnabled)
          ∧ (hipErrorNotSupported : hipError_t) = hipErrorNotSupported
          ∧ ((hipSuccess : hipError_t) = hipSuccess
            ∨ (hipSuccess : hipError_t) = hipErrorPeerAccessAlreadyEnabled)
          ∧ (0 : Int) = 0) :=
  not_supported_test_passes_iff (constantFuncApi hipSuccess 0 hipErrorNotSupported)
    quietProcess ((hipSuccess, 0), quietProcess) ((hipSuccess, 0), quietProcess)
    (hipErrorNotSupported, quietProcess) rfl rfl rfl

/-- C27, the code at the failing input: in the sections
"dst_ptr.pitch > max pitch" and "src_ptr.pitch > max pitch", when the
device reports the maximum pitch `maxPitch`, the pointer passed to the copy
has the pitch `maxPitch` itself (the code assigns `attr`, not a larger
value), so its pitch is not greater than the maximum; the other fields and
the other pointer are the valid ones. With the maximum 2147483647 the
pitch passed is 2147483647. -/
theorem pitch_passed_is_not_above_max_pitch (maxPitch : Nat) (copyStatus : hipError_t)
    (dst_ptr src_ptr : hipPitchedPtr) (dst_pos src_pos : hipPos) (extent : hipExtent)
    (kind : hipMemcpyKind) (log : List (hipPitchedPtr × hipPitchedPtr)) :
    (NegativeTests.dst_pitch_max (recordingCopy maxPitch copyStatus) dst_ptr dst_pos src_ptr
        src_pos extent kind log).state
      = log ++ [(⟨dst_ptr.ptr, maxPitch % 2 ^ 64, dst_ptr.xsize, dst_ptr.ysize⟩, src_ptr)]
    ∧ (NegativeTests.src_pitch_max (recordingCopy maxPitch copyStatus) dst_ptr dst_pos src_ptr
        src_pos extent kind log).state
      = log ++ [(dst_ptr, ⟨src_ptr.ptr, maxPitch % 2 ^ 64, src_ptr.xsize, src_ptr.ysize⟩)]
    ∧ ¬ (maxPitch % 2 ^ 64 > maxPitch)
    ∧ (NegativeTests.dst_pitch_max (recordingCopy 2147483647 hipSuccess) (validPointer 4096)
        ⟨0, 0, 0⟩ (validPointer 8192) ⟨0, 0, 0⟩ ⟨512, 128, 8⟩ .hipMemcpyDeviceToDevice []).state
      = [(⟨4096, 2147483647, 512, 128⟩, validPointer 8192)] := by
  have hcast : ((maxPitch : Int) % 2 ^ 64).toNat = maxPitch % 2 ^ 64 := by
    have : ((maxPitch : Int) % 2 ^ 64) = ((maxPitch % 2 ^ 64 : Nat) : Int) := by simp
    rw [this, Int.toNat_ofNat]
  refine ⟨?_, ?_, ?_, by decide⟩
  · have hcheck : HIP_CHECK 120 "hipMemcpy3D.cc"
        "hipDeviceGetAttribute(&attr, hipDeviceAttributeMaxPitch, 0)"
        (statusOf (recordingCopy (maxPitch : Int) copyStatus).maxPitch) log
        = .completed log := rfl
    unfold NegativeTests.dst_pitch_max
    rw [hcheck]
    simp only []
    rw [HIP_CHECK_ERROR_state]
    simp only [recordingCopy, hcast]
  · have hcheck : HIP_CHECK 129 "hipMemcpy3D.cc"
        "hipDeviceGetAttribute(&attr, hipDeviceAttributeMaxPitch, 0)"
        (statusOf (recordingCopy (maxPitch : Int) copyStatus).maxPitch) log
        = .completed log := rfl
    unfold NegativeTests.src_pitch_max
    rw [hcheck]
    simp only []
    rw [HIP_CHECK_ERROR_state]
    simp only [recordingCopy, hcast]
  · exact Nat.not_lt.2 (Nat.mod_le _ _)


/-! ## The coherency handshake -/

theorem kernelSteps_idle (n : Nat) (s : Shared) (h : s.kernel = .idle) :
    Shared.kernelSteps n s = s := by
  induction n with
  | zero => rfl
  | succ n ih =>
    have hs : s.kernelStep = s := by simp [Shared.kernelStep, h]
    simp [Shared.kernelSteps, hs, ih]

theorem kernelSteps_finished (n : Nat) (s : Shared) (h : s.kernel = .finished) :
    Shared.kernelSteps n s = s := by
  induction n with
  | zero => rfl
  | succ n ih =>
    have hs : s.kernelStep = s := by simp [Shared.kernelStep, h]
    simp [Shared.kernelSteps, hs, ih]

theorem scheduled_idle (s : Shared) (h : s.kernel = .idle) :
    s.scheduled = { s with plan := s.plan.tail } := by
  obtain ⟨value, kernel, plan, kernelWindow, writes, kernelReads⟩ := s
  cases plan with
  | nil => rfl
  | cons n rest => exact kernelSteps_idle n _ h

theorem kernelStep_Launched (s : Shared) (h : s.Launched) : s.kernelStep.Incremented := by
  obtain ⟨hr, ⟨kernel, hk, hl⟩, hv, hw⟩ := h
  cases kernel with
  | SquareKrnl => exact absurd rfl hk
  | CoherentTst =>
    simp [Shared.kernelStep, hl, Shared.Incremented, hv, hw, hr]
  | CoherentTst_gfx11 =>
    simp [Shared.kernelStep, hl, Shared.Incremented, hv, hw, hr]

theorem kernelStep_Incremented (s : Shared) (h : s.Incremented) :
    s.kernelStep.Incremented := by
  obtain ⟨hr, hk, hv, hw⟩ := h
  rcases hk with ⟨remaining, hk⟩ | hk
  · cases remaining with
    | zero => simp [Shared.kernelStep, hk, Shared.Incremented, hv, hw, hr]
    | succ k => simp [Shared.kernelStep, hk, Shared.Incremented, hv, hw, hr]
  · simp [Shared.kernelStep, hk, Shared.Incremented, hv, hw, hr]

theorem kernelSteps_Incremented (n : Nat) (s : Shared) (h : s.Incremented) :
    (Shared.kernelSteps n s).Incremented := by
  induction n generalizing s with
  | zero => exact h
  | succ n ih => exact ih _ (kernelStep_Incremented s h)

theorem kernelSteps_Launched (n : Nat) (s : Shared) (h : s.Launched) :
    (Shared.kernelSteps n s).Launched ∨ (Shared.kernelSteps n s).Incremented := by
  cases n with
  | zero => exact Or.inl h
  | succ n => exact Or.inr (kernelSteps_Incremented n _ (kernelStep_Launched s h))

theorem scheduled_Incremented (s : Shared) (h : s.Incremented) : s.scheduled.Incremented := by
  obtain ⟨value, kernel, plan, kernelWindow, writes, kernelReads⟩ := s
  cases plan with
  | nil => exact h
  | cons n rest => exact kernelSteps_Incremented n _ h

theorem scheduled_Launched (s : Shared) (h : s.Launched) :
    s.scheduled.Launched ∨ s.scheduled.Incremented := by
  obtain ⟨value, kernel, plan, kernelWindow, writes, kernelReads⟩ := s
  cases plan with
  | nil => exact Or.inl h
  | cons n rest => exact kernelSteps_Launched n _ h

theorem polling_runs_out (k : Nat) (s : Shared) (hk : s.kernel = .polling k)
    (hv : s.value ≠ 3) (hr : 3 ∉ s.kernelReads) :
    (Shared.kernelSteps (k + 1) s).kernel = .finished
      ∧ (Shared.kernelSteps (k + 1) s).value = s.value
      ∧ (Shared.kernelSteps (k + 1) s).writes = s.writes
      ∧ 3 ∉ (Shared.kernelSteps (k + 1) s).kernelReads := by
  induction k generalizing s with
  | zero =>
    simp [Shared.kernelSteps, Shared.kernelStep, hk, hr]
  | succ k ih =>
    have hstep : s.kernelStep
        = { s with kernel := .polling k, kernelReads := s.kernelReads ++ [s.value] } := by
      simp [Shared.kernelStep, hk, hv]
    have h := ih s.kernelStep (by rw [hstep]) (by rw [hstep]; exact hv)
      (by rw [hstep]; simp [hr]; exact fun e => hv e.symm)
    rw [hstep] at h
    rw [Shared.kernelSteps, hstep]
    exact h

theorem drain_Incremented (s : Shared) (h : s.Incremented) :
    s.drain.kernel = .finished ∧ s.drain.value = 2 ∧ s.drain.writes = [1, 2]
      ∧ 3 ∉ s.drain.kernelReads := by
  obtain ⟨hr, hk, hv, hw⟩ := h
  rcases hk with ⟨remaining, hk⟩ | hk
  · have h := polling_runs_out remaining s hk (by rw [hv]; decide) hr
    have hb : s.bound = remaining + 1 := by simp [Shared.bound, hk]
    rw [Shared.drain, hb]
    rw [hv, hw] at h
    exact h
  · have hb : s.bound = 0 := by simp [Shared.bound, hk]
    rw [Shared.drain, hb]
    exact ⟨hk, hv, hw, hr⟩

theorem drain_Launched (s : Shared) (h : s.Launched) :
    s.drain.kernel = .finished ∧ s.drain.value = 2 ∧ s.drain.writes = [1, 2]
      ∧ 3 ∉ s.drain.kernelReads := by
  have hinc := kernelStep_Launched s h
  obtain ⟨hr, ⟨kernel, hne, hl⟩, hv, hw⟩ := h
  have hb : s.bound = (s.kernelWindow + 1) + 1 := by simp [Shared.bound, hl]
  have hp : s.kernelStep.kernel = .polling s.kernelWindow := by
    cases kernel with
    | SquareKrnl => exact absurd rfl hne
    | CoherentTst => simp [Shared.kernelStep, hl]
    | CoherentTst_gfx11 => simp [Shared.kernelStep, hl]
  obtain ⟨hr1, -, hv1, hw1⟩ := hinc
  have h := polling_runs_out s.kernelWindow s.kernelStep hp (by rw [hv1]; decide) hr1
  rw [Shared.drain, hb, Shared.kernelSteps]
  rw [hv1, hw1] at h
  exact h

theorem drain_HostWrote (s : Shared) (h : s.HostWrote) :
    s.drain.kernel = .finished
      ∧ ((s.drain.value = 3 ∧ s.drain.writes = [1, 2, 3] ∧ 3 ∉ s.drain.kernelReads)
        ∨ (s.drain.value = 4 ∧ s.drain.writes = [1, 2, 3, 4] ∧ 3 ∈ s.drain.kernelReads)) := by
  obtain ⟨hr, hk, hv, hw⟩ := h
  rcases hk with ⟨remaining, hk⟩ | hk
  · have hb : s.bound = remaining + 1 := by simp [Shared.bound, hk]
    cases remaining with
    | zero =>
      rw [Shared.drain, hb]
      simp [Shared.kernelSteps, Shared.kernelStep, hk, hv, hw, hr]
    | succ k =>
      have hstep : s.kernelStep = { s with
          value := 4
          kernel := .finished
          writes := s.writes ++ [4]
          kernelReads := s.kernelReads ++ [3] } := by
        simp [Shared.kernelStep, hk, hv]
      rw [Shared.drain, hb, Shared.kernelSteps, hstep, kernelSteps_finished _ _ rfl]
      simp [hw]
  · have hb : s.bound = 0 := by simp [Shared.bound, hk]
    rw [Shared.drain, hb]
    exact ⟨hk, Or.inl ⟨hv, hw, hr⟩⟩


/-! ## Pieces of test bodies -/

theorem Prog.bind_apply {σ α β : Type} (x : Prog σ α) (f : α → Prog σ β) (w : σ) :
    (x >>= f) w
      = match x w with
        | .ok a w1 => f a w1
        | .raised a w1 => .raised a w1
        | .aborted w1 => .aborted w1 := rfl

theorem Prog.pure_apply {σ α : Type} (a : α) (w : σ) :
    (Pure.pure a : Prog σ α) w = .ok a w := rfl

theorem Machine.op_apply {μ : Type} (m : Machine μ) (op : Op) (w : TestState (World μ)) :
    m.op op w = .ok (m.call op w).1 (m.call op w).2 := rfl

theorem Machine.call_stdout {μ : Type} (m : Machine μ) (op : Op) (w : TestState (World μ)) :
    (m.call op w).2.stdout = w.stdout := rfl

theorem Machine.call_flag {μ : Type} (m : Machine μ) (op : Op) (w : TestState (World μ)) :
    (m.call op w).2.runtime.YES_COHERENT = w.runtime.YES_COHERENT := rfl

theorem Machine.call_warnings {μ : Type} (m : Machine μ) (op : Op) (w : TestState (World μ)) :
    (m.call op w).2.runtime.warnings = w.runtime.warnings := rfl

theorem Machine.call_trace {μ : Type} (m : Machine μ) (op : Op) (w : TestState (World μ)) :
    (m.call op w).2.runtime.trace = w.runtime.trace ++ [(op, (m.call op w).1)] := rfl

theorem Machine.call_machine {μ : Type} (m : Machine μ) (op : Op) (w : TestState (World μ)) :
    (m.call op w).2.runtime.machine = (m.perform op w.runtime.machine).2 := rfl

theorem Machine.call_answer {μ : Type} (m : Machine μ) (op : Op) (w : TestState (World μ)) :
    (m.call op w).1 = (m.perform op w.runtime.machine).1 := rfl

theorem Machine.HIP_CHECK_ok {μ : Type} (m : Machine μ) (hall : m.RuntimeSucceeds)
    (line : Nat) (file str : String) (op : Op) (w : TestState (World μ))
    (hop : op.isRuntimeCall = true) :
    m.HIP_CHECK line file str op w = .ok (m.call op w).1 (m.call op w).2 := by
  have h : (m.status op w).1 = hipSuccess := hall op w.runtime.machine hop
  have hc : HipTest.HIP_CHECK line file str (m.status op) w = .completed (m.call op w).2 := by
    unfold HipTest.HIP_CHECK
    simp only [h]
    simp [Machine.status]
  unfold Machine.HIP_CHECK
  rw [hc]
  rfl

theorem Machine.HIPCHECK_ok {μ : Type} (m : Machine μ) (hall : m.RuntimeSucceeds)
    (text : hipError_t → String) (line : Nat) (file str : String) (op : Op)
    (w : TestState (World μ)) (hop : op.isRuntimeCall = true) :
    m.HIPCHECK text line file str op w = .ok (m.call op w).1 (m.call op w).2 := by
  have h : (m.status op w).1 = hipSuccess := hall op w.runtime.machine hop
  have hc : HipTest.HIPCHECK text line file str (m.status op) w
      = .completed (m.call op w).2 := by
    unfold HipTest.HIPCHECK
    simp only [h]
    simp [Machine.status]
  unfold Machine.HIPCHECK
  rw [hc]
  rfl

theorem IsGfx11_ok {μ : Type} (m : Machine μ) (w : TestState (World μ))
    (hall : m.RuntimeSucceeds) :
    IsGfx11 m w
      = .ok (strstr (m.call (.hipGetDeviceProperties (m.call .hipGetDevice w).1.out)
            (m.call .hipGetDevice w).2).1.name "gfx11").isSome
          (m.call (.hipGetDeviceProperties (m.call .hipGetDevice w).1.out)
            (m.call .hipGetDevice w).2).2 := by
  unfold IsGfx11
  simp only [Prog.bind_apply, Machine.HIP_CHECK_ok m hall, Op.isRuntimeCall]
  split
  · rename_i h
    rw [h]
    rfl
  · rename_i h
    rw [Bool.not_eq_true] at h
    rw [h]
    rfl


theorem Prog.ite_apply {σ α : Type} (c : Prop) [Decidable c] (x y : Prog σ α) (w : σ) :
    (if c then x else y) w = if c then x w else y w := by
  split <;> rfl

theorem lastLoad_concat (trace : List (Op × Answer)) (Ptr : Int) (a : Answer) :
    lastLoad (trace ++ [(Op.load Ptr, a)]) = some a.out := by
  simp [lastLoad, List.filter_append, Op.isLoad]

theorem lastLoad_concat_other (trace : List (Op × Answer)) (op : Op) (a : Answer)
    (h : op.isLoad = false) : lastLoad (trace ++ [(op, a)]) = lastLoad trace := by
  simp [lastLoad, List.filter_append, h]

theorem Prog.Ensures.bind {σ α β : Type} {P : σ → Prop} {x : Prog σ α} {Q : α → σ → Prop}
    {f : α → Prog σ β} {R : β → σ → Prop} (hx : Prog.Ensures P x Q)
    (hf : ∀ a, Prog.Ensures (Q a) (f a) R) : Prog.Ensures P (x >>= f) R := by
  intro w hw
  obtain ⟨a, w1, h1, hq⟩ := hx w hw
  obtain ⟨b, w2, h2, hr⟩ := hf a w1 hq
  exact ⟨b, w2, by rw [Prog.bind_apply, h1]; exact h2, hr⟩

theorem Prog.Ensures.pure {σ α : Type} {P : σ → Prop} (a : α) {Q : α → σ → Prop}
    (h : ∀ w, P w → Q a w) : Prog.Ensures P (Pure.pure a : Prog σ α) Q :=
  fun w hw => ⟨a, w, rfl, h w hw⟩

theorem Prog.Ensures.ite {σ α : Type} {P : σ → Prop} {c : Prop} [Decidable c]
    {x y : Prog σ α} {Q : α → σ → Prop} (hx : c → Prog.Ensures P x Q)
    (hy : ¬ c → Prog.Ensures P y Q) : Prog.Ensures P (if c then x else y) Q := by
  split
  · rename_i h
    exact hx h
  · rename_i h
    exact hy h

theorem Prog.Ensures.weaken {σ α : Type} {P P1 : σ → Prop} {x : Prog σ α}
    {Q Q1 : α → σ → Prop} (hx : Prog.Ensures P1 x Q1) (hp : ∀ w, P w → P1 w)
    (hq : ∀ a w, Q1 a w → Q a w) : Prog.Ensures P x Q := by
  intro w hw
  obtain ⟨a, w1, h1, h2⟩ := hx w (hp w hw)
  exact ⟨a, w1, h1, hq a w1 h2⟩

theorem Machine.op_ensures {μ : Type} (m : Machine μ) (op : Op)
    {P : TestState (World μ) → Prop} {Q : Answer → TestState (World μ) → Prop}
    (h : ∀ w, P w → Q (m.call op w).1 (m.call op w).2) : Prog.Ensures P (m.op op) Q :=
  fun w hw => ⟨_, _, rfl, h w hw⟩

theorem Machine.HIP_CHECK_ensures {μ : Type} (m : Machine μ) (hall : m.RuntimeSucceeds)
    (line : Nat) (file str : String) (op : Op) (hop : op.isRuntimeCall = true)
    {P : TestState (World μ) → Prop} {Q : Answer → TestState (World μ) → Prop}
    (h : ∀ w, P w → Q (m.call op w).1 (m.call op w).2) :
    Prog.Ensures P (m.HIP_CHECK line file str op) Q :=
  fun w hw => ⟨_, _, Machine.HIP_CHECK_ok m hall line file str op w hop, h w hw⟩

theorem Machine.HIPCHECK_ensures {μ : Type} (m : Machine μ) (hall : m.RuntimeSucceeds)
    (text : hipError_t → String) (line : Nat) (file str : String) (op : Op)
    (hop : op.isRuntimeCall = true)
    {P : TestState (World μ) → Prop} {Q : Answer → TestState (World μ) → Prop}
    (h : ∀ w, P w → Q (m.call op w).1 (m.call op w).2) :
    Prog.Ensures P (m.HIPCHECK text line file str op) Q :=
  fun w hw => ⟨_, _, Machine.HIPCHECK_ok m hall text line file str op w hop, h w hw⟩

theorem IsGfx11_keeps {μ : Type} (m : Machine μ) (hall : m.RuntimeSucceeds)
    {I : TestState (World μ) → Prop}
    (h : ∀ op w, op.isRuntimeCall = true → op.isSync = false → I w → I (m.call op w).2) :
    Prog.Keeps I (IsGfx11 m) := by
  intro w hw
  exact ⟨_, _, IsGfx11_ok m w hall, h _ _ rfl rfl (h _ _ rfl rfl hw)⟩

theorem Since.step {μ : Type} (m : Machine μ) (op : Op) {flag : Bool}
    {trace : List (Op × Answer)} {w : TestState (World μ)} (h : Since flag trace w) :
    Since flag trace (m.call op w).2 := by
  obtain ⟨hf, ext, he⟩ := h
  exact ⟨hf, ext ++ [(op, (m.call op w).1)], by
    rw [Machine.call_trace, he, List.append_assoc]⟩

theorem hostLoop_since {μ : Type} (m : Machine μ) (Ptr : Int) (window : Nat) (flag : Bool)
    (trace : List (Op × Answer)) :
    Prog.Keeps (Since flag trace) (hostLoop m Ptr window) := by
  induction window with
  | zero => exact Prog.Ensures.pure () fun _ h => h
  | succ n ih =>
    unfold hostLoop
    refine Prog.Ensures.bind (Q := fun _ => Since flag trace)
      (m.op_ensures _ fun w h => h.step m _) fun v => ?_
    refine Prog.Ensures.ite (fun _ => ?_) (fun _ => ih)
    refine Prog.Ensures.bind (Q := fun _ => Since flag trace)
      (m.op_ensures _ fun w h => h.step m _) fun v1 => ?_
    refine Prog.Ensures.bind (Q := fun _ => Since flag trace)
      (m.op_ensures _ fun w h => h.step m _) fun _ => ?_
    exact Prog.Ensures.pure () fun _ h => h

theorem TstCoherency_launch_ensures {μ : Type} (m : Machine μ) (hall : m.RuntimeSucceeds)
    (text : hipError_t → String) (Ptr : Int) (HmmMem : Bool)
    (I0 I1 I2 : TestState (World μ) → Prop)
    (h0 : ∀ op w, op.isRuntimeCall = true → op.touchesInteger = false → I0 w →
      I0 (m.call op w).2)
    (hstore : ∀ w, I0 w → I1 (m.call (.store Ptr 1) w).2)
    (h1 : ∀ op w, op.isRuntimeCall = true → op.touchesInteger = false → I1 w →
      I1 (m.call op w).2)
    (hlaunch : ∀ kernel strm args w, kernel ≠ Kernel.SquareKrnl → I1 w →
      I2 (m.call (.launch kernel strm args) w).2) :
    Prog.Ensures I0 (TstCoherency.launch m text Ptr HmmMem) fun _ => I2 := by
  have hgfx : Prog.Ensures I1 (IsGfx11 m) fun _ => I1 := by
    intro w hw
    exact ⟨_, _, IsGfx11_ok m w hall, h1 _ _ rfl rfl (h1 _ _ rfl rfl hw)⟩
  have hstart : ∀ (kernel : Kernel) (strm : Int) (args : List Int) (out : Int),
      kernel ≠ Kernel.SquareKrnl →
      Prog.Ensures I1 (do
        let _ ← m.op (.launch kernel strm args)
        Pure.pure PUnit.unit
        Pure.pure out) fun _ => I2 := by
    intro kernel strm args out hk
    refine Prog.Ensures.bind (Q := fun _ => I2)
      (m.op_ensures _ fun w h => hlaunch _ _ _ w hk h) fun _ => ?_
    refine Prog.Ensures.bind (Q := fun _ => I2) (Prog.Ensures.pure _ fun _ h => h) fun _ => ?_
    exact Prog.Ensures.pure _ fun _ h => h
  have hkernel : ∀ (strm y : Answer),
      Prog.Ensures I1 (if (!HmmMem) = true then do
          let Dptr ← m.HIP_CHECK 92 coherencyFile
            "hipHostGetDevicePointer(reinterpret_cast<void **>(&Dptr), Ptr, 0)"
            (.hipHostGetDevicePointer Ptr)
          let gfx11 ← IsGfx11 m
          if gfx11 = true then do
            let _ ← m.op (.launch .CoherentTst_gfx11 strm.out [Dptr.out, y.out])
            Pure.pure PUnit.unit
            Pure.pure strm.out
          else do
            let _ ← m.op (.launch .CoherentTst strm.out [Dptr.out, y.out])
            Pure.pure PUnit.unit
            Pure.pure strm.out
        else do
          let gfx11 ← IsGfx11 m
          if gfx11 = true then do
            let _ ← m.op (.launch .CoherentTst_gfx11 strm.out [Ptr, y.out])
            Pure.pure PUnit.unit
            Pure.pure strm.out
          else do
            let _ ← m.op (.launch .CoherentTst strm.out [Ptr, y.out])
            Pure.pure PUnit.unit
            Pure.pure strm.out) fun _ => I2 := by
    intro strm y
    refine Prog.Ensures.ite (fun _ => ?_) (fun _ => ?_)
    · refine Prog.Ensures.bind (Q := fun _ => I1)
        (m.HIP_CHECK_ensures hall _ _ _ _ (by rfl) fun w h => h1 _ w rfl rfl h) fun Dptr => ?_
      refine Prog.Ensures.bind (Q := fun _ => I1) hgfx fun gfx11 => ?_
      exact Prog.Ensures.ite (fun _ => hstart _ _ _ _ (by decide))
        (fun _ => hstart _ _ _ _ (by decide))
    · refine Prog.Ensures.bind (Q := fun _ => I1) hgfx fun gfx11 => ?_
      exact Prog.Ensures.ite (fun _ => hstart _ _ _ _ (by decide))
        (fun _ => hstart _ _ _ _ (by decide))
  unfold TstCoherency.launch
  dsimp only
  refine Prog.Ensures.bind (Q := fun _ => I0)
    (m.HIP_CHECK_ensures hall _ _ _ _ (by rfl) fun w h => h0 _ w rfl rfl h) fun strm => ?_
  refine Prog.Ensures.bind (Q := fun _ => I1) (m.op_ensures _ fun w h => hstore w h) fun _ => ?_
  refine Prog.Ensures.bind (Q := fun _ => I1) hgfx fun gfx11 => ?_
  refine Prog.Ensures.ite (fun _ => ?_) (fun _ => ?_)
  · exact Prog.Ensures.bind (Q := fun _ => I1)
      (m.HIPCHECK_ensures hall _ _ _ _ _ (by rfl) fun w h => h1 _ w rfl rfl h)
      fun y => hkernel strm y
  · exact Prog.Ensures.bind (Q := fun _ => I1)
      (m.HIPCHECK_ensures hall _ _ _ _ _ (by rfl) fun w h => h1 _ w rfl rfl h)
      fun y => hkernel strm y

theorem TstCoherency_launch_since {μ : Type} (m : Machine μ) (hall : m.RuntimeSucceeds)
    (text : hipError_t → String) (Ptr : Int) (HmmMem : Bool) (flag : Bool)
    (trace : List (Op × Answer)) :
    Prog.Keeps (Since flag trace) (TstCoherency.launch m text Ptr HmmMem) :=
  TstCoherency_launch_ensures m hall text Ptr HmmMem _ _ _
    (fun op _ _ _ h => h.step m op) (fun _ h => h.step m _)
    (fun op _ _ _ h => h.step m op) (fun _ _ _ _ _ h => h.step m _)


/-! ## The handshake on the shared integer -/

theorem scMachine_succeeds (arch : String) (forked : Int) :
    (scMachine arch forked).RuntimeSucceeds := by
  intro op s _
  cases op <;> rfl

theorem scMachine_neutral (arch : String) (forked : Int) (op : Op) (s : Shared)
    (h : op.touchesInteger = false) : ((scMachine arch forked).perform op s).2 = s := by
  cases op <;> first | rfl | simp [Op.touchesInteger] at h

theorem Op.neutral_not_sync (op : Op) (h : op.touchesInteger = false) : op.isSync = false := by
  cases op <;> first | rfl | simp [Op.touchesInteger] at h

theorem Op.neutral_not_load (op : Op) (h : op.touchesInteger = false) : op.isLoad = false := by
  cases op <;> first | rfl | simp [Op.touchesInteger] at h

theorem NoSync.concat {trace : List (Op × Answer)} (h : NoSync trace) (op : Op) (a : Answer)
    (hop : op.isSync = false) : NoSync (trace ++ [(op, a)]) := by
  intro e he
  rcases List.mem_append.1 he with h1 | h1
  · exact h e h1
  · rw [List.mem_singleton.1 h1]
    exact hop

theorem loadsBeforeSync_append (trace ext : List (Op × Answer)) (h : NoSync trace) :
    loadsBeforeSync (trace ++ ext) = loadsBeforeSync trace ++ loadsBeforeSync ext := by
  induction trace with
  | nil => rfl
  | cons e rest ih =>
    have hrest : NoSync rest := fun x hx => h x (List.mem_cons_of_mem _ hx)
    have he : e.1.isSync = false := h e (List.mem_cons_self _ _)
    obtain ⟨op, a⟩ := e
    cases op <;>
      first
      | (simp [Op.isSync] at he; done)
      | simp [loadsBeforeSync, ih hrest]

theorem loadsBeforeSync_concat_load (trace : List (Op × Answer)) (h : NoSync trace)
    (Ptr : Int) (a : Answer) :
    loadsBeforeSync (trace ++ [(Op.load Ptr, a)]) = loadsBeforeSync trace ++ [a.out] := by
  rw [loadsBeforeSync_append _ _ h]
  rfl

theorem loadsBeforeSync_concat_other (trace : List (Op × Answer)) (h : NoSync trace)
    (op : Op) (a : Answer) (hop : op.isLoad = false) :
    loadsBeforeSync (trace ++ [(op, a)]) = loadsBeforeSync trace := by
  rw [loadsBeforeSync_append _ _ h]
  cases op <;> first | (simp [Op.isLoad] at hop; done) | simp [loadsBeforeSync]

theorem loadsBeforeSync_sync (trace rest : List (Op × Answer)) (h : NoSync trace)
    (strm : Int) (a : Answer) :
    loadsBeforeSync (trace ++ (Op.hipStreamSynchronize strm, a) :: rest)
      = loadsBeforeSync trace := by
  rw [loadsBeforeSync_append _ _ h]
  simp [loadsBeforeSync]

theorem scheduled_finished (s : Shared) (h : s.kernel = .finished) :
    s.scheduled = { s with plan := s.plan.tail } := by
  obtain ⟨value, kernel, plan, kernelWindow, writes, kernelReads⟩ := s
  cases plan with
  | nil => rfl
  | cons n rest => exact kernelSteps_finished n _ h


theorem TstCoherency_verdict_ok {μ : Type} (m : Machine μ) (hall : m.RuntimeSucceeds)
    (Ptr strm : Int) (w : TestState (World μ)) :
    TstCoherency.verdict m Ptr strm w
      = .ok ()
          (if (m.call (.load Ptr) (m.call (.hipStreamDestroy strm)
              (m.call (.hipStreamSynchronize strm) w).2).2).1.out = 4 then
            { (m.call (.load Ptr) (m.call (.hipStreamDestroy strm)
                (m.call (.hipStreamSynchronize strm) w).2).2).2 with
              runtime := { (m.call (.load Ptr) (m.call (.hipStreamDestroy strm)
                (m.call (.hipStreamSynchronize strm) w).2).2).2.runtime with
                  YES_COHERENT := true } }
          else
            (m.call (.load Ptr) (m.call (.hipStreamDestroy strm)
              (m.call (.hipStreamSynchronize strm) w).2).2).2) := by
  unfold TstCoherency.verdict
  simp only [Prog.bind_apply, Machine.HIP_CHECK_ok m hall, Machine.op_apply, Op.isRuntimeCall,
    Prog.ite_apply]
  split <;> rfl

theorem Quiet.neutral (arch : String) (forked : Int) (op : Op) {flag : Bool}
    {w : TestState (World Shared)} (hop : op.touchesInteger = false) (h : Quiet flag w) :
    Quiet flag ((scMachine arch forked).call op w).2 := by
  obtain ⟨hf, hn, hl, hk, hw, hr⟩ := h
  have hm : ((scMachine arch forked).call op w).2.runtime.machine = w.runtime.machine :=
    scMachine_neutral arch forked op _ hop
  refine ⟨hf, hn.concat _ _ (Op.neutral_not_sync op hop), ?_, ?_, ?_, ?_⟩
  · rw [Machine.call_trace, loadsBeforeSync_concat_other _ hn _ _ (Op.neutral_not_load op hop)]
    exact hl
  · rw [hm]; exact hk
  · rw [hm]; exact hw
  · rw [hm]; exact hr

theorem Stored.unchanged (arch : String) (forked : Int) (op : Op) {flag : Bool}
    {w : TestState (World Shared)} (hop : op.touchesInteger = false) (h : Stored flag w) :
    Stored flag ((scMachine arch forked).call op w).2 := by
  obtain ⟨hf, hn, hl, hk, hv, hw, hr⟩ := h
  have hm : ((scMachine arch forked).call op w).2.runtime.machine = w.runtime.machine :=
    scMachine_neutral arch forked op _ hop
  refine ⟨hf, hn.concat _ _ (Op.neutral_not_sync op hop), ?_, ?_, ?_, ?_, ?_⟩
  · rw [Machine.call_trace, loadsBeforeSync_concat_other _ hn _ _ (Op.neutral_not_load op hop)]
    exact hl
  · rw [hm]; exact hk
  · rw [hm]; exact hv
  · rw [hm]; exact hw
  · rw [hm]; exact hr

theorem Quiet.store (arch : String) (forked : Int) (Ptr : Int) {flag : Bool}
    {w : TestState (World Shared)} (h : Quiet flag w) :
    Stored flag ((scMachine arch forked).call (.store Ptr 1) w).2 := by
  obtain ⟨hf, hn, hl, hk, hw, hr⟩ := h
  have hm : ((scMachine arch forked).call (.store Ptr 1) w).2.runtime.machine
      = { w.runtime.machine.scheduled with
          value := 1, writes := w.runtime.machine.scheduled.writes ++ [1] } := rfl
  have hs := scheduled_idle w.runtime.machine hk
  refine ⟨hf, hn.concat _ _ rfl, ?_, ?_, ?_, ?_, ?_⟩
  · rw [Machine.call_trace, loadsBeforeSync_concat_other _ hn _ _ (by rfl)]
    exact hl
  · rw [hm, hs]; exact hk
  · rw [hm]
  · rw [hm, hs]; simp [hw]
  · rw [hm, hs]; exact hr

theorem Stored.launch (arch : String) (forked : Int) (kernel : Kernel) (strm : Int)
    (args : List Int) {flag : Bool} {w : TestState (World Shared)}
    (hkernel : kernel ≠ Kernel.SquareKrnl) (h : Stored flag w) :
    Waiting flag ((scMachine arch forked).call (.launch kernel strm args) w).2 := by
  obtain ⟨hf, hn, hl, hk, hv, hw, hr⟩ := h
  refine ⟨hf, hn.concat _ _ rfl, ?_, Or.inl ⟨?_, ⟨kernel, hkernel, rfl⟩, hv, hw⟩⟩
  · rw [Machine.call_trace, loadsBeforeSync_concat_other _ hn _ _ (by rfl), hl]
    simp
  · show 3 ∉ w.runtime.machine.kernelReads
    rw [hr]
    simp

theorem TstCoherency_launch_sc (arch : String) (forked : Int) (text : hipError_t → String)
    (Ptr : Int) (HmmMem : Bool) (flag : Bool) :
    Prog.Ensures (Quiet flag) (TstCoherency.launch (scMachine arch forked) text Ptr HmmMem)
      fun _ => Waiting flag :=
  TstCoherency_launch_ensures _ (scMachine_succeeds arch forked) text Ptr HmmMem _ _ _
    (fun op _ _ hop h => h.neutral arch forked op hop) (fun _ h => h.store arch forked Ptr)
    (fun op _ _ hop h => h.unchanged arch forked op hop)
    (fun kernel strm args _ hk h => h.launch arch forked kernel strm args hk)


theorem hostLoop_sc (arch : String) (forked : Int) (Ptr : Int) (flag : Bool) (window : Nat) :
    Prog.Ensures (Waiting flag) (hostLoop (scMachine arch forked) Ptr window)
      fun _ w => Waiting flag w ∨ Answered flag w := by
  induction window with
  | zero => exact Prog.Ensures.pure () fun _ h => Or.inl h
  | succ n ih =>
    unfold hostLoop
    refine Prog.Ensures.bind
      (Q := fun v w => w.runtime.YES_COHERENT = flag ∧ NoSync w.runtime.trace
        ∧ (w.runtime.machine.Launched ∨ w.runtime.machine.Incremented)
        ∧ v.out = w.runtime.machine.value
        ∧ (2 ∈ loadsBeforeSync w.runtime.trace ↔ v.out = 2))
      (Machine.op_ensures _ _ fun w h => ?_) fun v => ?_
    · obtain ⟨hf, hn, hl, hm⟩ := h
      refine ⟨hf, hn.concat _ _ rfl, ?_, rfl, ?_⟩
      · rcases hm with hm | hm
        · exact scheduled_Launched _ hm
        · exact Or.inr (scheduled_Incremented _ hm)
      · rw [Machine.call_trace, loadsBeforeSync_concat_load _ hn]
        simp only [List.mem_append, List.mem_singleton]
        constructor
        · rintro (h2 | h2)
          · exact absurd h2 hl
          · exact h2.symm
        · intro h2
          exact Or.inr h2.symm
    · refine Prog.Ensures.ite (fun hv => ?_) (fun hv => ?_)
      · refine Prog.Ensures.bind
          (Q := fun v1 w => w.runtime.YES_COHERENT = flag ∧ NoSync w.runtime.trace
            ∧ 2 ∈ loadsBeforeSync w.runtime.trace ∧ w.runtime.machine.Incremented
            ∧ v1.out = 2)
          (Machine.op_ensures _ _ fun w h => ?_) fun v1 => ?_
        · obtain ⟨hf, hn, hm, hval, hl⟩ := h
          have hinc : w.runtime.machine.Incremented := by
            rcases hm with hm | hm
            · have h1 : w.runtime.machine.value = 1 := hm.2.2.1
              rw [hv, h1] at hval
              exact absurd hval (by decide)
            · exact hm
          have hs := scheduled_Incremented _ hinc
          refine ⟨hf, hn.concat _ _ rfl, ?_, hs, hs.2.2.1⟩
          rw [Machine.call_trace, loadsBeforeSync_concat_load _ hn]
          exact List.mem_append_left _ (hl.2 hv)
        · refine Prog.Ensures.bind (Q := fun _ w => Answered flag w)
            (Machine.op_ensures _ _ fun w h => ?_) fun _ =>
              Prog.Ensures.pure () fun _ h => Or.inr h
          obtain ⟨hf, hn, hl, hinc, hval⟩ := h
          obtain ⟨hr, hk, -, hw⟩ := scheduled_Incremented _ hinc
          refine ⟨hf, hn.concat _ _ rfl, ?_, hr, hk, ?_, ?_⟩
          · rw [Machine.call_trace, loadsBeforeSync_concat_other _ hn _ _ (by rfl)]
            exact hl
          · show v1.out + 1 = 3
            rw [hval]
            rfl
          · show w.runtime.machine.scheduled.writes ++ [v1.out + 1] = [1, 2, 3]
            rw [hw, hval]
            rfl
      · refine Prog.Ensures.weaken ih (fun w h => ?_) (fun _ _ h => h)
        obtain ⟨hf, hn, hm, -, hl⟩ := h
        exact ⟨hf, hn, fun h2 => hv (hl.1 h2), hm⟩

theorem TstCoherency_verdict_sc (arch : String) (forked : Int) (Ptr strm : Int)
    (flag : Bool) :
    Prog.Ensures (fun w => Waiting flag w ∨ Answered flag w)
      (TstCoherency.verdict (scMachine arch forked) Ptr strm) fun _ => Settled flag := by
  intro w hw
  refine ⟨(), _, TstCoherency_verdict_ok _ (scMachine_succeeds arch forked) Ptr strm w, ?_⟩
  have hn : NoSync w.runtime.trace := by
    rcases hw with h | h
    · exact h.2.1
    · exact h.2.1
  have hf : w.runtime.YES_COHERENT = flag := by
    rcases hw with h | h
    · exact h.1
    · exact h.1
  have hfin : w.runtime.machine.drain.kernel = .finished := by
    rcases hw with h | h
    · rcases h.2.2.2 with hm | hm
      · exact (drain_Launched _ hm).1
      · exact (drain_Incremented _ hm).1
    · exact (drain_HostWrote _ h.2.2.2).1
  have hsched := scheduled_finished _ hfin
  have hmachine : ((scMachine arch forked).call (.load Ptr) ((scMachine arch forked).call
      (.hipStreamDestroy strm) ((scMachine arch forked).call (.hipStreamSynchronize strm)
        w).2).2).2.runtime.machine = w.runtime.machine.drain.scheduled := rfl
  have hout : ((scMachine arch forked).call (.load Ptr) ((scMachine arch forked).call
      (.hipStreamDestroy strm) ((scMachine arch forked).call (.hipStreamSynchronize strm)
        w).2).2).1.out = w.runtime.machine.drain.scheduled.value := rfl
  have hloads : loadsBeforeSync ((scMachine arch forked).call (.load Ptr)
      ((scMachine arch forked).call (.hipStreamDestroy strm) ((scMachine arch forked).call
        (.hipStreamSynchronize strm) w).2).2).2.runtime.trace
      = loadsBeforeSync w.runtime.trace := by
    simp only [Machine.call_trace, List.append_assoc, List.singleton_append]
    exact loadsBeforeSync_sync _ _ hn _ _
  have hlast : lastLoad ((scMachine arch forked).call (.load Ptr)
      ((scMachine arch forked).call (.hipStreamDestroy strm) ((scMachine arch forked).call
        (.hipStreamSynchronize strm) w).2).2).2.runtime.trace
      = some w.runtime.machine.drain.scheduled.value := by
    rw [Machine.call_trace, lastLoad_concat]
    rfl
  have hvalue : w.runtime.machine.drain.scheduled.value = w.runtime.machine.drain.value := by
    rw [hsched]
  have hwrites : w.runtime.machine.drain.scheduled.writes = w.runtime.machine.drain.writes := by
    rw [hsched]
  have hreads : w.runtime.machine.drain.scheduled.kernelReads
      = w.runtime.machine.drain.kernelReads := by
    rw [hsched]
  have hkernel : w.runtime.machine.drain.scheduled.kernel = .finished := by
    rw [hsched]
    exact hfin
  have hclass :
      (w.runtime.machine.drain.value = 2 ∧ w.runtime.machine.drain.writes = [1, 2]
          ∧ 2 ∉ loadsBeforeSync w.runtime.trace ∧ 3 ∉ w.runtime.machine.drain.kernelReads)
      ∨ (w.runtime.machine.drain.value = 3 ∧ w.runtime.machine.drain.writes = [1, 2, 3]
          ∧ 2 ∈ loadsBeforeSync w.runtime.trace ∧ 3 ∉ w.runtime.machine.drain.kernelReads)
      ∨ (w.runtime.machine.drain.value = 4 ∧ w.runtime.machine.drain.writes = [1, 2, 3, 4]
          ∧ 2 ∈ loadsBeforeSync w.runtime.trace ∧ 3 ∈ w.runtime.machine.drain.kernelReads) := by
    rcases hw with h | h
    · have hd : w.runtime.machine.drain.kernel = .finished
          ∧ w.runtime.machine.drain.value = 2 ∧ w.runtime.machine.drain.writes = [1, 2]
          ∧ 3 ∉ w.runtime.machine.drain.kernelReads := by
        rcases h.2.2.2 with hm | hm
        · exact drain_Launched _ hm
        · exact drain_Incremented _ hm
      exact Or.inl ⟨hd.2.1, hd.2.2.1, h.2.2.1, hd.2.2.2⟩
    · rcases (drain_HostWrote _ h.2.2.2).2 with hd | hd
      · exact Or.inr (Or.inl ⟨hd.1, hd.2.1, h.2.2.1, hd.2.2⟩)
      · exact Or.inr (Or.inr ⟨hd.1, hd.2.1, h.2.2.1, hd.2.2⟩)
  rw [hout, hvalue]
  by_cases h4 : w.runtime.machine.drain.value = 4
  · rw [if_pos h4]
    refine ⟨hkernel, ?_, Or.inr (Or.inr ?_)⟩
    · show lastLoad _ = some w.runtime.machine.drain.scheduled.value
      exact hlast
    · rcases hclass with hc | hc | hc
      · rw [hc.1] at h4
        exact absurd h4 (by decide)
      · rw [hc.1] at h4
        exact absurd h4 (by decide)
      · refine ⟨?_, ?_, ?_, ?_, rfl⟩
        · show w.runtime.machine.drain.scheduled.value = 4
          rw [hvalue]; exact hc.1
        · show w.runtime.machine.drain.scheduled.writes = [1, 2, 3, 4]
          rw [hwrites]; exact hc.2.1
        · show 2 ∈ loadsBeforeSync _
          rw [hloads]; exact hc.2.2.1
        · show 3 ∈ w.runtime.machine.drain.scheduled.kernelReads
          rw [hreads]; exact hc.2.2.2
  · rw [if_neg h4]
    refine ⟨hkernel, hlast, ?_⟩
    rw [hmachine, hloads, hvalue, hwrites, hreads]
    rcases hclass with hc | hc | hc
    · exact Or.inl ⟨hc.1, hc.2.1, hc.2.2.1, hc.2.2.2, hf⟩
    · exact Or.inr (Or.inl ⟨hc.1, hc.2.1, hc.2.2.1, hc.2.2.2, hf⟩)
    · exact absurd hc.1 h4

theorem TstCoherency_sc (arch : String) (forked : Int) (text : hipError_t → String)
    (Ptr : Int) (HmmMem : Bool) (window : Nat) (flag : Bool) :
    Prog.Ensures (Quiet flag) (TstCoherency (scMachine arch forked) text Ptr HmmMem window)
      fun _ => Settled flag := by
  unfold TstCoherency
  refine Prog.Ensures.bind (TstCoherency_launch_sc arch forked text Ptr HmmMem flag)
    fun strm => ?_
  refine Prog.Ensures.bind (hostLoop_sc arch forked Ptr flag window) fun _ => ?_
  exact TstCoherency_verdict_sc arch forked Ptr strm flag


theorem handshakeRun_forgets_value (arch : String) (forked : Int)
    (text : hipError_t → String) (Ptr : Int) (HmmMem : Bool) (window kernelWindow : Nat)
    (plan : List Nat) (before other : Int) (flag : Bool) :
    handshakeRun arch forked text Ptr HmmMem window kernelWindow plan other flag
      = handshakeRun arch forked text Ptr HmmMem window kernelWindow plan before flag := by
  have hcreate : ∀ value : Int, ((scMachine arch forked).call .hipStreamCreate
      (startAt flag (sharedAt value plan kernelWindow))).1 = ⟨hipSuccess, 0, ""⟩ :=
    fun _ => rfl
  have hstored : ∀ value : Int, ((scMachine arch forked).call (.store Ptr 1)
      ((scMachine arch forked).call .hipStreamCreate
        (startAt flag (sharedAt value plan kernelWindow))).2).2
      = ⟨"", ⟨flag, [], [(.hipStreamCreate, ⟨hipSuccess, 0, ""⟩),
          (.store Ptr 1, ⟨hipSuccess, 0, ""⟩)],
          ⟨1, .idle, plan.tail, kernelWindow, [1], []⟩⟩⟩ := by
    intro value
    have hs := scheduled_idle (sharedAt value plan kernelWindow) rfl
    show (⟨"", ⟨flag, [], [(.hipStreamCreate, ⟨hipSuccess, 0, ""⟩),
          (.store Ptr 1, ⟨hipSuccess, 0, ""⟩)],
          { (sharedAt value plan kernelWindow).scheduled with
            value := 1
            writes := (sharedAt value plan kernelWindow).scheduled.writes ++ [1] }⟩⟩ :
        TestState (World Shared)) = _
    rw [hs]
    rfl
  have hall := scMachine_succeeds arch forked
  unfold handshakeRun TstCoherency TstCoherency.launch
  simp only [Prog.bind_apply, Machine.HIP_CHECK_ok _ hall, Machine.op_apply, Op.isRuntimeCall,
    hcreate, hstored]


theorem Quiet.start (flag : Bool) (value : Int) (plan : List Nat) (kernelWindow : Nat) :
    Quiet flag (startAt flag (sharedAt value plan kernelWindow)) :=
  ⟨rfl, fun _ he => absurd he (List.not_mem_nil _), rfl, rfl, rfl, rfl⟩

/-- C29: the coherency handshake of `TstCoherency` with the kernel
`CoherentTst` over a sequentially consistent shared integer. For every
schedule `plan` of host and kernel steps, every window of the host
(`window`) and of the kernel (`kernelWindow`), both values of `HmmMem`, every
architecture name and every value `before` of the integer, `TstCoherency`
returns; the values stored in the integer during the call are 1, 2, then
possibly 3, then possibly 4, in that order; its final value, which is the
last value the host reads, is 2, 3 or 4; it is 4 exactly when the host read
2 in its loop and the kernel read 3; `YES_COHERENT` is set to true in that
case and keeps its value otherwise; and the run is the same for every other
value of the integer before the call. -/
theorem handshake_reaches_four_iff_both_observed (arch : String) (forked : Int)
    (text : hipError_t → String) (Ptr : Int) (HmmMem : Bool) (window kernelWindow : Nat)
    (plan : List Nat) (before other : Int) (flag : Bool) :
    (handshakeRun arch forked text Ptr HmmMem window kernelWindow plan before flag).isOk = true
    ∧ ((handshakeRun arch forked text Ptr HmmMem window kernelWindow plan before
          flag).state.runtime.machine.writes = [1, 2]
      ∨ (handshakeRun arch forked text Ptr HmmMem window kernelWindow plan before
          flag).state.runtime.machine.writes = [1, 2, 3]
      ∨ (handshakeRun arch forked text Ptr HmmMem window kernelWindow plan before
          flag).state.runtime.machine.writes = [1, 2, 3, 4])
    ∧ (handshakeRun arch forked text Ptr HmmMem window kernelWindow plan before
          flag).state.runtime.machine.writes.getLast?
        = some (handshakeRun arch forked text Ptr HmmMem window kernelWindow plan before
          flag).state.runtime.machine.value
    ∧ lastLoad (handshakeRun arch forked text Ptr HmmMem window kernelWindow plan before
          flag).state.runtime.trace
        = some (handshakeRun arch forked text Ptr HmmMem window kernelWindow plan before
          flag).state.runtime.machine.value
    ∧ ((handshakeRun arch forked text Ptr HmmMem window kernelWindow plan before
          flag).state.runtime.machine.value = 2
      ∨ (handshakeRun arch forked text Ptr HmmMem window kernelWindow plan before
          flag).state.runtime.machine.value = 3
      ∨ (handshakeRun arch forked text Ptr HmmMem window kernelWindow plan before
          flag).state.runtime.machine.value = 4)
    ∧ ((handshakeRun arch forked text Ptr HmmMem window kernelWindow plan before
          flag).state.runtime.machine.value = 4
        ↔ (2 ∈ loadsBeforeSync (handshakeRun arch forked text Ptr HmmMem window kernelWindow
              plan before flag).state.runtime.trace
          ∧ 3 ∈ (handshakeRun arch forked text Ptr HmmMem window kernelWindow plan before
              flag).state.runtime.machine.kernelReads))
    ∧ (handshakeRun arch forked text Ptr HmmMem window kernelWindow plan before
          flag).state.runtime.YES_COHERENT
        = (flag || decide ((handshakeRun arch forked text Ptr HmmMem window kernelWindow plan
            before flag).state.runtime.machine.value = 4))
    ∧ handshakeRun arch forked text Ptr HmmMem window kernelWindow plan other flag
        = handshakeRun arch forked text Ptr HmmMem window kernelWindow plan before flag := by
  obtain ⟨a, w1, hrun, -, hlast, hclass⟩ :=
    TstCoherency_sc arch forked text Ptr HmmMem window flag _
      (Quiet.start flag before plan kernelWindow)
  have hrun1 : handshakeRun arch forked text Ptr HmmMem window kernelWindow plan before flag
      = .ok a w1 := hrun
  refine ⟨?_, ?_, ?_, ?_, ?_, ?_, ?_,
    handshakeRun_forgets_value arch forked text Ptr HmmMem window kernelWindow plan before
      other flag⟩
  all_goals rw [hrun1]
  all_goals simp only [Step.isOk, Step.state]
  · rcases hclass with h | h | h
    · exact Or.inl h.2.1
    · exact Or.inr (Or.inl h.2.1)
    · exact Or.inr (Or.inr h.2.1)
  · rcases hclass with h | h | h <;> rw [h.1, h.2.1] <;> rfl
  · exact hlast
  · rcases hclass with h | h | h
    · exact Or.inl h.1
    · exact Or.inr (Or.inl h.1)
    · exact Or.inr (Or.inr h.1)
  · rcases hclass with h | h | h
    · rw [h.1]
      exact ⟨fun e => absurd e (by decide), fun e => absurd e.1 h.2.2.1⟩
    · rw [h.1]
      exact ⟨fun e => absurd e (by decide), fun e => absurd e.2 h.2.2.2.1⟩
    · exact ⟨fun _ => ⟨h.2.2.1, h.2.2.2.1⟩, fun _ => h.1⟩
  · rcases hclass with h | h | h
    · simp [h.1, h.2.2.2.2]
    · simp [h.1, h.2.2.2.2]
    · simp [h.1, h.2.2.2.2]


/-! ## Tests that set the environment variable, claims -/

theorem envTest_setenv_fails {μ : Type} (base requireLine : Nat) (value : String)
    (m : Machine μ) (child : Prog (TestState (World μ)) Int) (w : TestState (World μ))
    (h : (m.call (.setenv "HIP_HOST_COHERENT" value 1) w).1.out ≠ 0) :
    (envTest base requireLine value m child w).isRaised = true
      ∧ (envTest base requireLine value m child w).state.runtime.trace
        = w.runtime.trace ++ [(.setenv "HIP_HOST_COHERENT" value 1,
            (m.call (.setenv "HIP_HOST_COHERENT" value 1) w).1)] := by
  unfold envTest
  simp only [Prog.bind_apply, Machine.op_apply, Prog.ite_apply, h, ne_eq, not_false_eq_true,
    if_true, WARN, Prog.ofStmt, REQUIRE, Step.ofResult, ProcessEnd.ofReturn,
    ProcessEnd.andThen, ProcessEnd.isRaised, ProcessEnd.state, Bool.false_eq_true, if_false]
  exact ⟨trivial, rfl⟩

theorem gatedByHipCheck_runs {ρ : Type} (propsLine attrLine : Nat) (dev : Device)
    (whenManaged : TestStmt ρ) (w : TestState ρ) (hprops : dev.propsStatus = hipSuccess)
    (hxnack : (strstr dev.gcnArchName "xnack+").isSome = true)
    (hattr : dev.attrStatus = hipSuccess) (hmanaged : dev.managed = 1) :
    gatedByHipCheck propsLine attrLine dev whenManaged w = whenManaged w := by
  simp [gatedByHipCheck, HIPCHECK, HIP_CHECK, Outcome.toResult, hprops, hxnack, hattr,
    hmanaged]

theorem mmapBlock_mmap_fails {μ : Type} (m : Machine μ) (text : hipError_t → String)
    (window : Nat) (w : TestState (World μ)) (h : (m.call (.mmap 4) w).1.out = MAP_FAILED) :
    (mmapBlock m text window w).isRaised = true
      ∧ (mmapBlock m text window w).state.runtime.trace
        = w.runtime.trace ++ [(.mmap 4, (m.call (.mmap 4) w).1)] := by
  unfold mmapBlock
  simp only [Prog.toStmt, Prog.bind_apply, Machine.op_apply, Prog.ite_apply, h, if_true, WARN,
    Prog.ofStmt, REQUIRE, Step.ofResult, Step.toResult, TestResult.isRaised, TestResult.state,
    Bool.false_eq_true, if_false]
  exact ⟨trivial, rfl⟩

theorem mmapAdviseBlock_mmap_fails {μ : Type} (m : Machine μ) (w : TestState (World μ))
    (h : (m.call (.mmap 4) w).1.out = MAP_FAILED) :
    (mmapAdviseBlock m w).isRaised = true
      ∧ (mmapAdviseBlock m w).state.runtime.trace
        = w.runtime.trace ++ [(.mmap 4, (m.call (.mmap 4) w).1)] := by
  unfold mmapAdviseBlock
  simp only [Prog.toStmt, Prog.bind_apply, Machine.op_apply, Prog.ite_apply, h, if_true, WARN,
    Prog.ofStmt, REQUIRE, Step.ofResult, Step.toResult, TestResult.isRaised, TestResult.state,
    Bool.false_eq_true, if_false]
  exact ⟨trivial, rfl⟩


/-- C21: failures of the set-up are raised at once. In each of the eight
tests `Unit_hipHostMalloc_WthEnv*`, for every environment, if `setenv`
returns a value other than 0 the test raises a failure and `setenv` is the
one operation it made: no `fork`, no call of the runtime. In
`Unit_mmap_CoherentTst` and `Unit_mmap_CoherentTstWthAdvise`, on a device
that lets the block run, if `mmap` returns `MAP_FAILED` the test raises a
failure and `mmap` is the one operation of the block: the pointer is
neither read, nor written, nor given to the runtime. -/
theorem setup_failures_raise_before_any_use {μ : Type} (m : Machine μ)
    (text : hipError_t → String) (window : Nat) (dev : Device) (w : TestState (World μ)) :
    (∀ test ∈ envSquareTests m,
        (m.call (.setenv "HIP_HOST_COHERENT" "0" 1) w).1.out ≠ 0 →
          (test w).isRaised = true
          ∧ (test w).state.runtime.trace
            = w.runtime.trace ++ [(.setenv "HIP_HOST_COHERENT" "0" 1,
                (m.call (.setenv "HIP_HOST_COHERENT" "0" 1) w).1)])
    ∧ (∀ test ∈ envCoherencyTests m text window,
        (m.call (.setenv "HIP_HOST_COHERENT" "1" 1) w).1.out ≠ 0 →
          (test w).isRaised = true
          ∧ (test w).state.runtime.trace
            = w.runtime.trace ++ [(.setenv "HIP_HOST_COHERENT" "1" 1,
                (m.call (.setenv "HIP_HOST_COHERENT" "1" 1) w).1)])
    ∧ (dev.propsStatus = hipSuccess → (strstr dev.gcnArchName "xnack+").isSome = true →
        dev.attrStatus = hipSuccess → dev.managed = 1 →
        (m.call (.mmap 4) w).1.out = MAP_FAILED →
          ((Unit_mmap_CoherentTst dev (mmapBlock m text window) w).isRaised = true
            ∧ (Unit_mmap_CoherentTst dev (mmapBlock m text window) w).state.runtime.trace
              = w.runtime.trace ++ [(.mmap 4, (m.call (.mmap 4) w).1)])
          ∧ ((Unit_mmap_CoherentTstWthAdvise dev (mmapAdviseBlock m) w).isRaised = true
            ∧ (Unit_mmap_CoherentTstWthAdvise dev (mmapAdviseBlock m) w).state.runtime.trace
              = w.runtime.trace ++ [(.mmap 4, (m.call (.mmap 4) w).1)])) := by
  refine ⟨?_, ?_, ?_⟩
  · intro test htest h
    simp only [envSquareTests, List.mem_cons, List.mem_singleton, List.not_mem_nil,
      or_false] at htest
    rcases htest with rfl | rfl | rfl | rfl <;> exact envTest_setenv_fails _ _ _ m _ w h
  · intro test htest h
    simp only [envCoherencyTests, List.mem_cons, List.mem_singleton, List.not_mem_nil,
      or_false] at htest
    rcases htest with rfl | rfl | rfl | rfl <;> exact envTest_setenv_fails _ _ _ m _ w h
  · intro hprops hxnack hattr hmanaged h
    unfold Unit_mmap_CoherentTst Unit_mmap_CoherentTstWthAdvise
    rw [gatedByHipCheck_runs _ _ dev _ w hprops hxnack hattr hmanaged,
      gatedByHipCheck_runs _ _ dev _ w hprops hxnack hattr hmanaged]
    exact ⟨mmapBlock_mmap_fails m text window w h, mmapAdviseBlock_mmap_fails m w h⟩

/-- Witness of C21: an environment in which `setenv` and `mmap` fail. -/
theorem setup_failures_raise_before_any_use_witness :
    ((Unit_hipHostMalloc_WthEnv0Flg1 (failingSetup 0) (startAt false ())).isRaised = true
      ∧ (Unit_hipHostMalloc_WthEnv0Flg1 (failingSetup 0) (startAt false ())).state.runtime.trace
        = [] ++ [(.setenv "HIP_HOST_COHERENT" "0" 1, ⟨hipSuccess, -1, ""⟩)])
    ∧ ((Unit_hipHostMalloc_WthEnv1 (failingSetup 0) noText 3
          (startAt false ())).isRaised = true
      ∧ (Unit_hipHostMalloc_WthEnv1 (failingSetup 0) noText 3
          (startAt false ())).state.runtime.trace
        = [] ++ [(.setenv "HIP_HOST_COHERENT" "1" 1, ⟨hipSuccess, -1, ""⟩)])
    ∧ ((Unit_mmap_CoherentTst xnackManaged (mmapBlock (failingSetup 0) noText 3)
          (startAt false ())).isRaised = true
      ∧ (Unit_mmap_CoherentTst xnackManaged (mmapBlock (failingSetup 0) noText 3)
          (startAt false ())).state.runtime.trace
        = [] ++ [(.mmap 4, ⟨hipSuccess, MAP_FAILED, ""⟩)]) :=
  ⟨(setup_failures_raise_before_any_use (failingSetup 0) noText 3 xnackManaged
      (startAt false ())).1 _ (List.mem_cons_self _ _) (by decide),
    (setup_failures_raise_before_any_use (failingSetup 0) noText 3 xnackManaged
      (startAt false ())).2.1 _ (List.mem_cons_self _ _) (by decide),
    ((setup_failures_raise_before_any_use (failingSetup 0) noText 3 xnackManaged
      (startAt false ())).2.2 rfl (by decide) rfl rfl rfl).1⟩


theorem envTest_parent {μ : Type} (base requireLine : Nat) (value : String) (m : Machine μ)
    (child : Prog (TestState (World μ)) Int) (w : TestState (World μ))
    (hset : (m.call (.setenv "HIP_HOST_COHERENT" value 1) w).1.out = 0)
    (hfork : (m.call .fork (m.call (.setenv "HIP_HOST_COHERENT" value 1) w).2).1.out ≠ 0) :
    envTest base requireLine value m child w
      = if WEXITSTATUS (m.call .wait (m.call .fork
            (m.call (.setenv "HIP_HOST_COHERENT" value 1) w).2).2).1.out ≠ 10 then
          .raised ⟨coherencyFile, requireLine, "false", none⟩
            (m.call .wait (m.call .fork (m.call (.setenv "HIP_HOST_COHERENT" value 1) w).2).2).2
        else
          .returned
            (m.call .wait (m.call .fork
              (m.call (.setenv "HIP_HOST_COHERENT" value 1) w).2).2).2 := by
  unfold envTest
  by_cases hc : WEXITSTATUS (m.call .wait (m.call .fork
      (m.call (.setenv "HIP_HOST_COHERENT" value 1) w).2).2).1.out = 10
  · simp only [Prog.bind_apply, Machine.op_apply, Prog.ite_apply, hset, hfork, hc, ne_eq,
      not_true_eq_false, if_false, Prog.pure_apply, ProcessEnd.ofReturn, ProcessEnd.andThen,
      Prog.ofStmt, REQUIRE, Step.ofResult, Bool.false_eq_true]
  · simp only [Prog.bind_apply, Machine.op_apply, Prog.ite_apply, hset, hfork, hc, ne_eq,
      not_true_eq_false, not_false_eq_true, if_false, if_true, Prog.pure_apply,
      ProcessEnd.ofReturn, ProcessEnd.andThen, Prog.ofStmt, REQUIRE, Step.ofResult,
      Bool.false_eq_true]

theorem envTest_child {μ : Type} (base requireLine : Nat) (value : String) (m : Machine μ)
    (child : Prog (TestState (World μ)) Int) (w : TestState (World μ))
    (hset : (m.call (.setenv "HIP_HOST_COHERENT" value 1) w).1.out = 0)
    (hfork : (m.call .fork (m.call (.setenv "HIP_HOST_COHERENT" value 1) w).2).1.out = 0) :
    envTest base requireLine value m child w
      = ProcessEnd.ofExit
          (child (m.call .fork (m.call (.setenv "HIP_HOST_COHERENT" value 1) w).2).2) := by
  unfold envTest
  simp only [Prog.bind_apply, Machine.op_apply, Prog.ite_apply, hset, hfork, ne_eq,
    not_true_eq_false, if_false, if_true, Prog.pure_apply, ProcessEnd.ofReturn,
    ProcessEnd.andThen]

theorem setYES_COHERENT_since {μ : Type} (value flag : Bool) (trace : List (Op × Answer)) :
    Prog.Ensures (Since flag trace)
      (setYES_COHERENT value : Prog (TestState (World μ)) Unit) fun _ => Since value trace :=
  fun _ h => ⟨(), _, rfl, rfl, h.2⟩

theorem squareChild_ensures {μ : Type} (base : Nat) (flags : HostMallocFlags)
    (mallocText : String) (m : Machine μ) (hall : m.RuntimeSucceeds) (flag : Bool)
    (trace : List (Op × Answer)) :
    Prog.Ensures (Since flag trace) (squareChild base flags mallocText m) fun code w =>
      (∃ ext, w.runtime.trace = trace ++ ext)
        ∧ code = if lastLoad w.runtime.trace = some 16 then 10 else 9 := by
  unfold squareChild
  dsimp only
  refine Prog.Ensures.bind (setYES_COHERENT_since false flag trace) fun _ => ?_
  refine Prog.Ensures.bind (Q := fun _ => Since false trace)
    (m.HIP_CHECK_ensures hall _ _ _ _ (by rfl) fun w h => h.step m _) fun Ptr => ?_
  refine Prog.Ensures.bind (Q := fun _ => Since false trace)
    (m.op_ensures _ fun w h => h.step m _) fun _ => ?_
  refine Prog.Ensures.bind (Q := fun _ => Since false trace)
    (m.HIP_CHECK_ensures hall _ _ _ _ (by rfl) fun w h => h.step m _) fun strm => ?_
  refine Prog.Ensures.bind (Q := fun _ => Since false trace)
    (m.HIP_CHECK_ensures hall _ _ _ _ (by rfl) fun w h => h.step m _) fun PtrD => ?_
  refine Prog.Ensures.bind (Q := fun _ => Since false trace)
    (m.op_ensures _ fun w h => h.step m _) fun _ => ?_
  refine Prog.Ensures.bind (Q := fun _ => Since false trace)
    (m.HIP_CHECK_ensures hall _ _ _ _ (by rfl) fun w h => h.step m _) fun _ => ?_
  refine Prog.Ensures.bind (Q := fun _ => Since false trace)
    (m.HIP_CHECK_ensures hall _ _ _ _ (by rfl) fun w h => h.step m _) fun _ => ?_
  refine Prog.Ensures.bind
    (Q := fun v w => (∃ ext, w.runtime.trace = trace ++ ext)
      ∧ lastLoad w.runtime.trace = some v.out)
    (m.op_ensures _ fun w h => ⟨(h.step m _).2, by
      rw [Machine.call_trace]; exact lastLoad_concat _ _ _⟩) fun v => ?_
  refine Prog.Ensures.ite (fun hv => ?_) (fun hv => ?_)
  · refine Prog.Ensures.bind
      (Q := fun _ w => (∃ ext, w.runtime.trace = trace ++ ext)
        ∧ lastLoad w.runtime.trace = some v.out)
      (m.HIP_CHECK_ensures hall _ _ _ _ (by rfl) fun w h => ?_) fun _ => ?_
    · obtain ⟨⟨ext, he⟩, hl⟩ := h
      refine ⟨⟨ext ++ [_], by rw [Machine.call_trace, he, List.append_assoc]⟩, ?_⟩
      rw [Machine.call_trace, lastLoad_concat_other _ _ _ (by rfl)]
      exact hl
    · refine Prog.Ensures.pure _ fun w h => ⟨h.1, ?_⟩
      rw [h.2, hv]
      rfl
  · refine Prog.Ensures.bind
      (Q := fun _ w => (∃ ext, w.runtime.trace = trace ++ ext)
        ∧ lastLoad w.runtime.trace = some v.out)
      (m.HIP_CHECK_ensures hall _ _ _ _ (by rfl) fun w h => ?_) fun _ => ?_
    · obtain ⟨⟨ext, he⟩, hl⟩ := h
      refine ⟨⟨ext ++ [_], by rw [Machine.call_trace, he, List.append_assoc]⟩, ?_⟩
      rw [Machine.call_trace, lastLoad_concat_other _ _ _ (by rfl)]
      exact hl
    · refine Prog.Ensures.pure _ fun w h => ⟨h.1, ?_⟩
      rw [h.2, if_neg (fun e => hv (Option.some.inj e))]

theorem TstCoherency_since {μ : Type} (m : Machine μ) (hall : m.RuntimeSucceeds)
    (text : hipError_t → String) (Ptr : Int) (HmmMem : Bool) (window : Nat)
    (trace : List (Op × Answer)) :
    Prog.Ensures (Since false trace) (TstCoherency m text Ptr HmmMem window) fun _ w =>
      (∃ ext, w.runtime.trace = trace ++ ext)
        ∧ (w.runtime.YES_COHERENT = true ↔ lastLoad w.runtime.trace = some 4) := by
  unfold TstCoherency
  refine Prog.Ensures.bind (TstCoherency_launch_since m hall text Ptr HmmMem false trace)
    fun strm => ?_
  refine Prog.Ensures.bind (hostLoop_since m Ptr window false trace) fun _ => ?_
  intro w hw
  refine ⟨(), _, TstCoherency_verdict_ok m hall Ptr strm w, ?_⟩
  have hsince := ((hw.step m (.hipStreamSynchronize strm)).step m
    (.hipStreamDestroy strm)).step m (.load Ptr)
  have hlast : lastLoad (m.call (.load Ptr) (m.call (.hipStreamDestroy strm)
      (m.call (.hipStreamSynchronize strm) w).2).2).2.runtime.trace
      = some (m.call (.load Ptr) (m.call (.hipStreamDestroy strm)
        (m.call (.hipStreamSynchronize strm) w).2).2).1.out := by
    rw [Machine.call_trace]
    exact lastLoad_concat _ _ _
  split
  · rename_i h4
    refine ⟨hsince.2, ?_⟩
    show true = true ↔ lastLoad _ = some 4
    rw [hlast, h4]
    simp
  · rename_i h4
    refine ⟨hsince.2, ?_⟩
    rw [hlast, hsince.1]
    constructor
    · intro e
      exact absurd e (by decide)
    · intro e
      exact absurd (Option.some.inj e) h4

theorem coherencyChild_ensures {μ : Type} (base : Nat) (flags : HostMallocFlags)
    (mallocText : String) (initial : Int) (m : Machine μ) (hall : m.RuntimeSucceeds)
    (text : hipError_t → String) (window : Nat) (flag : Bool) (trace : List (Op × Answer)) :
    Prog.Ensures (Since flag trace)
      (coherencyChild base flags mallocText initial m text window) fun code w =>
        (∃ ext, w.runtime.trace = trace ++ ext)
          ∧ code = (if w.runtime.YES_COHERENT = true then 10 else 9)
          ∧ (w.runtime.YES_COHERENT = true ↔ lastLoad w.runtime.trace = some 4) := by
  unfold coherencyChild
  dsimp only
  refine Prog.Ensures.bind (setYES_COHERENT_since false flag trace) fun _ => ?_
  refine Prog.Ensures.bind (Q := fun _ => Since false trace)
    (m.HIP_CHECK_ensures hall _ _ _ _ (by rfl) fun w h => h.step m _) fun Ptr => ?_
  refine Prog.Ensures.bind (Q := fun _ => Since false trace)
    (m.op_ensures _ fun w h => h.step m _) fun _ => ?_
  refine Prog.Ensures.bind (TstCoherency_since m hall text _ _ window trace) fun _ => ?_
  refine Prog.Ensures.bind
    (Q := fun b w => ((∃ ext, w.runtime.trace = trace ++ ext)
      ∧ (w.runtime.YES_COHERENT = true ↔ lastLoad w.runtime.trace = some 4))
      ∧ b = w.runtime.YES_COHERENT)
    (fun w h => ⟨_, _, rfl, h, rfl⟩) fun b => ?_
  have hfree : ∀ line : Nat, ∀ Ptr : Int,
      Prog.Ensures
        (fun w => ((∃ ext, w.runtime.trace = trace ++ ext)
          ∧ (w.runtime.YES_COHERENT = true ↔ lastLoad w.runtime.trace = some 4))
          ∧ b = w.runtime.YES_COHERENT)
        (m.HIP_CHECK line coherencyFile "hipHostFree(Ptr)" (.hipHostFree Ptr))
        fun _ w => ((∃ ext, w.runtime.trace = trace ++ ext)
          ∧ (w.runtime.YES_COHERENT = true ↔ lastLoad w.runtime.trace = some 4))
          ∧ b = w.runtime.YES_COHERENT := by
    intro line Ptr
    refine m.HIP_CHECK_ensures hall _ _ _ _ (by rfl) fun w h => ?_
    obtain ⟨⟨⟨ext, he⟩, hl⟩, hb⟩ := h
    refine ⟨⟨⟨ext ++ [_], by rw [Machine.call_trace, he, List.append_assoc]⟩, ?_⟩, hb⟩
    rw [Machine.call_trace, lastLoad_concat_other _ _ _ (by rfl)]
    exact hl
  refine Prog.Ensures.ite (fun hb => ?_) (fun hb => ?_)
  · refine Prog.Ensures.bind (hfree _ _) fun _ => ?_
    refine Prog.Ensures.pure _ fun w h => ⟨h.1.1, ?_, h.1.2⟩
    rw [← h.2, hb]
    rfl
  · refine Prog.Ensures.bind (hfree _ _) fun _ => ?_
    refine Prog.Ensures.pure _ fun w h => ⟨h.1.1, ?_, h.1.2⟩
    rw [← h.2, if_neg hb]


theorem envTest_verdict {μ : Type} (base requireLine : Nat) (value : String) (m : Machine μ)
    (child : Prog (TestState (World μ)) Int) (w : TestState (World μ))
    (R : Int → TestState (World μ) → Prop)
    (hchild : m.RuntimeSucceeds → ∀ flag trace,
      Prog.Ensures (Since flag trace) child fun code w1 =>
        (∃ ext, w1.runtime.trace = trace ++ ext) ∧ R code w1)
    (a1 : Answer) (w1 : TestState (World μ)) (a2 : Answer) (w2 : TestState (World μ))
    (h1 : m.call (.setenv "HIP_HOST_COHERENT" value 1) w = (a1, w1)) (hset : a1.out = 0)
    (h2 : m.call .fork w1 = (a2, w2)) :
    (a2.out ≠ 0 → ∀ a3 w3, m.call .wait w2 = (a3, w3) →
        (envTest base requireLine value m child w).state.runtime.trace
          = w.runtime.trace
            ++ [(.setenv "HIP_HOST_COHERENT" value 1, a1), (.fork, a2), (.wait, a3)]
        ∧ ((envTest base requireLine value m child w).isRaised = true
          ↔ WEXITSTATUS a3.out ≠ 10)
        ∧ (WEXITSTATUS a3.out = 10 → envTest base requireLine value m child w = .returned w3))
    ∧ (a2.out = 0 → m.RuntimeSucceeds →
        ∃ code w3, envTest base requireLine value m child w = .exited code w3
          ∧ (∃ rest, w3.runtime.trace
              = w.runtime.trace
                ++ (.setenv "HIP_HOST_COHERENT" value 1, a1) :: (.fork, a2) :: rest)
          ∧ R code w3) := by
  have e1 : (m.call (.setenv "HIP_HOST_COHERENT" value 1) w).1 = a1 := by rw [h1]
  have e2 : (m.call (.setenv "HIP_HOST_COHERENT" value 1) w).2 = w1 := by rw [h1]
  have e3 : (m.call .fork w1).1 = a2 := by rw [h2]
  have e4 : (m.call .fork w1).2 = w2 := by rw [h2]
  have t1 : w1.runtime.trace
      = w.runtime.trace ++ [(.setenv "HIP_HOST_COHERENT" value 1, a1)] := by
    rw [← e2, Machine.call_trace, e1]
  have t2 : w2.runtime.trace
      = w.runtime.trace ++ [(.setenv "HIP_HOST_COHERENT" value 1, a1), (.fork, a2)] := by
    rw [← e4, Machine.call_trace, e3, t1, List.append_assoc]
    rfl
  constructor
  · intro hfork a3 w3 h3
    have e5 : (m.call .wait w2).1 = a3 := by rw [h3]
    have e6 : (m.call .wait w2).2 = w3 := by rw [h3]
    have t3 : w3.runtime.trace
        = w.runtime.trace
          ++ [(.setenv "HIP_HOST_COHERENT" value 1, a1), (.fork, a2), (.wait, a3)] := by
      rw [← e6, Machine.call_trace, e5, t2, List.append_assoc]
      rfl
    have hrun := envTest_parent base requireLine value m child w (by rw [e1]; exact hset)
      (by rw [e2, e3]; exact hfork)
    rw [e2, e4, e5, e6] at hrun
    rw [hrun]
    by_cases hc : WEXITSTATUS a3.out = 10
    · simp [hc, ProcessEnd.state, ProcessEnd.isRaised, t3]
    · simp [hc, ProcessEnd.state, ProcessEnd.isRaised, t3]
  · intro hfork hall
    have hrun := envTest_child base requireLine value m child w (by rw [e1]; exact hset)
      (by rw [e2, e3]; exact hfork)
    rw [e2, e4] at hrun
    obtain ⟨code, w3, hc, ⟨ext, hext⟩, hR⟩ :=
      hchild hall w2.runtime.YES_COHERENT w2.runtime.trace w2 ⟨rfl, [], by simp⟩
    refine ⟨code, w3, ?_, ⟨ext, ?_⟩, hR⟩
    · rw [hrun, hc]
      rfl
    · rw [hext, t2, List.append_assoc]
      rfl

/-- C22: the tests that set `HIP_HOST_COHERENT`, for every environment in
which `setenv` returns 0. In each of the eight tests the trace of the
process begins with `setenv` followed by `fork`. In the parent (`fork`
does not return 0) the only further operation is `wait`, so the parent makes
no call of the runtime; it raises a failure if and only if
`WEXITSTATUS(stat)` is not 10 and returns otherwise. In the child (`fork`
returns 0), when every call of the runtime succeeds, the process ends by
`exit`: in the tests `Unit_hipHostMalloc_WthEnv0Flg1` to `Flg4` with code 10
if the last value read back is 16 and with 9 otherwise; in
`Unit_hipHostMalloc_WthEnv1` and `Unit_hipHostMalloc_WthEnv1Flg1` to `Flg3`
with code 10 if `YES_COHERENT` is true, which holds exactly when the last
read of the integer gave 4, and with 9 otherwise. -/
theorem env_tests_verdict_is_the_exit_status {μ : Type} (m : Machine μ)
    (text : hipError_t → String) (window : Nat) (w : TestState (World μ)) :
    (∀ test ∈ envSquareTests m, ∀ a1 w1 a2 w2,
        m.call (.setenv "HIP_HOST_COHERENT" "0" 1) w = (a1, w1) → a1.out = 0 →
        m.call .fork w1 = (a2, w2) →
          (a2.out ≠ 0 → ∀ a3 w3, m.call .wait w2 = (a3, w3) →
              (test w).state.runtime.trace
                = w.runtime.trace
                  ++ [(.setenv "HIP_HOST_COHERENT" "0" 1, a1), (.fork, a2), (.wait, a3)]
              ∧ ((test w).isRaised = true ↔ WEXITSTATUS a3.out ≠ 10)
              ∧ (WEXITSTATUS a3.out = 10 → test w = .returned w3))
          ∧ (a2.out = 0 → m.RuntimeSucceeds →
              ∃ code w3, test w = .exited code w3
                ∧ (∃ rest, w3.runtime.trace
                    = w.runtime.trace
                      ++ (.setenv "HIP_HOST_COHERENT" "0" 1, a1) :: (.fork, a2) :: rest)
                ∧ code = if lastLoad w3.runtime.trace = some 16 then 10 else 9))
    ∧ (∀ test ∈ envCoherencyTests m text window, ∀ a1 w1 a2 w2,
        m.call (.setenv "HIP_HOST_COHERENT" "1" 1) w = (a1, w1) → a1.out = 0 →
        m.call .fork w1 = (a2, w2) →
          (a2.out ≠ 0 → ∀ a3 w3, m.call .wait w2 = (a3, w3) →
              (test w).state.runtime.trace
                = w.runtime.trace
                  ++ [(.setenv "HIP_HOST_COHERENT" "1" 1, a1), (.fork, a2), (.wait, a3)]
              ∧ ((test w).isRaised = true ↔ WEXITSTATUS a3.out ≠ 10)
              ∧ (WEXITSTATUS a3.out = 10 → test w = .returned w3))
          ∧ (a2.out = 0 → m.RuntimeSucceeds →
              ∃ code w3, test w = .exited code w3
                ∧ (∃ rest, w3.runtime.trace
                    = w.runtime.trace
                      ++ (.setenv "HIP_HOST_COHERENT" "1" 1, a1) :: (.fork, a2) :: rest)
                ∧ code = (if w3.runtime.YES_COHERENT = true then 10 else 9)
                ∧ (w3.runtime.YES_COHERENT = true ↔ lastLoad w3.runtime.trace = some 4))) := by
  constructor
  · intro test htest a1 w1 a2 w2 h1 hset h2
    simp only [envSquareTests, List.mem_cons, List.mem_singleton, List.not_mem_nil,
      or_false] at htest
    rcases htest with rfl | rfl | rfl | rfl <;>
      exact envTest_verdict _ _ _ m _ w _
        (fun hall flag trace => squareChild_ensures _ _ _ m hall flag trace)
        a1 w1 a2 w2 h1 hset h2
  · intro test htest a1 w1 a2 w2 h1 hset h2
    simp only [envCoherencyTests, List.mem_cons, List.mem_singleton, List.not_mem_nil,
      or_false] at htest
    rcases htest with rfl | rfl | rfl | rfl <;>
      exact envTest_verdict _ _ _ m _ w _
        (fun hall flag trace => coherencyChild_ensures _ _ _ _ m hall text window flag trace)
        a1 w1 a2 w2 h1 hset h2


/-- Witness of C22: a child on the shared integer, where every call of the
runtime succeeds, and a parent whose child exited with 10. -/
theorem env_tests_verdict_is_the_exit_status_witness :
    (∃ code w3,
        Unit_hipHostMalloc_WthEnv0Flg1 (scMachine "gfx90a" 0) (startAt false (sharedAt 0 [] 4))
          = .exited code w3
        ∧ (∃ rest, w3.runtime.trace
            = [] ++ (.setenv "HIP_HOST_COHERENT" "0" 1, ⟨hipSuccess, 0, ""⟩)
                :: (.fork, ⟨hipSuccess, 0, ""⟩) :: rest)
        ∧ code = if lastLoad w3.runtime.trace = some 16 then 10 else 9)
    ∧ ((Unit_hipHostMalloc_WthEnv1 (parentSide 2560) noText 3
          (startAt false ())).state.runtime.trace
        = [] ++ [(.setenv "HIP_HOST_COHERENT" "1" 1, ⟨hipSuccess, 0, ""⟩),
            (.fork, ⟨hipSuccess, 4242, ""⟩), (.wait, ⟨hipSuccess, 2560, ""⟩)]
      ∧ ((Unit_hipHostMalloc_WthEnv1 (parentSide 2560) noText 3
            (startAt false ())).isRaised = true ↔ WEXITSTATUS 2560 ≠ 10)
      ∧ (WEXITSTATUS 2560 = 10 →
          Unit_hipHostMalloc_WthEnv1 (parentSide 2560) noText 3 (startAt false ())
            = .returned ((parentSide 2560).call .wait ((parentSide 2560).call .fork
                ((parentSide 2560).call (.setenv "HIP_HOST_COHERENT" "1" 1)
                  (startAt false ())).2).2).2)) :=
  ⟨((env_tests_verdict_is_the_exit_status (scMachine "gfx90a" 0) noText 3
        (startAt false (sharedAt 0 [] 4))).1 _ (List.mem_cons_self _ _) _ _ _ _
        rfl rfl rfl).2 rfl (scMachine_succeeds _ _),
    ((env_tests_verdict_is_the_exit_status (parentSide 2560) noText 3
        (startAt false ())).2 _ (List.mem_cons_self _ _) _ _ _ _
        rfl rfl rfl).1 (by decide) _ _ rfl⟩

set_option maxRecDepth 100000 in
/-- C25, the code at the failing input: `YES_COHERENT` is true when
`Unit_mmap_CoherentTst` starts (left so by an earlier test of the same
process), the device has xnack and managed memory, `mmap` succeeds, and the
kernel makes no step before the host synchronises: the host reads 1 three
times and its window is over, so the handshake of this run does not
complete and the integer reads 2 at the end of `TstCoherency`. The test passes all the same, because it does not reset
`YES_COHERENT`; on the same input `Unit_malloc_CoherentTst`, which resets
it, raises a failure. -/
theorem mmap_test_passes_on_a_stale_flag :
    (Unit_mmap_CoherentTst xnackManaged (mmapBlock (scMachine "gfx90a" 0) noText 3)
        (startAt true (sharedAt 0 [] 4))).isCompleted = true
    ∧ lastLoad (Unit_mmap_CoherentTst xnackManaged (mmapBlock (scMachine "gfx90a" 0) noText 3)
        (startAt true (sharedAt 0 [] 4))).state.runtime.trace = some 2
    ∧ (Unit_mmap_CoherentTst xnackManaged (mmapBlock (scMachine "gfx90a" 0) noText 3)
        (startAt true (sharedAt 0 [] 4))).state.runtime.machine.value = 2
    ∧ (Unit_malloc_CoherentTst xnackManaged (mallocBlock (scMachine "gfx90a" 0) noText 3)
        (startAt true (sharedAt 0 [] 4))).isRaised = true := by
  decide


end HipTest
